import Mathlib

/-!
# SlabCut: G-code generation, scenario ranking and project sharing

A shallow embedding of `internal/gcode/generator.go`, of the ranking loop of
`internal/ui/compare.go` and of `internal/project/sharing.go`.

Conventions of the embedding:

* `float64` quantities are exact rationals (`ℚ`); `int` quantities are `Int`.
* A `strings.Builder` is the list of the lines written to it.  One `Line` is
  recorded per `WriteString` call; it keeps the command word taken from the
  profile and the numbers handed to `g.format`, before they are rendered with
  the decimal places of the profile.
* The text of a comment is kept as the arguments of its `fmt.Sprintf` call.
-/

namespace SlabCut

/-! ## Data model -/

/-- Modelled from the spec: the fields of `model.Part` that the generator reads
(`model/part.go` is not among the sources). -/
structure Part where
  Label : String
  Width : ℚ
  Height : ℚ
  deriving DecidableEq, Repr

/-- Modelled from the spec: `model.Placement`, one part positioned on a sheet. -/
structure Placement where
  Part : Part
  X : ℚ
  Y : ℚ
  Rotated : Bool
  deriving DecidableEq, Repr

/-- Modelled from the spec: `Placement.PlacedWidth`; a rotated placement has
the bounding rectangle `height × width`. -/
def Placement.PlacedWidth (p : Placement) : ℚ :=
  if p.Rotated then p.Part.Height else p.Part.Width

/-- Modelled from the spec: `Placement.PlacedHeight`; a rotated placement has
the bounding rectangle `height × width`. -/
def Placement.PlacedHeight (p : Placement) : ℚ :=
  if p.Rotated then p.Part.Width else p.Part.Height

/-- Modelled from the spec: `model.StockSheet`, the fields printed by the header. -/
structure StockSheet where
  Label : String
  Width : ℚ
  Height : ℚ
  deriving DecidableEq, Repr

/-- Modelled from the spec: `model.SheetResult`, a stock sheet with its placements. -/
structure SheetResult where
  Stock : StockSheet
  Placements : List Placement
  deriving DecidableEq, Repr

/-- Modelled from the spec: `SheetResult.Efficiency`, the sum of the placed
areas over the sheet area, in percent. -/
def SheetResult.Efficiency (s : SheetResult) : ℚ :=
  (s.Placements.map (fun p => p.PlacedWidth * p.PlacedHeight)).sum
    / (s.Stock.Width * s.Stock.Height) * 100

/-- Modelled from the spec: `model.OptimizeResult`, the ordered sheets. -/
structure OptimizeResult where
  Sheets : List SheetResult
  deriving DecidableEq, Repr

/-- Modelled from the spec: the fields of `model.CutSettings` read by the generator. -/
structure CutSettings where
  ToolDiameter : ℚ
  FeedRate : ℚ
  PlungeRate : ℚ
  SpindleSpeed : Int
  SafeZ : ℚ
  CutDepth : ℚ
  PassDepth : ℚ
  PartTabsPerSide : Int
  PartTabWidth : ℚ
  PartTabHeight : ℚ
  deriving DecidableEq, Repr

/-- Modelled from the spec: `model.GCodeProfile`, a record of dialect strings. -/
structure GCodeProfile where
  Name : String
  CommentPrefix : String
  CommentSuffix : String
  StartCode : List String
  EndCode : List String
  SpindleStart : String
  SpindleStop : String
  RapidMove : String
  FeedMove : String
  DecimalPlaces : Int
  deriving DecidableEq, Repr

/-- Generator of `generator.go`: the cut settings and the resolved profile. -/
structure Generator where
  Settings : CutSettings
  profile : GCodeProfile
  deriving DecidableEq, Repr

/-! ## Output lines -/

/-- The arguments of the `fmt.Sprintf` calls that build comment text. -/
inductive Text where
  /-- `" CNCCalculator GCode — Sheet %d (%s)"` -/
  | sheetTitle (idx : Int) (label : String)
  /-- `" Stock: %.1f x %.1f mm"` -/
  | stock (w h : ℚ)
  /-- `" Parts: %d, Efficiency: %.1f%%"` -/
  | parts (n : Nat) (eff : ℚ)
  /-- `" Tool: %.1fmm, Feed: %.0f mm/min, Plunge: %.0f mm/min"` -/
  | tool (d feed plunge : ℚ)
  /-- `" Depth: %.1fmm in %.1fmm passes"` -/
  | depth (cut pass : ℚ)
  /-- `" Profile: %s"` -/
  | profileName (name : String)
  /-- `" === Job complete ==="` -/
  | jobComplete
  /-- `"--- Part %d: %s (%.1f x %.1f)%s ---"` -/
  | partBanner (num : Int) (label : String) (w h : ℚ) (rotated : String)
  /-- `"Pass %d/%d, depth=%.2fmm"` -/
  | pass (pass numPasses : Int) (depth : ℚ)
  deriving DecidableEq, Repr

/-- One line written to the builder. -/
inductive Line where
  /-- `p.CommentPrefix` followed by the text and a newline (header, footer). -/
  | prefixed (pre : String) (t : Text)
  /-- `g.comment(text)`: prefix, blank, text, suffix, newline. -/
  | comment (pre : String) (t : Text) (suf : String)
  /-- `"\n"` -/
  | blank
  /-- A start or end code of the profile, or its spindle stop, written verbatim. -/
  | code (s : String)
  /-- The spindle start format string applied to the spindle speed. -/
  | spindle (fmt : String) (speed : Int)
  /-- `"%s X%s Y%s\n"` with the rapid word. -/
  | rapidXY (word : String) (x y : ℚ)
  /-- `"%s Z%s\n"` with the rapid word. -/
  | rapidZ (word : String) (z : ℚ)
  /-- `"%s Z%s F%s ; Plunge\n"` with the feed word. -/
  | plunge (word : String) (z f : ℚ)
  /-- `"%s X%s Y%s F%s\n"` with the feed word. -/
  | feedXYF (word : String) (x y f : ℚ)
  /-- `"%s X%s Y%s\n"` with the feed word. -/
  | feedXY (word : String) (x y : ℚ)
  /-- `"%s Z%s\n"` with the feed word. -/
  | feedZ (word : String) (z : ℚ)
  deriving DecidableEq, Repr

/-! ## The generator (`internal/gcode/generator.go`) -/

/-- Rational stand-in for `math.Sqrt`: the integer square roots of numerator and
denominator.  It is exact on squares of rationals, the only arguments that the
axis-aligned sides of `writePerimeterWithTabs` produce. -/
def mathSqrt (q : ℚ) : ℚ :=
  (Nat.sqrt q.num.toNat : ℚ) / (Nat.sqrt q.den : ℚ)

/-- Suffix of the part banner, `rotatedStr`. -/
def rotatedStr (r : Bool) : String :=
  if r then " [rotated]" else ""

/-- Comment line in the profile syntax, `Generator.comment`. -/
def Generator.comment (g : Generator) (t : Text) : Line :=
  Line.comment g.profile.CommentPrefix t g.profile.CommentSuffix

/-- Lines of `Generator.writeHeader`. -/
def Generator.writeHeader (g : Generator) (sheet : SheetResult) (idx : Int) : List Line :=
  let p := g.profile
  [ Line.prefixed p.CommentPrefix (Text.sheetTitle idx sheet.Stock.Label),
    Line.prefixed p.CommentPrefix (Text.stock sheet.Stock.Width sheet.Stock.Height),
    Line.prefixed p.CommentPrefix (Text.parts sheet.Placements.length sheet.Efficiency),
    Line.prefixed p.CommentPrefix
      (Text.tool g.Settings.ToolDiameter g.Settings.FeedRate g.Settings.PlungeRate),
    Line.prefixed p.CommentPrefix (Text.depth g.Settings.CutDepth g.Settings.PassDepth),
    Line.prefixed p.CommentPrefix (Text.profileName p.Name),
    Line.blank ]
  ++ p.StartCode.map Line.code
  ++ (if p.SpindleStart ≠ "" then [Line.spindle p.SpindleStart g.Settings.SpindleSpeed] else [])
  ++ [ Line.rapidXY p.RapidMove 0 0,
       Line.rapidZ p.RapidMove g.Settings.SafeZ,
       Line.blank ]

/-- Scan of `strings.ReplaceAll` for a non-empty `old`, from left to right: at an
occurrence of `old` it writes `new` and skips the occurrence, the counter
holding how many of its characters are still to skip; elsewhere it copies the
character. -/
def ReplaceAll.go (old new : List Char) : Nat → List Char → List Char
  | _, [] => []
  | skip + 1, _ :: cs => ReplaceAll.go old new skip cs
  | 0, c :: cs =>
    if old <+: c :: cs then new ++ ReplaceAll.go old new (old.length - 1) cs
    else c :: ReplaceAll.go old new 0 cs

/-- The function `strings.ReplaceAll` of the Go library: every non-overlapping
occurrence of `old` in `s`, from the left, is replaced by `new`; an empty `old`
matches before every character and at the end. -/
def ReplaceAll (s old new : String) : String :=
  if old.data = [] then ⟨new.data ++ s.data.flatMap (fun c => c :: new.data)⟩
  else ⟨ReplaceAll.go old.data new.data 0 s.data⟩

/-- Lines of `Generator.writeFooter`; the rendering `g.format` of the safe-Z
value that replaces the `[SafeZ]` token is the parameter `fmt`. -/
def Generator.writeFooter (g : Generator) (fmt : ℚ → String) : List Line :=
  let p := g.profile
  [ Line.blank, Line.prefixed p.CommentPrefix Text.jobComplete ]
  ++ p.EndCode.map (fun code => Line.code (ReplaceAll code "[SafeZ]" (fmt g.Settings.SafeZ)))
  ++ (if p.SpindleStop ≠ "" then [Line.code p.SpindleStop] else [])

/-- Plain rectangle perimeter, `Generator.writePerimeter`. -/
def Generator.writePerimeter (g : Generator) (x0 y0 x1 y1 : ℚ) : List Line :=
  let p := g.profile
  [ Line.feedXYF p.FeedMove x1 y0 g.Settings.FeedRate,
    Line.feedXY p.FeedMove x1 y1,
    Line.feedXY p.FeedMove x0 y1,
    Line.feedXY p.FeedMove x0 y0 ]

/-- Holding tab position along the perimeter: side 0 = bottom, 1 = right,
2 = top, 3 = left, and the distance along that side. -/
structure Tab where
  side : Int
  startPos : ℚ
  deriving DecidableEq, Repr

/-- Tab positions of a placement, `Generator.calculateTabs`. -/
def Generator.calculateTabs (g : Generator) (p : Placement) : List Tab :=
  if g.Settings.PartTabsPerSide ≤ 0 then []
  else
    let pw := p.PlacedWidth + g.Settings.ToolDiameter
    let ph := p.PlacedHeight + g.Settings.ToolDiameter
    (List.range 4).flatMap (fun side =>
      let length := if side = 0 ∨ side = 2 then pw else ph
      let spacing := length / (((g.Settings.PartTabsPerSide + 1 : Int) : ℚ))
      (List.range g.Settings.PartTabsPerSide.toNat).map (fun t =>
        { side := (side : Int), startPos := spacing * (((t + 1 : Nat) : ℚ)) }))

/-- Tabs of one side, `Generator.tabsForSide`. -/
def Generator.tabsForSide (_g : Generator) (tabs : List Tab) (side : Int) : List Tab :=
  tabs.filter (fun t => t.side = side)

/-- Loop of `writeSideWithTabs` over the tabs of a side, with the running cursor. -/
def Generator.writeSideLoop (g : Generator) (x0 y0 nx ny cutDepth tabDepth tabWidth : ℚ) :
    List Tab → ℚ → List Line
  | [], _ => []
  | tab :: rest, cursor =>
    let tabStart := tab.startPos - tabWidth / 2
    let tabEnd := tab.startPos + tabWidth / 2
    (if tabStart > cursor then
        [Line.feedXYF g.profile.FeedMove (x0 + nx * tabStart) (y0 + ny * tabStart)
          g.Settings.FeedRate]
      else [])
    ++ [ Line.feedZ g.profile.FeedMove (-tabDepth),
         Line.feedXY g.profile.FeedMove (x0 + nx * tabEnd) (y0 + ny * tabEnd),
         Line.feedZ g.profile.FeedMove (-cutDepth) ]
    ++ Generator.writeSideLoop g x0 y0 nx ny cutDepth tabDepth tabWidth rest tabEnd

/-- One side of the final pass, `Generator.writeSideWithTabs`. -/
def Generator.writeSideWithTabs (g : Generator) (x0 y0 x1 y1 : ℚ) (_isHoriz : Bool)
    (cutDepth tabDepth tabWidth : ℚ) (tabs : List Tab) : List Line :=
  if tabs.length = 0 then
    [Line.feedXYF g.profile.FeedMove x1 y1 g.Settings.FeedRate]
  else
    let dx := x1 - x0
    let dy := y1 - y0
    let length := mathSqrt (dx * dx + dy * dy)
    if length < 1 / 1000 then []
    else
      let nx := dx / length
      let ny := dy / length
      Generator.writeSideLoop g x0 y0 nx ny cutDepth tabDepth tabWidth tabs 0
      ++ [Line.feedXYF g.profile.FeedMove x1 y1 g.Settings.FeedRate]

/-- Perimeter of the final pass, `Generator.writePerimeterWithTabs`. -/
def Generator.writePerimeterWithTabs (g : Generator) (x0 y0 x1 y1 depth : ℚ)
    (tabs : List Tab) : List Line :=
  let tabDepth := if depth - g.Settings.PartTabHeight < 0 then 0
                  else depth - g.Settings.PartTabHeight
  let tw := g.Settings.PartTabWidth
  g.writeSideWithTabs x0 y0 x1 y0 true depth tabDepth tw (g.tabsForSide tabs 0)
  ++ g.writeSideWithTabs x1 y0 x1 y1 false depth tabDepth tw (g.tabsForSide tabs 1)
  ++ g.writeSideWithTabs x1 y1 x0 y1 true depth tabDepth tw (g.tabsForSide tabs 2)
  ++ g.writeSideWithTabs x0 y1 x0 y0 false depth tabDepth tw (g.tabsForSide tabs 3)

/-- Number of passes of `writePart`: `int(math.Ceil(CutDepth / PassDepth))`.
A zero `PassDepth`, for which Go divides to an infinity, gives no pass here. -/
def Generator.numPasses (g : Generator) : Int :=
  ⌈g.Settings.CutDepth / g.Settings.PassDepth⌉

/-- Depth of pass `pass`: `pass * PassDepth`, capped at `CutDepth`. -/
def Generator.passDepth (g : Generator) (pass : Int) : ℚ :=
  if (pass : ℚ) * g.Settings.PassDepth > g.Settings.CutDepth then g.Settings.CutDepth
  else (pass : ℚ) * g.Settings.PassDepth

/-- Body of the pass loop of `writePart` for pass number `pass`. -/
def Generator.writePass (g : Generator) (p : Placement) (tabs : List Tab) (pass : Int) :
    List Line :=
  let toolR := g.Settings.ToolDiameter / 2
  let pw := p.PlacedWidth
  let ph := p.PlacedHeight
  let x0 := p.X - toolR
  let y0 := p.Y - toolR
  let x1 := p.X + pw + toolR
  let y1 := p.Y + ph + toolR
  let depth := g.passDepth pass
  [ g.comment (Text.pass pass g.numPasses depth),
    Line.rapidXY g.profile.RapidMove x0 y0,
    Line.plunge g.profile.FeedMove (-depth) g.Settings.PlungeRate ]
  ++ (if pass = g.numPasses ∧ g.Settings.PartTabsPerSide > 0 then
        g.writePerimeterWithTabs x0 y0 x1 y1 depth tabs
      else g.writePerimeter x0 y0 x1 y1)
  ++ [ Line.rapidZ g.profile.RapidMove g.Settings.SafeZ ]

/-- Lines of `Generator.writePart`: banner, the passes `1 .. numPasses`, blank. -/
def Generator.writePart (g : Generator) (p : Placement) (partNum : Int) : List Line :=
  [ g.comment (Text.partBanner partNum p.Part.Label p.Part.Width p.Part.Height
      (rotatedStr p.Rotated)) ]
  ++ (List.range g.numPasses.toNat).flatMap (fun i =>
        g.writePass p (g.calculateTabs p) ((i : Int) + 1))
  ++ [ Line.blank ]

/-- Lines of `Generator.GenerateSheet`: header, the parts numbered from 1, footer. -/
def Generator.GenerateSheet (g : Generator) (fmt : ℚ → String) (sheet : SheetResult)
    (sheetIndex : Int) : List Line :=
  g.writeHeader sheet sheetIndex
  ++ (sheet.Placements.enum.flatMap (fun ip => g.writePart ip.2 ((ip.1 : Int) + 1)))
  ++ g.writeFooter fmt

/-- Programs of `Generator.GenerateAll`, one per sheet, numbered from 1. -/
def Generator.GenerateAll (g : Generator) (fmt : ℚ → String) (result : OptimizeResult) :
    List (List Line) :=
  result.Sheets.enum.map (fun is => g.GenerateSheet fmt is.2 ((is.1 : Int) + 1))

/-! ## Reading the output -/

/-- XY point programmed by a line, when it programs one. -/
def Line.xy? : Line → Option (ℚ × ℚ)
  | Line.rapidXY _ x y => some (x, y)
  | Line.feedXYF _ x y _ => some (x, y)
  | Line.feedXY _ x y => some (x, y)
  | _ => none

/-- XY points programmed by a list of lines, in order. -/
def xyPoints (ls : List Line) : List (ℚ × ℚ) :=
  ls.filterMap Line.xy?

/-- Z value of a plunge line. -/
def Line.plungeZ? : Line → Option ℚ
  | Line.plunge _ z _ => some z
  | _ => none

/-- Lines that open a pass: the `Pass i/n` comment. -/
def Line.isPassStart : Line → Bool
  | Line.comment _ (Text.pass _ _ _) _ => true
  | _ => false

/-- Feed lines of a perimeter: XY feeds and Z feeds without the plunge note. -/
def Line.isFeed : Line → Bool
  | Line.feedXYF _ _ _ _ => true
  | Line.feedXY _ _ _ => true
  | Line.feedZ _ _ => true
  | _ => false

/-- Z feed lines (`"%s Z%s\n"` with the feed word); only tab lifts write them. -/
def Line.isFeedZ : Line → Bool
  | Line.feedZ _ _ => true
  | _ => false

/-- Number of tab lift sequences in a list of lines: a Z feed, the XY traverse
of the tab, and the Z feed back. -/
def tabLifts : List Line → Nat
  | Line.feedZ _ _ :: Line.feedXY _ _ _ :: Line.feedZ _ _ :: rest => tabLifts rest + 1
  | _ :: rest => tabLifts rest
  | [] => 0

/-- The four sides written by `writePerimeterWithTabs` on the final pass of a
placement, in the order bottom, right, top, left. -/
def finalPassSides (g : Generator) (p : Placement) : List (List Line) :=
  let toolR := g.Settings.ToolDiameter / 2
  let x0 := p.X - toolR
  let y0 := p.Y - toolR
  let x1 := p.X + p.PlacedWidth + toolR
  let y1 := p.Y + p.PlacedHeight + toolR
  let depth := g.passDepth g.numPasses
  let tabDepth := if depth - g.Settings.PartTabHeight < 0 then 0
                  else depth - g.Settings.PartTabHeight
  let tw := g.Settings.PartTabWidth
  let tabs := g.calculateTabs p
  [ g.writeSideWithTabs x0 y0 x1 y0 true depth tabDepth tw (g.tabsForSide tabs 0),
    g.writeSideWithTabs x1 y0 x1 y1 false depth tabDepth tw (g.tabsForSide tabs 1),
    g.writeSideWithTabs x1 y1 x0 y1 true depth tabDepth tw (g.tabsForSide tabs 2),
    g.writeSideWithTabs x0 y1 x0 y0 false depth tabDepth tw (g.tabsForSide tabs 3) ]

/-- Corners of the rectangle offset outward by the tool radius, starting at
`(px - r, py - r)` and going through `(px + pw + r, py - r)`,
`(px + pw + r, py + ph + r)` and `(px - r, py + ph + r)`. -/
def offsetCorners (g : Generator) (p : Placement) : List (ℚ × ℚ) :=
  let r := g.Settings.ToolDiameter / 2
  [ (p.X - r, p.Y - r),
    (p.X + p.PlacedWidth + r, p.Y - r),
    (p.X + p.PlacedWidth + r, p.Y + p.PlacedHeight + r),
    (p.X - r, p.Y + p.PlacedHeight + r) ]

/-- Twice the signed area enclosed by a closed path (shoelace sum); it is
positive for a counter-clockwise path when Y points up. -/
def signedArea2 : List (ℚ × ℚ) → ℚ
  | a :: b :: rest => (a.1 * b.2 - b.1 * a.2) + signedArea2 (b :: rest)
  | _ => 0

/-- The text of a comment: the constant of the `Job complete` line as the source
has it, any other text as the rendering `sprintf` of its format string gives it. -/
def Text.render (sprintf : Text → String) : Text → String
  | Text.jobComplete => " === Job complete ==="
  | t => sprintf t

/-- The comment that a line carries, without its newline, when it carries one:
the whole line for the lines of the header, the footer and `g.comment`, and the
annotation `; Plunge` of the format string of a plunge. -/
def Line.commentString (sprintf : Text → String) : Line → Option String
  | Line.prefixed pre t => some (pre ++ t.render sprintf)
  | Line.comment pre t suf => some (pre ++ " " ++ t.render sprintf ++ suf)
  | Line.plunge _ _ _ => some "; Plunge"
  | _ => none

/-- The comment begins with the comment prefix of the profile and ends with its
comment suffix. -/
def wrapsComment (p : GCodeProfile) (c : String) : Prop :=
  p.CommentPrefix.data <+: c.data ∧ p.CommentSuffix.data <:+ c.data

instance (p : GCodeProfile) (c : String) : Decidable (wrapsComment p c) := by
  unfold wrapsComment
  infer_instance

/-- The text is a decimal number as `%.*f` writes a finite value: not empty, and
made of digits, the point and the minus sign. -/
def decimalText (s : String) : Prop :=
  s.data ≠ [] ∧ ∀ c ∈ s.data, c.isDigit = true ∨ c = '.' ∨ c = '-'

instance (s : String) : Decidable (decimalText s) := by
  unfold decimalText
  infer_instance

/-- The text cannot build the token `[SafeZ]` together with its surroundings: it
holds no bracket and is not a part of the token (so it is not empty). -/
def tokenFree (s : String) : Prop :=
  '[' ∉ s.data ∧ ']' ∉ s.data ∧ ¬ s.data <:+: "[SafeZ]".data

instance (s : String) : Decidable (tokenFree s) := by
  unfold tokenFree
  infer_instance

/-- Part number and label of a part banner line. -/
def Line.banner? : Line → Option (Int × String)
  | Line.comment _ (Text.partBanner num label _ _ _) _ => some (num, label)
  | _ => none

/-! ## Tool motion -/

/-- Position of the tool. -/
structure Tool where
  x : ℚ
  y : ℚ
  z : ℚ
  deriving DecidableEq, Repr

/-- Position of the tool after a line. -/
def Line.exec (t : Tool) : Line → Tool
  | Line.rapidXY _ x y => { t with x := x, y := y }
  | Line.rapidZ _ z => { t with z := z }
  | Line.plunge _ z _ => { t with z := z }
  | Line.feedXYF _ x y _ => { t with x := x, y := y }
  | Line.feedXY _ x y => { t with x := x, y := y }
  | Line.feedZ _ z => { t with z := z }
  | _ => t

/-- What the tool does at feed rate in the XY plane. -/
inductive Event where
  /-- A tab: from height `zBefore` a Z feed to `zUp`, an XY feed from
  `(fromX, fromY)` to `(toX, toY)`, a Z feed to `zDown`. -/
  | lift (zBefore zUp fromX fromY toX toY zDown : ℚ)
  /-- Any other XY feed move, made at height `z`. -/
  | cut (z fromX fromY toX toY : ℚ)
  deriving DecidableEq, Repr

/-- The tab lifts and the other XY feed moves of a list of lines run from tool
position `t`, in order. -/
def events : Tool → List Line → List Event
  | t, Line.feedZ _ zu :: Line.feedXY _ x y :: Line.feedZ _ zd :: rest =>
      Event.lift t.z zu t.x t.y x y zd :: events { x := x, y := y, z := zd } rest
  | t, Line.feedXYF _ x y _ :: rest =>
      Event.cut t.z t.x t.y x y :: events { t with x := x, y := y } rest
  | t, Line.feedXY _ x y :: rest =>
      Event.cut t.z t.x t.y x y :: events { t with x := x, y := y } rest
  | t, l :: rest => events (l.exec t) rest
  | _, [] => []

/-- The profile of a side with tabs: a lift starts at `Z = -cutDepth`, rises to
`Z = -tabDepth`, travels `tabWidth` parallel to an axis and returns to
`Z = -cutDepth`; every other XY feed move is made at `Z = -cutDepth`. -/
def TabProfile (cutDepth tabDepth tabWidth : ℚ) : Event → Prop
  | Event.lift zBefore zUp fromX fromY toX toY zDown =>
      zBefore = -cutDepth ∧ zUp = -tabDepth ∧ zDown = -cutDepth ∧
      ((toX - fromX = tabWidth ∧ toY - fromY = 0) ∨
       (toX - fromX = 0 ∧ toY - fromY = tabWidth) ∨
       (toX - fromX = -tabWidth ∧ toY - fromY = 0) ∨
       (toX - fromX = 0 ∧ toY - fromY = -tabWidth))
  | Event.cut z _ _ _ _ => z = -cutDepth

/-- No tab starts before the cursor: each tab starts at or after the end of the
tab before it. -/
def Spaced (tabWidth : ℚ) : ℚ → List Tab → Prop
  | _, [] => True
  | cursor, tab :: rest =>
      cursor ≤ tab.startPos - tabWidth / 2 ∧ Spaced tabWidth (tab.startPos + tabWidth / 2) rest

/-- The first tab starts strictly after the cursor, or the tool stands at the
cursor position of the side from `(x0, y0)` in direction `(nx, ny)`. -/
def HeadReady (tabWidth x0 y0 nx ny cursor : ℚ) (t : Tool) : List Tab → Prop
  | [] => True
  | tab :: _ =>
      cursor < tab.startPos - tabWidth / 2 ∨ (t.x = x0 + nx * cursor ∧ t.y = y0 + ny * cursor)

/-! ## Scenario ranking (`internal/ui/compare.go`) -/

/-- Modelled from the spec: `engine.ComparisonResult`, one row of the comparison
table (`engine/compare.go` is not among the sources). -/
structure ComparisonResult where
  ScenarioName : String
  SheetsUsed : Int
  TotalCuts : Int
  WastePercent : ℚ
  UnplacedCount : Int
  deriving DecidableEq, Repr

/-- The ranking loop of `showComparisonResults` from index `i` on, with the
state `(bestIdx, bestScore)`. -/
def showComparisonResults.bestLoop : List ComparisonResult → Nat → Nat × ℚ → Nat × ℚ
  | [], _, st => st
  | r :: rest, i, (bestIdx, bestScore) =>
    let score := 100 - r.WastePercent
    if r.UnplacedCount = 0 ∧ score > bestScore then
      showComparisonResults.bestLoop rest (i + 1) (i, score)
    else
      showComparisonResults.bestLoop rest (i + 1) (bestIdx, bestScore)

/-- Index of the row that `showComparisonResults` marks with `*`: the loop
started with `bestIdx := 0` and `bestScore := -1.0`. -/
def showComparisonResults.bestIdx (results : List ComparisonResult) : Nat :=
  (showComparisonResults.bestLoop results 0 (0, -1)).1

/-- Invariant of the ranking loop after the rows `pre` of `all`: either no row
of `pre` places every part and the state is still the initial one, or the state
points at a row that places every part with the least waste among such rows of
`pre`. -/
def RankInv (all pre : List ComparisonResult) (st : Nat × ℚ) : Prop :=
  (st = (0, -1) ∧ ∀ r ∈ pre, r.UnplacedCount ≠ 0) ∨
  (∃ b, all[st.1]? = some b ∧ b.UnplacedCount = 0 ∧ st.2 = 100 - b.WastePercent ∧
    ∀ r ∈ pre, r.UnplacedCount = 0 → b.WastePercent ≤ r.WastePercent)

/-! ## Shared projects (`internal/project/sharing.go`) -/

/-- Modelled from the spec: `model.ProjectMetadata`, the metadata of a project. -/
structure ProjectMetadata where
  Author : String
  CreatedAt : String
  UpdatedAt : String
  Version : String
  Notes : String
  SharedFrom : String
  deriving DecidableEq, Repr, Inhabited

/-- Modelled from the spec: `model.Project`; export and import carry its parts,
stocks, settings and result unchanged, so they keep the fields of the generator
model. -/
structure Project where
  Name : String
  Parts : List Part
  Stocks : List StockSheet
  Settings : CutSettings
  Result : Option OptimizeResult
  Metadata : ProjectMetadata
  deriving DecidableEq, Repr

/-- File format of shared projects, `SharedProject`. -/
structure SharedProject where
  FormatVersion : String
  SharedAt : String
  SharedBy : String
  Project : Project
  deriving DecidableEq, Repr

/-- The zero value `model.CutSettings{}`. -/
def CutSettings.zero : CutSettings :=
  { ToolDiameter := 0, FeedRate := 0, PlungeRate := 0, SpindleSpeed := 0, SafeZ := 0,
    CutDepth := 0, PassDepth := 0, PartTabsPerSide := 0, PartTabWidth := 0,
    PartTabHeight := 0 }

/-- The zero value `model.Project{}`. -/
def Project.zero : Project :=
  { Name := "", Parts := [], Stocks := [], Settings := CutSettings.zero, Result := none,
    Metadata := { Author := "", CreatedAt := "", UpdatedAt := "", Version := "",
                  Notes := "", SharedFrom := "" } }

/-- Content of a file as `encoding/json` sees it: the outcome of
`json.Unmarshal` into a `SharedProject` and into a `model.Project` (`none` when
it returns an error). -/
structure FileData where
  asShared : Option SharedProject
  asProject : Option Project
  deriving DecidableEq, Repr

/-- File written by `json.MarshalIndent(shared)`: for a well-formed project the
encoding is lossless, so it decodes back to `shared`; decoded as a plain project
no field of the wrapper matches and the zero project results. -/
def marshalShared (shared : SharedProject) : FileData :=
  { asShared := some shared, asProject := some Project.zero }

/-- File written by `ExportShared` when marshalling and writing succeed; `now` is
`time.Now().UTC().Format(time.RFC3339)`. -/
def ExportShared (now : String) (proj : Project) (author notes : String) : FileData :=
  let proj1 := { proj with Metadata := { proj.Metadata with UpdatedAt := now } }
  let proj2 := if proj1.Metadata.CreatedAt = "" then
      { proj1 with Metadata := { proj1.Metadata with CreatedAt := now } } else proj1
  let proj3 := { proj2 with Metadata :=
    { proj2.Metadata with Author := author, Notes := notes, Version := "1.0" } }
  marshalShared { FormatVersion := "1.0", SharedAt := now, SharedBy := author, Project := proj3 }

/-- Result of `ImportShared` on a path whose file is `file` (`none` when
`os.ReadFile` fails). -/
def ImportShared (file : Option FileData) : Except String Project :=
  match file with
  | none => Except.error "failed to read shared file"
  | some data =>
    match data.asShared with
    | some shared =>
      if shared.FormatVersion ≠ "" then
        let proj := shared.Project
        if proj.Metadata.SharedFrom = "" then
          Except.ok { proj with Metadata := { proj.Metadata with SharedFrom := shared.SharedBy } }
        else Except.ok proj
      else
        match data.asProject with
        | some proj => Except.ok proj
        | none => Except.error "failed to parse project file"
    | none =>
      match data.asProject with
      | some proj => Except.ok proj
      | none => Except.error "failed to parse project file"

/-- File written by `Save`, that is by `json.MarshalIndent(proj)`: for a
well-formed project the encoding is lossless, so it decodes back to `proj`;
decoded as a `SharedProject` no field of a plain project matches and the zero
wrapper results. -/
def Save (proj : Project) : FileData :=
  { asShared := some { FormatVersion := "", SharedAt := "", SharedBy := "",
                       Project := Project.zero },
    asProject := some proj }

/-- Result of `Load` on a path whose file is `file` (`none` when `os.ReadFile`
fails). When `json.Unmarshal` fails Go also hands back the partly decoded
project next to the error; that value is not kept here. -/
def Load (file : Option FileData) : Except String Project :=
  match file with
  | none => Except.error "read error"
  | some data =>
    match data.asProject with
    | some proj => Except.ok proj
    | none => Except.error "unmarshal error"

/-! ## Parts library (`internal/model/library.go`, `internal/project/library.go`) -/

/-- A `float64` that comes out of `strconv.ParseFloat` or of a JSON file: a
finite number (an exact rational), an infinity, or NaN. -/
inductive Float64 where
  | fin (q : ℚ)
  | posInf
  | negInf
  | nan
  deriving DecidableEq, Repr

/-- The Go comparison `x <= 0`; it is false on NaN. -/
def Float64.leZero : Float64 → Bool
  | Float64.fin q => decide (q ≤ 0)
  | Float64.posInf => false
  | Float64.negInf => true
  | Float64.nan => false

/-- The Go comparison `x > 0`; it is false on NaN. -/
def Float64.isPos : Float64 → Bool
  | Float64.fin q => decide (0 < q)
  | Float64.posInf => true
  | Float64.negInf => false
  | Float64.nan => false

/-- Finite values, the ones `encoding/json` can write. -/
def Float64.isFinite : Float64 → Bool
  | Float64.fin _ => true
  | _ => false

/-- Modelled from the spec: `model.Grain`, the grain direction of a part. -/
inductive Grain where
  | None
  | Horizontal
  | Vertical
  deriving DecidableEq, Repr

/-- A part of the personal parts library, `LibraryPart`. -/
structure LibraryPart where
  ID : String
  Label : String
  Width : Float64
  Height : Float64
  Grain : Grain
  Category : String
  Material : String
  Thickness : Float64
  Notes : String
  Tags : List String
  deriving DecidableEq, Repr

/-- The user's parts library, `PartsLibrary`. `Parts` is `none` for a nil slice,
which `LoadLibrary` tests for; `Categories` and `Tags` are only measured, ranged
over and appended to, so for them nil and empty are the same list. -/
structure PartsLibrary where
  Parts : Option (List LibraryPart)
  Categories : List String
  deriving DecidableEq, Repr

/-- The zero value `model.PartsLibrary{}`. -/
def PartsLibrary.zero : PartsLibrary :=
  { Parts := none, Categories := [] }

/-- An empty library with the default category, `NewPartsLibrary`. -/
def NewPartsLibrary : PartsLibrary :=
  { Parts := some [], Categories := ["General"] }

/-- What `os.ReadFile` and `json.Unmarshal` make of the library file at a path. -/
inductive LibraryFile where
  /-- `os.ReadFile` fails with an error for which `os.IsNotExist` holds. -/
  | missing
  /-- `os.ReadFile` fails with another error. -/
  | unreadable (err : String)
  /-- The file is read; `decoded` is the outcome of `json.Unmarshal` into a zero
  `PartsLibrary`: an error, or the library with a nil `Parts` where the file has
  no parts and no categories where the file has none. -/
  | content (decoded : Except String PartsLibrary)
  deriving Repr

/-- Parts whose numbers `encoding/json` can write: `json.Marshal` fails on NaN
and on the infinities. -/
def LibraryPart.marshals (p : LibraryPart) : Bool :=
  p.Width.isFinite && p.Height.isFinite && p.Thickness.isFinite

/-- Outcome of `SaveLibrary`: the error of `json.MarshalIndent`, or the file
written. For a library that marshals the encoding is lossless, so the file
decodes back to the library. -/
def SaveLibrary (lib : PartsLibrary) : Except String LibraryFile :=
  if (lib.Parts.getD []).all LibraryPart.marshals then
    Except.ok (LibraryFile.content (Except.ok lib))
  else Except.error "json: unsupported value"

/-- Result of `LoadLibrary`: the library and the error (`none` for `nil`). -/
def LoadLibrary : LibraryFile → PartsLibrary × Option String
  | LibraryFile.missing => (NewPartsLibrary, none)
  | LibraryFile.unreadable err => (PartsLibrary.zero, some err)
  | LibraryFile.content (Except.error err) => (PartsLibrary.zero, some err)
  | LibraryFile.content (Except.ok lib) =>
    let lib1 := if lib.Categories.length = 0 then { lib with Categories := ["General"] }
                else lib
    let lib2 := if lib1.Parts = none then { lib1 with Parts := some [] } else lib1
    (lib2, none)

/-! ## CSV import (`internal/importer/importer.go`) -/

/-- The functions of package `strconv` that the importers call, as parameters;
`none` stands for a non-nil error. -/
structure Strconv where
  ParseFloat : String → Option Float64
  Atoi : String → Option Int

/-- Modelled from the spec: the `model.Part` that `model.NewPart` builds for the
importer: label, width and height as parsed, quantity and grain; the generated
ID is left out. -/
structure ImportedPart where
  Label : String
  Width : Float64
  Height : Float64
  Quantity : Int
  Grain : Grain
  deriving DecidableEq, Repr

/-- Modelled from the spec: `model.NewPart(label, width, height, qty)`, a part
with grain `None`. -/
def NewPart (label : String) (width height : Float64) (qty : Int) : ImportedPart :=
  { Label := label, Width := width, Height := height, Quantity := qty, Grain := Grain.None }

/-- Entries of `ImportResult.Errors`, with the arguments of their `fmt.Sprintf`. -/
inductive ImportError where
  /-- `"File is empty"` -/
  | fileEmpty
  /-- `"Line %d: Not enough columns (need at least: Label, Width, Height, Quantity)"` -/
  | notEnoughColumns (line : Int)
  /-- `"Line %d: Invalid width '%s'"` -/
  | invalidWidth (line : Int) (value : String)
  /-- `"Line %d: Invalid height '%s'"` -/
  | invalidHeight (line : Int) (value : String)
  /-- `"Line %d: Invalid quantity '%s'"` -/
  | invalidQuantity (line : Int) (value : String)
  /-- `"Line %d: Width, height, and quantity must be positive"` -/
  | notPositive (line : Int)
  deriving DecidableEq, Repr

/-- Entries of `ImportResult.Warnings`, with the arguments of their `fmt.Sprintf`. -/
inductive ImportWarning where
  /-- `"Detected header row, skipping"` -/
  | headerSkipped
  /-- `"Line %d: Unknown grain direction '%s', defaulting to None"` -/
  | unknownGrain (line : Int) (value : String)
  deriving DecidableEq, Repr

/-- Results of an import operation, `ImportResult`. -/
structure ImportResult where
  Parts : List ImportedPart
  Errors : List ImportError
  Warnings : List ImportWarning
  deriving DecidableEq, Repr

/-- Rows that the loop of `ImportCSV` skips: no field, or one empty field. -/
def ImportCSV.isEmptyRow (row : List String) : Prop :=
  row.length = 0 ∨ (row.length = 1 ∧ row.getD 0 "" = "")

instance (row : List String) : Decidable (ImportCSV.isEmptyRow row) := by
  unfold ImportCSV.isEmptyRow; infer_instance

/-- Body of the row loop of `ImportCSV` for one row, with `lineNum` as it is
after the increment at the top of the body. -/
def ImportCSV.row (sc : Strconv) (result : ImportResult) (lineNum : Int)
    (row : List String) : ImportResult :=
  if ImportCSV.isEmptyRow row then result
  else if row.length < 4 then
    { result with Errors := result.Errors ++ [ImportError.notEnoughColumns lineNum] }
  else
    let label := if row.getD 0 "" = "" then "Part " ++ toString (result.Parts.length + 1)
                 else row.getD 0 ""
    match sc.ParseFloat (row.getD 1 "") with
    | none =>
      { result with Errors :=
          result.Errors ++ [ImportError.invalidWidth lineNum (row.getD 1 "")] }
    | some width =>
      match sc.ParseFloat (row.getD 2 "") with
      | none =>
        { result with Errors :=
            result.Errors ++ [ImportError.invalidHeight lineNum (row.getD 2 "")] }
      | some height =>
        match sc.Atoi (row.getD 3 "") with
        | none =>
          { result with Errors :=
              result.Errors ++ [ImportError.invalidQuantity lineNum (row.getD 3 "")] }
        | some qty =>
          if width.leZero = true ∨ height.leZero = true ∨ qty ≤ 0 then
            { result with Errors := result.Errors ++ [ImportError.notPositive lineNum] }
          else
            let part := NewPart label width height qty
            if row.length ≥ 5 then
              let grainStr := row.getD 4 ""
              if grainStr = "Horizontal" ∨ grainStr = "H" ∨ grainStr = "h" then
                { result with Parts :=
                    result.Parts ++ [{ part with Grain := Grain.Horizontal }] }
              else if grainStr = "Vertical" ∨ grainStr = "V" ∨ grainStr = "v" then
                { result with Parts :=
                    result.Parts ++ [{ part with Grain := Grain.Vertical }] }
              else if grainStr = "" ∨ grainStr = "None" ∨ grainStr = "N" ∨ grainStr = "n" then
                { result with Parts := result.Parts ++ [{ part with Grain := Grain.None }] }
              else
                { result with
                    Parts := result.Parts ++ [part],
                    Warnings :=
                      result.Warnings ++ [ImportWarning.unknownGrain lineNum grainStr] }
            else
              { result with Parts := result.Parts ++ [part] }

/-- Row loop of `ImportCSV` over the remaining rows; `lineNum` is the counter
before the increment at the top of the body. -/
def ImportCSV.loop (sc : Strconv) : List (List String) → Int → ImportResult → ImportResult
  | [], _, result => result
  | row :: rest, lineNum, result =>
    ImportCSV.loop sc rest (lineNum + 1) (ImportCSV.row sc result (lineNum + 1) row)

/-- Header test of `ImportCSV`: the first row has at least three fields and its
second field does not parse as a float. -/
def ImportCSV.hasHeader (sc : Strconv) (records : List (List String)) : Prop :=
  (records.headD []).length ≥ 3 ∧ sc.ParseFloat ((records.headD []).getD 1 "") = none

instance (sc : Strconv) (records : List (List String)) :
    Decidable (ImportCSV.hasHeader sc records) := by
  unfold ImportCSV.hasHeader; infer_instance

/-- Result of `ImportCSV` once the file is opened and read into `records`; the
reader returns records that all have as many fields as the first one. -/
def ImportCSV (sc : Strconv) (records : List (List String)) : ImportResult :=
  if records.length = 0 then
    { Parts := [], Errors := [ImportError.fileEmpty], Warnings := [] }
  else if ImportCSV.hasHeader sc records then
    ImportCSV.loop sc (records.drop 1) (1 + 1)
      { Parts := [], Errors := [], Warnings := [ImportWarning.headerSkipped] }
  else
    ImportCSV.loop sc (records.drop 0) (0 + 1) { Parts := [], Errors := [], Warnings := [] }

/-- The rows that `ImportCSV` treats as data: all rows but a detected header. -/
def ImportCSV.dataRows (sc : Strconv) (records : List (List String)) : List (List String) :=
  if ImportCSV.hasHeader sc records then records.drop 1 else records

/-- Width, height and quantity of a data row in the words of the spec: the row
has at least four fields, its width and height parse as floats and its quantity
as an integer, and all three are positive. -/
def ImportCSV.rowDims? (sc : Strconv) (row : List String) : Option (Float64 × Float64 × Int) :=
  if 4 ≤ row.length then
    match sc.ParseFloat (row.getD 1 "") with
    | none => none
    | some w =>
      match sc.ParseFloat (row.getD 2 "") with
      | none => none
      | some h =>
        match sc.Atoi (row.getD 3 "") with
        | none => none
        | some q => if w.isPos = true ∧ h.isPos = true ∧ 0 < q then some (w, h, q) else none
  else none

/-- Rows that the loop of `ImportCSV` does not skip. -/
def ImportCSV.isDataRow (row : List String) : Bool :=
  decide (¬ ImportCSV.isEmptyRow row)

/-- Rows without valid dimensions. -/
def ImportCSV.isBadRow (sc : Strconv) (row : List String) : Bool :=
  (ImportCSV.rowDims? sc row).isNone

/-- Width, height and quantity of an imported part. -/
def ImportedPart.dims (p : ImportedPart) : Float64 × Float64 × Int :=
  (p.Width, p.Height, p.Quantity)

/-! ## CSV import into the library (`internal/ui/library.go`) -/

/-- The functions of package `strings` that `importCSVToLibraryParts` calls, as
parameters. -/
structure Strings where
  TrimSpace : String → String
  ToLower : String → String
  Split : String → String → List String

/-- A library part with the given ID, `NewLibraryPart`; in Go the ID is the
start of a fresh UUID. -/
def NewLibraryPart (id label : String) (w h : Float64) (grain : Grain) : LibraryPart :=
  { ID := id, Label := label, Width := w, Height := h, Grain := grain, Category := "",
    Material := "", Thickness := Float64.fin 0, Notes := "", Tags := [] }

/-- Entries of `csvLibraryResult.errors`, with the arguments of their
`fmt.Sprintf`. -/
inductive CsvLibraryError where
  /-- `"CSV file must have a header row and at least one data row"` -/
  | tooShort
  /-- `"CSV must have 'label', 'width', and 'height' columns"` -/
  | missingColumns
  /-- `"Row %d: not enough columns"` -/
  | notEnoughColumns (row : Int)
  /-- `"Row %d: empty label"` -/
  | emptyLabel (row : Int)
  /-- `"Row %d: invalid width"` -/
  | invalidWidth (row : Int)
  /-- `"Row %d: invalid height"` -/
  | invalidHeight (row : Int)
  deriving DecidableEq, Repr

/-- Parts and errors of a library import, `csvLibraryResult`. -/
structure csvLibraryResult where
  parts : List LibraryPart
  errors : List CsvLibraryError
  deriving DecidableEq, Repr

/-- The loop `for i, col := range header { colIndex[key(col)] = i }`, followed at
the single key `name`: `acc` is the entry for `name` so far, `i` the index of
the next column. -/
def colIndex.go (st : Strings) (name : String) : List String → Nat → Option Nat → Option Nat
  | [], _, acc => acc
  | col :: rest, i, acc =>
    colIndex.go st name rest (i + 1)
      (if st.TrimSpace (st.ToLower col) = name then some i else acc)

/-- Lookup `colIndex[name]` in the map built from the header: the index of the
last column whose lower-cased and trimmed name is `name`, if there is one. -/
def colIndex (st : Strings) (header : List String) (name : String) : Option Nat :=
  colIndex.go st name header 0 none

/-- The cell of an optional column: `if idx, ok := colIndex[name]; ok && idx < len(row)`
followed by `row[idx]`. -/
def optCell (st : Strings) (header row : List String) (name : String) : Option String :=
  match colIndex st header name with
  | some idx => if idx < row.length then some (row.getD idx "") else none
  | none => none

/-- The library part that `importCSVToLibraryParts` builds for a row with valid
label, width and height. -/
def importCSVToLibraryParts.build (st : Strings) (sc : Strconv) (header row : List String)
    (id label : String) (w h : Float64) : LibraryPart :=
  let grain :=
    match optCell st header row "grain" with
    | some c =>
      if st.TrimSpace (st.ToLower c) = "horizontal" ∨ st.TrimSpace (st.ToLower c) = "h" then
        Grain.Horizontal
      else if st.TrimSpace (st.ToLower c) = "vertical" ∨ st.TrimSpace (st.ToLower c) = "v" then
        Grain.Vertical
      else Grain.None
    | none => Grain.None
  let lp := NewLibraryPart id label w h grain
  let lp :=
    match optCell st header row "category" with
    | some c => { lp with Category := st.TrimSpace c }
    | none => lp
  let lp :=
    match optCell st header row "material" with
    | some c => { lp with Material := st.TrimSpace c }
    | none => lp
  let lp :=
    match optCell st header row "thickness" with
    | some c =>
      match sc.ParseFloat (st.TrimSpace c) with
      | some t => { lp with Thickness := t }
      | none => lp
    | none => lp
  let lp :=
    match optCell st header row "notes" with
    | some c => { lp with Notes := st.TrimSpace c }
    | none => lp
  match optCell st header row "tags" with
  | some c =>
    if st.TrimSpace c ≠ "" then
      { lp with
          Tags := lp.Tags ++
            List.filter (fun t => decide (t ≠ ""))
              (List.map st.TrimSpace (st.Split (st.TrimSpace c) ";")) }
    else lp
  | none => lp

/-- Body of the row loop of `importCSVToLibraryParts` for the data row number
`rowNum` (from 0), given the indices of the required columns. -/
def importCSVToLibraryParts.row (st : Strings) (sc : Strconv) (ids : Nat → String)
    (header : List String) (labelIdx widthIdx heightIdx : Nat)
    (result : csvLibraryResult) (rowNum : Nat) (row : List String) : csvLibraryResult :=
  let lineNum : Int := (rowNum : Int) + 2
  if row.length ≤ labelIdx ∨ row.length ≤ widthIdx ∨ row.length ≤ heightIdx then
    { result with errors := result.errors ++ [CsvLibraryError.notEnoughColumns lineNum] }
  else
    let label := st.TrimSpace (row.getD labelIdx "")
    if label = "" then
      { result with errors := result.errors ++ [CsvLibraryError.emptyLabel lineNum] }
    else
      match sc.ParseFloat (st.TrimSpace (row.getD widthIdx "")) with
      | none =>
        { result with errors := result.errors ++ [CsvLibraryError.invalidWidth lineNum] }
      | some w =>
        if w.leZero = true then
          { result with errors := result.errors ++ [CsvLibraryError.invalidWidth lineNum] }
        else
          match sc.ParseFloat (st.TrimSpace (row.getD heightIdx "")) with
          | none =>
            { result with errors := result.errors ++ [CsvLibraryError.invalidHeight lineNum] }
          | some h =>
            if h.leZero = true then
              { result with
                  errors := result.errors ++ [CsvLibraryError.invalidHeight lineNum] }
            else
              { result with
                  parts := result.parts ++
                    [importCSVToLibraryParts.build st sc header row (ids rowNum) label w h] }

/-- Row loop of `importCSVToLibraryParts` over the remaining data rows, the next
of which has number `rowNum`. -/
def importCSVToLibraryParts.loop (st : Strings) (sc : Strconv) (ids : Nat → String)
    (header : List String) (labelIdx widthIdx heightIdx : Nat) :
    List (List String) → Nat → csvLibraryResult → csvLibraryResult
  | [], _, result => result
  | row :: rest, rowNum, result =>
    importCSVToLibraryParts.loop st sc ids header labelIdx widthIdx heightIdx rest (rowNum + 1)
      (importCSVToLibraryParts.row st sc ids header labelIdx widthIdx heightIdx result rowNum row)

/-- Result of `importCSVToLibraryParts` once `readCSVFile` returned `data`; `ids`
gives the ID generated for each data row. -/
def importCSVToLibraryParts (st : Strings) (sc : Strconv) (ids : Nat → String)
    (data : List (List String)) : csvLibraryResult :=
  if data.length < 2 then { parts := [], errors := [CsvLibraryError.tooShort] }
  else
    let header := data.headD []
    match colIndex st header "label", colIndex st header "width",
        colIndex st header "height" with
    | some labelIdx, some widthIdx, some heightIdx =>
      importCSVToLibraryParts.loop st sc ids header labelIdx widthIdx heightIdx
        (data.drop 1) 0 { parts := [], errors := [] }
    | _, _, _ => { parts := [], errors := [CsvLibraryError.missingColumns] }

/-- A data row yields a part, in the words of the spec: it reaches the three
required columns, its trimmed label is not empty, and its trimmed width and
height parse as numbers greater than 0. -/
def importCSVToLibraryParts.rowOk (st : Strings) (sc : Strconv)
    (labelIdx widthIdx heightIdx : Nat) (row : List String) : Bool :=
  decide (labelIdx < row.length) && decide (widthIdx < row.length) &&
  decide (heightIdx < row.length) &&
  decide (st.TrimSpace (row.getD labelIdx "") ≠ "") &&
  (match sc.ParseFloat (st.TrimSpace (row.getD widthIdx "")) with
   | some w => w.isPos
   | none => false) &&
  (match sc.ParseFloat (st.TrimSpace (row.getD heightIdx "")) with
   | some h => h.isPos
   | none => false)

/-- Neither the width cell nor the height cell of the row reads as NaN. -/
def importCSVToLibraryParts.noNaN (st : Strings) (sc : Strconv)
    (widthIdx heightIdx : Nat) (row : List String) : Prop :=
  sc.ParseFloat (st.TrimSpace (row.getD widthIdx "")) ≠ some Float64.nan ∧
  sc.ParseFloat (st.TrimSpace (row.getD heightIdx "")) ≠ some Float64.nan

/-! ## Operations of the parts library (`internal/model/library.go`)

Go strings are byte strings; here they are strings of characters. On valid
UTF-8 the byte loops below do the same on both: only the bytes `A` to `Z` are
changed, and a byte string occurs in another one exactly when its characters
do. -/

/-- The parts of the library as a list; a nil slice has no elements. -/
def PartsLibrary.parts (lib : PartsLibrary) : List LibraryPart :=
  lib.Parts.getD []

/-- Body of the loop of `toLower`: the letters `A` to `Z` are moved by
`'a' - 'A'`, every other character is kept. -/
def toLower.step (c : Char) : Char :=
  if 'A' ≤ c ∧ c ≤ 'Z' then Char.ofNat (c.toNat + ('a'.toNat - 'A'.toNat)) else c

/-- The lower-case helper `toLower` of the model package. -/
def toLower (s : String) : String :=
  String.mk (s.data.map toLower.step)

/-- The helper `containsLower`: the lower-cased haystack is compared with the
needle at every offset `0 .. len(h) - len(needle)`. -/
def containsLower (haystack needle : String) : Bool :=
  if needle.data.length > (toLower haystack).data.length then false
  else
    (List.range ((toLower haystack).data.length - needle.data.length + 1)).any
      (fun i => decide
        ((((toLower haystack).data.drop i).take needle.data.length) = needle.data))

/-- The helper `tagsContain`. -/
def tagsContain (tags : List String) (query : String) : Bool :=
  tags.any (fun t => containsLower t query)

/-- The test in the loops of `Search` and `SearchAndFilter`, for the lower-cased
query `q`. -/
def searchHit (q : String) (p : LibraryPart) : Bool :=
  containsLower p.Label q || containsLower p.Notes q || tagsContain p.Tags q

/-- Result of `PartsLibrary.Search`, as a list. -/
def PartsLibrary.Search (lib : PartsLibrary) (query : String) : List LibraryPart :=
  if query = "" then lib.parts
  else lib.parts.filter (searchHit (toLower query))

/-- Result of `PartsLibrary.FilterByCategory`, as a list. -/
def PartsLibrary.FilterByCategory (lib : PartsLibrary) (category : String) :
    List LibraryPart :=
  if category = "" ∨ category = "All" then lib.parts
  else lib.parts.filter (fun p => decide (p.Category = category))

/-- Result of `PartsLibrary.SearchAndFilter`, as a list. -/
def PartsLibrary.SearchAndFilter (lib : PartsLibrary) (query category : String) :
    List LibraryPart :=
  if query = "" then lib.FilterByCategory category
  else (lib.FilterByCategory category).filter (searchHit (toLower query))

/-- The method `ensureCategory`: the category is appended unless the loop finds
it in the list. -/
def PartsLibrary.ensureCategory (lib : PartsLibrary) (cat : String) : PartsLibrary :=
  if lib.Categories.any (fun c => decide (c = cat)) then lib
  else { lib with Categories := lib.Categories ++ [cat] }

/-- The method `AddCategory`. -/
def PartsLibrary.AddCategory (lib : PartsLibrary) (cat : String) : PartsLibrary :=
  lib.ensureCategory cat

/-- The method `AddPart`. -/
def PartsLibrary.AddPart (lib : PartsLibrary) (part : LibraryPart) : PartsLibrary :=
  let part := if part.Category = "" then { part with Category := "General" } else part
  PartsLibrary.ensureCategory { lib with Parts := some (lib.parts ++ [part]) } part.Category

/-- Loop of `RemovePart`: at the first part with the ID the slice becomes the
parts before it followed by the parts after it, and the loop returns. -/
def RemovePart.go (id : String) : List LibraryPart → List LibraryPart
  | [] => []
  | p :: rest => if p.ID = id then rest else p :: RemovePart.go id rest

/-- The method `RemovePart`; a nil slice has no part to visit and stays nil. -/
def PartsLibrary.RemovePart (lib : PartsLibrary) (id : String) : PartsLibrary :=
  { lib with Parts := lib.Parts.map (RemovePart.go id) }

/-- Loop of `UpdatePart`: the first part with the ID of `updated` is replaced;
`none` when the loop ends without a match. -/
def UpdatePart.go (updated : LibraryPart) : List LibraryPart → Option (List LibraryPart)
  | [] => none
  | p :: rest =>
    if p.ID = updated.ID then some (updated :: rest)
    else (UpdatePart.go updated rest).map (fun l => p :: l)

/-- The method `UpdatePart`. -/
def PartsLibrary.UpdatePart (lib : PartsLibrary) (updated : LibraryPart) : PartsLibrary :=
  match UpdatePart.go updated lib.parts with
  | some parts =>
    PartsLibrary.ensureCategory { lib with Parts := some parts } updated.Category
  | none => lib

/-- The part that the pointer returned by `FindByID` points at; `none` for nil. -/
def PartsLibrary.FindByID (lib : PartsLibrary) (id : String) : Option LibraryPart :=
  lib.parts.find? (fun p => decide (p.ID = id))

/-- One call on the library. -/
inductive LibraryCall where
  | addPart (part : LibraryPart)
  | removePart (id : String)
  | updatePart (updated : LibraryPart)
  | addCategory (cat : String)

/-- The library after one call. -/
def PartsLibrary.call (lib : PartsLibrary) : LibraryCall → PartsLibrary
  | LibraryCall.addPart part => lib.AddPart part
  | LibraryCall.removePart id => lib.RemovePart id
  | LibraryCall.updatePart updated => lib.UpdatePart updated
  | LibraryCall.addCategory cat => lib.AddCategory cat

/-- The library after a sequence of calls. -/
def PartsLibrary.calls (lib : PartsLibrary) (cs : List LibraryCall) : PartsLibrary :=
  cs.foldl PartsLibrary.call lib

/-- The field contains the query when ASCII letter case is ignored: the
lower-cased query occurs in the lower-cased field. -/
def foldContains (field query : String) : Prop :=
  (toLower query).data <:+: (toLower field).data

instance (field query : String) : Decidable (foldContains field query) := by
  unfold foldContains
  infer_instance

/-- The categories list holds `General`, has no entry twice and holds the
category of every part. -/
def PartsLibrary.categoriesCover (lib : PartsLibrary) : Prop :=
  "General" ∈ lib.Categories ∧ lib.Categories.Nodup ∧
  ∀ p ∈ lib.parts, p.Category ∈ lib.Categories

/-! ## Sample inputs -/

/-- A profile with semicolon comments. -/
def sampleProfile : GCodeProfile :=
  { Name := "Generic", CommentPrefix := ";", CommentSuffix := "",
    StartCode := ["G90", "G21"], EndCode := ["G0 Z[SafeZ]", "M30"],
    SpindleStart := "M3 S%d", SpindleStop := "M5",
    RapidMove := "G0", FeedMove := "G1", DecimalPlaces := 3 }

/-- Settings of scenario S5: depth 12 in passes of 5, tool 6, safe Z 5, no tabs. -/
def sampleSettings : CutSettings :=
  { ToolDiameter := 6, FeedRate := 1000, PlungeRate := 300, SpindleSpeed := 18000,
    SafeZ := 5, CutDepth := 12, PassDepth := 5,
    PartTabsPerSide := 0, PartTabWidth := 0, PartTabHeight := 0 }

/-- Generator of scenario S5. -/
def sampleGen : Generator :=
  { Settings := sampleSettings, profile := sampleProfile }

/-- The 100 x 50 part of scenario S5 at (0, 0). -/
def samplePlacement : Placement :=
  { Part := { Label := "A", Width := 100, Height := 50 }, X := 0, Y := 0, Rotated := false }

/-- Settings of scenario S5 with two tabs per side, 10 wide and 3 high. -/
def tabbedSettings : CutSettings :=
  { sampleSettings with PartTabsPerSide := 2, PartTabWidth := 10, PartTabHeight := 3 }

/-- Generator of scenario S5 with two tabs per side. -/
def tabbedGen : Generator :=
  { Settings := tabbedSettings, profile := sampleProfile }

/-- Settings with one tab per side and a tool of diameter 0.0002. -/
def tinySettings : CutSettings :=
  { sampleSettings with ToolDiameter := 1 / 5000, PartTabsPerSide := 1,
                        PartTabWidth := 1 / 10000, PartTabHeight := 3 }

/-- Generator with one tab per side and a tool of diameter 0.0002. -/
def tinyGen : Generator :=
  { Settings := tinySettings, profile := sampleProfile }

/-- A part of 0.0005 x 0.0005 at (0, 0): with the tool of `tinyGen` the sides of
the tool path are 0.0007 long. -/
def tinyPlacement : Placement :=
  { Part := { Label := "T", Width := 1 / 2000, Height := 1 / 2000 },
    X := 0, Y := 0, Rotated := false }

/-- Settings of scenario S5 with two tabs per side that are 20 high, more than
the cut depth of 12. -/
def tallTabSettings : CutSettings :=
  { sampleSettings with PartTabsPerSide := 2, PartTabWidth := 10, PartTabHeight := 20 }

/-- Generator whose tabs are higher than the cut is deep. -/
def tallTabGen : Generator :=
  { Settings := tallTabSettings, profile := sampleProfile }

/-- Settings of scenario S5 with two tabs per side that are 40 wide, more than
the spacing of the tab centres on either side. -/
def wideTabSettings : CutSettings :=
  { sampleSettings with PartTabsPerSide := 2, PartTabWidth := 40, PartTabHeight := 3 }

/-- Generator whose tabs overlap. -/
def wideTabGen : Generator :=
  { Settings := wideTabSettings, profile := sampleProfile }

/-- Scenario S6: the first result places every part with 30% waste, the second
leaves two parts unplaced with 10% waste. -/
def rankingS6 : List ComparisonResult :=
  [ { ScenarioName := "A", SheetsUsed := 1, TotalCuts := 5, WastePercent := 30,
      UnplacedCount := 0 },
    { ScenarioName := "B", SheetsUsed := 1, TotalCuts := 3, WastePercent := 10,
      UnplacedCount := 2 } ]

/-- Two results that both leave parts unplaced; the second leaves fewer and
wastes less. -/
def rankingUnplaced : List ComparisonResult :=
  [ { ScenarioName := "A", SheetsUsed := 1, TotalCuts := 1, WastePercent := 50,
      UnplacedCount := 5 },
    { ScenarioName := "B", SheetsUsed := 1, TotalCuts := 4, WastePercent := 10,
      UnplacedCount := 1 } ]

/-- The project of the round-trip test: two parts and one stock sheet. -/
def sampleProject : Project :=
  { Name := "My Cabinet",
    Parts := [ { Label := "Side", Width := 600, Height := 400 },
               { Label := "Top", Width := 500, Height := 300 } ],
    Stocks := [ { Label := "Plywood", Width := 2440, Height := 1220 } ],
    Settings := sampleSettings, Result := none,
    Metadata := { Author := "", CreatedAt := "", UpdatedAt := "", Version := "",
                  Notes := "", SharedFrom := "" } }

/-- A project that was itself imported from a file shared by Alice. -/
def reSharedProject : Project :=
  { sampleProject with Metadata := { sampleProject.Metadata with SharedFrom := "Alice" } }

/-- The library of the save-and-load test: one shelf in the category Kitchen. -/
def sampleLibrary : PartsLibrary :=
  { Parts := some [ { ID := "a1b2c3d4", Label := "Shelf", Width := Float64.fin 600,
                      Height := Float64.fin 300, Grain := Grain.None,
                      Category := "Kitchen", Material := "Plywood",
                      Thickness := Float64.fin 18, Notes := "Standard shelf",
                      Tags := ["shelf", "kitchen"] } ],
    Categories := ["General", "Kitchen"] }

/-- A library file with parts but without categories. -/
def bareLibrary : PartsLibrary :=
  { Parts := sampleLibrary.Parts, Categories := [] }

/-- A stand-in for package `strconv` on the strings of the examples: it agrees
with `strconv.ParseFloat` and `strconv.Atoi` on them and rejects every other
string. -/
def sampleStrconv : Strconv :=
  { ParseFloat := fun s =>
      match s with
      | "600" => some (Float64.fin 600)
      | "300" => some (Float64.fin 300)
      | "2.5" => some (Float64.fin (5 / 2))
      | "2" => some (Float64.fin 2)
      | "0" => some (Float64.fin 0)
      | "NaN" => some Float64.nan
      | _ => none
    Atoi := fun s =>
      match s with
      | "600" => some 600
      | "300" => some 300
      | "2" => some 2
      | "0" => some 0
      | _ => none }

/-- A stand-in for package `strings` on the cells of the examples, which carry
no blanks and no upper-case letters: trimming and lower-casing change nothing,
and the only cell that is split is `a;b`. -/
def sampleStrings : Strings :=
  { TrimSpace := fun s => s
    ToLower := fun s => s
    Split := fun s _ =>
      match s with
      | "a;b" => ["a", "b"]
      | _ => [s] }

/-- A profile with the comment syntax `( ... )`. -/
def parenProfile : GCodeProfile :=
  { sampleProfile with Name := "Parens", CommentPrefix := "(", CommentSuffix := ")" }

/-- Generator of scenario S5 with the comment syntax `( ... )`. -/
def parenGen : Generator :=
  { Settings := sampleSettings, profile := parenProfile }

/-- A sheet of 2440 x 1220 that holds the part of scenario S5. -/
def sampleSheet : SheetResult :=
  { Stock := { Label := "Plywood", Width := 2440, Height := 1220 },
    Placements := [samplePlacement] }

/-- A stand-in for `g.format` with three decimal places on the safe-Z value 5 of
the examples. -/
def sampleFormat (v : ℚ) : String :=
  if v = 5 then "5.000" else "0.000"

/-- A part labelled `Shelf` with the note `oak` and no tags. -/
def notedPart : LibraryPart :=
  { ID := "p1", Label := "Shelf", Width := Float64.fin 600, Height := Float64.fin 300,
    Grain := Grain.None, Category := "General", Material := "", Thickness := Float64.fin 0,
    Notes := "oak", Tags := [] }

/-- A library that holds the part `notedPart` alone. -/
def notedLibrary : PartsLibrary :=
  { Parts := some [notedPart], Categories := ["General"] }

/-- A part labelled `Door` with the ID `p2`, of the category `Kitchen`. -/
def doorPart : LibraryPart :=
  { notedPart with ID := "p2", Label := "Door", Category := "Kitchen", Notes := "" }

/-- A library that holds `notedPart` and `doorPart`. -/
def twoPartLibrary : PartsLibrary :=
  { Parts := some [notedPart, doorPart], Categories := ["General", "Kitchen"] }

/-! ## Auxiliary lemmas -/

/-- Scenario S5 takes three passes. -/
theorem sample_numPasses : sampleGen.numPasses = 3 := by
  simp only [Generator.numPasses, sampleGen, sampleSettings]
  rw [Int.ceil_eq_iff]; norm_num

/-- A pass that takes the `writePerimeter` branch, line by line. -/
theorem writePass_plain (g : Generator) (p : Placement) (tabs : List Tab) (pass : Int)
    (h : ¬ (pass = g.numPasses ∧ g.Settings.PartTabsPerSide > 0)) :
    g.writePass p tabs pass =
      [ g.comment (Text.pass pass g.numPasses (g.passDepth pass)),
        Line.rapidXY g.profile.RapidMove (p.X - g.Settings.ToolDiameter / 2)
          (p.Y - g.Settings.ToolDiameter / 2),
        Line.plunge g.profile.FeedMove (-(g.passDepth pass)) g.Settings.PlungeRate,
        Line.feedXYF g.profile.FeedMove (p.X + p.PlacedWidth + g.Settings.ToolDiameter / 2)
          (p.Y - g.Settings.ToolDiameter / 2) g.Settings.FeedRate,
        Line.feedXY g.profile.FeedMove (p.X + p.PlacedWidth + g.Settings.ToolDiameter / 2)
          (p.Y + p.PlacedHeight + g.Settings.ToolDiameter / 2),
        Line.feedXY g.profile.FeedMove (p.X - g.Settings.ToolDiameter / 2)
          (p.Y + p.PlacedHeight + g.Settings.ToolDiameter / 2),
        Line.feedXY g.profile.FeedMove (p.X - g.Settings.ToolDiameter / 2)
          (p.Y - g.Settings.ToolDiameter / 2),
        Line.rapidZ g.profile.RapidMove g.Settings.SafeZ ] := by
  simp only [Generator.writePass, Generator.writePerimeter, if_neg h, List.cons_append,
    List.nil_append]

/-- `filterMap` commutes with `flatMap`. -/
theorem filterMap_flatMap_lines {α β γ : Type} (f : β → Option γ) (k : α → List β) (l : List α) :
    (l.flatMap k).filterMap f = l.flatMap (fun a => (k a).filterMap f) := by
  induction l with
  | nil => rfl
  | cons a l ih => simp [List.flatMap_cons, List.filterMap_append, ih]

/-- `filter` commutes with `flatMap`. -/
theorem filter_flatMap_lines {α β : Type} (f : β → Bool) (k : α → List β) (l : List α) :
    (l.flatMap k).filter f = l.flatMap (fun a => (k a).filter f) := by
  induction l with
  | nil => rfl
  | cons a l ih => simp [List.flatMap_cons, List.filter_append, ih]

/-- A `flatMap` of singletons is a `map`. -/
theorem flatMap_singleton_map {α β : Type} (f : α → β) (l : List α) :
    l.flatMap (fun a => [f a]) = l.map f := by
  induction l with
  | nil => rfl
  | cons a l ih => simp [List.flatMap_cons, ih]

/-- A `flatMap` of lists of length one keeps the length. -/
theorem length_flatMap_one {α β : Type} (k : α → List β) (l : List α)
    (h : ∀ a, (k a).length = 1) : (l.flatMap k).length = l.length := by
  induction l with
  | nil => rfl
  | cons a l ih => simp [List.flatMap_cons, h, ih, Nat.add_comm]

/-- The tab loop writes feed lines only. -/
theorem writeSideLoop_isFeed (g : Generator) (x0 y0 nx ny cd td tw : ℚ) (tabs : List Tab) :
    ∀ cursor, ∀ l ∈ g.writeSideLoop x0 y0 nx ny cd td tw tabs cursor, l.isFeed = true := by
  induction tabs with
  | nil => intro cursor l hl; simp [Generator.writeSideLoop] at hl
  | cons tab rest ih =>
    intro cursor l hl
    simp only [Generator.writeSideLoop, List.mem_append] at hl
    rcases hl with (hl | hl) | hl
    · split at hl
      · simp at hl; subst hl; rfl
      · simp at hl
    · simp at hl
      rcases hl with hl | hl | hl <;> subst hl <;> rfl
    · exact ih _ l hl

/-- A side with tabs consists of feed lines only. -/
theorem writeSideWithTabs_isFeed (g : Generator) (x0 y0 x1 y1 : ℚ) (b : Bool) (cd td tw : ℚ)
    (tabs : List Tab) :
    ∀ l ∈ g.writeSideWithTabs x0 y0 x1 y1 b cd td tw tabs, l.isFeed = true := by
  intro l hl
  unfold Generator.writeSideWithTabs at hl
  split at hl
  · simp at hl; subst hl; rfl
  · simp only at hl
    split at hl
    · simp at hl
    · rw [List.mem_append] at hl
      rcases hl with hl | hl
      · exact writeSideLoop_isFeed _ _ _ _ _ _ _ _ _ _ l hl
      · simp at hl; subst hl; rfl

/-- A perimeter with tabs consists of feed lines only. -/
theorem writePerimeterWithTabs_isFeed (g : Generator) (x0 y0 x1 y1 depth : ℚ) (tabs : List Tab) :
    ∀ l ∈ g.writePerimeterWithTabs x0 y0 x1 y1 depth tabs, l.isFeed = true := by
  intro l hl
  simp only [Generator.writePerimeterWithTabs, List.mem_append] at hl
  rcases hl with ((hl | hl) | hl) | hl <;> exact writeSideWithTabs_isFeed _ _ _ _ _ _ _ _ _ _ l hl

/-- Feed lines contain no plunge. -/
theorem plunges_of_isFeed (ls : List Line) (h : ∀ l ∈ ls, l.isFeed = true) :
    ls.filterMap Line.plungeZ? = [] := by
  rw [List.filterMap_eq_nil_iff]
  intro l hl
  have := h l hl
  cases l <;> simp_all [Line.isFeed, Line.plungeZ?]

/-- Feed lines contain no pass comment. -/
theorem passStarts_of_isFeed (ls : List Line) (h : ∀ l ∈ ls, l.isFeed = true) :
    ls.filter Line.isPassStart = [] := by
  rw [List.filter_eq_nil_iff]
  intro l hl
  have := h l hl
  cases l <;> simp_all [Line.isFeed, Line.isPassStart]

/-- Every pass plunges exactly once, to its pass depth. -/
theorem writePass_plunges (g : Generator) (p : Placement) (tabs : List Tab) (pass : Int) :
    (g.writePass p tabs pass).filterMap Line.plungeZ? = [-(g.passDepth pass)] := by
  by_cases h : pass = g.numPasses ∧ g.Settings.PartTabsPerSide > 0
  · simp only [Generator.writePass, if_pos h, List.filterMap_append,
      plunges_of_isFeed _ (writePerimeterWithTabs_isFeed _ _ _ _ _ _ _)]
    simp [Line.plungeZ?, Generator.comment]
  · rw [writePass_plain g p tabs pass h]
    simp [Line.plungeZ?, Generator.comment]

/-- Every pass has exactly one pass comment. -/
theorem writePass_passStarts (g : Generator) (p : Placement) (tabs : List Tab) (pass : Int) :
    ((g.writePass p tabs pass).filter Line.isPassStart).length = 1 := by
  by_cases h : pass = g.numPasses ∧ g.Settings.PartTabsPerSide > 0
  · simp only [Generator.writePass, if_pos h, List.filter_append,
      passStarts_of_isFeed _ (writePerimeterWithTabs_isFeed _ _ _ _ _ _ _)]
    simp [Line.isPassStart, Generator.comment]
  · rw [writePass_plain g p tabs pass h]
    simp [Line.isPassStart, Generator.comment]

/-- The pass depth is `min (pass * PassDepth) CutDepth`. -/
theorem passDepth_eq_min (g : Generator) (pass : Int) :
    g.passDepth pass = min ((pass : ℚ) * g.Settings.PassDepth) g.Settings.CutDepth := by
  unfold Generator.passDepth
  split_ifs with h
  · exact (min_eq_right (le_of_lt h)).symm
  · exact (min_eq_left (not_lt.mp h)).symm

/-- Positive depths give at least one pass. -/
theorem numPasses_pos (g : Generator) (hc : 0 < g.Settings.CutDepth)
    (hp : 0 < g.Settings.PassDepth) : 0 < g.numPasses := by
  unfold Generator.numPasses
  exact Int.ceil_pos.mpr (div_pos hc hp)

/-- The square-root model is exact on squares. -/
theorem mathSqrt_mul_self (x : ℚ) : mathSqrt (x * x) = |x| := by
  unfold mathSqrt
  rw [Rat.mul_self_num, Rat.mul_self_den, Nat.sqrt_eq]
  have h1 : (x.num * x.num).toNat = x.num.natAbs * x.num.natAbs := by
    rw [← Int.natAbs_mul_self (a := x.num)]
    exact Int.toNat_natCast _
  rw [h1, Nat.sqrt_eq]
  conv_rhs => rw [← Rat.num_div_den x]
  rw [abs_div, Nat.cast_natAbs, Int.cast_abs]
  congr 1
  exact (abs_of_pos (by exact_mod_cast x.den_pos)).symm

/-- A line that is not a Z feed starts no lift. -/
theorem tabLifts_cons_of_not_feedZ (a : Line) (l : List Line) (h : a.isFeedZ = false) :
    tabLifts (a :: l) = tabLifts l := by
  cases a <;> first | rfl | (simp [Line.isFeedZ] at h)

/-- Without Z feed lines there is no lift. -/
theorem tabLifts_of_no_feedZ (ls : List Line) (h : ∀ l ∈ ls, l.isFeedZ = false) :
    tabLifts ls = 0 := by
  induction ls with
  | nil => rfl
  | cons a l ih =>
    rw [tabLifts_cons_of_not_feedZ a l (h a (List.mem_cons_self _ _))]
    exact ih (fun x hx => h x (List.mem_cons_of_mem _ hx))

/-- The tab loop writes one lift per tab. -/
theorem tabLifts_writeSideLoop (g : Generator) (x0 y0 nx ny cd td tw : ℚ) (tabs : List Tab)
    (tail : List Line) :
    ∀ cursor, tabLifts (g.writeSideLoop x0 y0 nx ny cd td tw tabs cursor ++ tail)
      = tabs.length + tabLifts tail := by
  induction tabs with
  | nil => intro cursor; simp [Generator.writeSideLoop]
  | cons tab rest ih =>
    intro cursor
    simp only [Generator.writeSideLoop]
    split_ifs
    · simp only [List.cons_append, List.nil_append, List.append_assoc]
      rw [tabLifts_cons_of_not_feedZ (Line.feedXYF _ _ _ _) _ rfl, tabLifts, ih]
      simp only [List.length_cons]; omega
    · simp only [List.cons_append, List.nil_append, List.append_assoc]
      rw [tabLifts, ih]
      simp only [List.length_cons]; omega

/-- Filtering the tabs built for side `j` by side `k`. -/
theorem filter_map_tab_side (k j : Int) (f : Nat → ℚ) (l : List Nat) :
    (l.map (fun t => ({ side := j, startPos := f t } : Tab))).filter (fun t => t.side = k)
      = if j = k then l.map (fun t => ({ side := j, startPos := f t } : Tab)) else [] := by
  induction l with
  | nil => simp
  | cons a l ih =>
    by_cases h : j = k
    · simp [h] at ih ⊢
    · simp [h] at ih ⊢

/-- The tabs of side `k`, in closed form. -/
theorem tabsForSide_calculateTabs (g : Generator) (p : Placement)
    (hN : 0 < g.Settings.PartTabsPerSide) (k : Nat) (hk : k < 4) :
    g.tabsForSide (g.calculateTabs p) (k : Int) =
      (List.range g.Settings.PartTabsPerSide.toNat).map (fun t =>
        ({ side := (k : Int),
           startPos :=
             (if k = 0 ∨ k = 2 then p.PlacedWidth + g.Settings.ToolDiameter
              else p.PlacedHeight + g.Settings.ToolDiameter)
               / (((g.Settings.PartTabsPerSide + 1 : Int) : ℚ)) * (((t + 1 : Nat) : ℚ)) } : Tab)) := by
  have h4 : List.range 4 = [0, 1, 2, 3] := rfl
  simp only [Generator.calculateTabs, Generator.tabsForSide, if_neg (not_le.mpr hN), h4,
    List.flatMap_cons, List.flatMap_nil, List.filter_append, filter_map_tab_side,
    List.append_nil, List.filter_nil]
  interval_cases k <;> simp

/-- A horizontal side with tabs: its length is `|x1 - x0|`. -/
theorem writeSideWithTabs_horiz (g : Generator) (x0 y x1 : ℚ) (b : Bool) (cd td tw : ℚ)
    (tabs : List Tab) (hne : tabs ≠ []) :
    g.writeSideWithTabs x0 y x1 y b cd td tw tabs =
      if |x1 - x0| < 1 / 1000 then []
      else g.writeSideLoop x0 y ((x1 - x0) / |x1 - x0|) 0 cd td tw tabs 0
            ++ [Line.feedXYF g.profile.FeedMove x1 y g.Settings.FeedRate] := by
  have hl : ¬ tabs.length = 0 := by
    rw [List.length_eq_zero]; exact hne
  simp only [Generator.writeSideWithTabs, if_neg hl, sub_self, mul_zero, add_zero,
    mathSqrt_mul_self, zero_div]

/-- A vertical side with tabs: its length is `|y1 - y0|`. -/
theorem writeSideWithTabs_vert (g : Generator) (x y0 y1 : ℚ) (b : Bool) (cd td tw : ℚ)
    (tabs : List Tab) (hne : tabs ≠ []) :
    g.writeSideWithTabs x y0 x y1 b cd td tw tabs =
      if |y1 - y0| < 1 / 1000 then []
      else g.writeSideLoop x y0 0 ((y1 - y0) / |y1 - y0|) cd td tw tabs 0
            ++ [Line.feedXYF g.profile.FeedMove x y1 g.Settings.FeedRate] := by
  have hl : ¬ tabs.length = 0 := by
    rw [List.length_eq_zero]; exact hne
  simp only [Generator.writeSideWithTabs, if_neg hl, sub_self, mul_zero, zero_add,
    mathSqrt_mul_self, zero_div]

/-- Each side has `PartTabsPerSide` tabs. -/
theorem tabsForSide_length (g : Generator) (p : Placement)
    (hN : 0 < g.Settings.PartTabsPerSide) (k : Nat) (hk : k < 4) :
    (g.tabsForSide (g.calculateTabs p) (k : Int)).length = g.Settings.PartTabsPerSide.toNat := by
  rw [tabsForSide_calculateTabs g p hN k hk]
  simp

/-- With tabs enabled each side has a tab. -/
theorem tabsForSide_ne_nil (g : Generator) (p : Placement)
    (hN : 0 < g.Settings.PartTabsPerSide) (k : Nat) (hk : k < 4) :
    g.tabsForSide (g.calculateTabs p) (k : Int) ≠ [] := by
  intro h
  have h1 := tabsForSide_length g p hN k hk
  rw [h, List.length_nil] at h1
  have h2 : (g.Settings.PartTabsPerSide.toNat : Int) = g.Settings.PartTabsPerSide :=
    Int.toNat_of_nonneg hN.le
  omega

/-- A horizontal side of length at least 0.001 has one lift per tab. -/
theorem tabLifts_side_horiz (g : Generator) (x0 y x1 : ℚ) (b : Bool) (cd td tw : ℚ)
    (tabs : List Tab) (hne : tabs ≠ []) (hlen : 1 / 1000 ≤ |x1 - x0|) (tail : List Line) :
    tabLifts (g.writeSideWithTabs x0 y x1 y b cd td tw tabs ++ tail)
      = tabs.length + tabLifts tail := by
  rw [writeSideWithTabs_horiz g x0 y x1 b cd td tw tabs hne, if_neg (not_lt.mpr hlen),
    List.append_assoc, tabLifts_writeSideLoop, List.singleton_append,
    tabLifts_cons_of_not_feedZ (Line.feedXYF _ _ _ _) _ rfl]

/-- A vertical side of length at least 0.001 has one lift per tab. -/
theorem tabLifts_side_vert (g : Generator) (x y0 y1 : ℚ) (b : Bool) (cd td tw : ℚ)
    (tabs : List Tab) (hne : tabs ≠ []) (hlen : 1 / 1000 ≤ |y1 - y0|) (tail : List Line) :
    tabLifts (g.writeSideWithTabs x y0 x y1 b cd td tw tabs ++ tail)
      = tabs.length + tabLifts tail := by
  rw [writeSideWithTabs_vert g x y0 y1 b cd td tw tabs hne, if_neg (not_lt.mpr hlen),
    List.append_assoc, tabLifts_writeSideLoop, List.singleton_append,
    tabLifts_cons_of_not_feedZ (Line.feedXYF _ _ _ _) _ rfl]

/-- Without tabs every pass of `writePart` takes the `writePerimeter` branch. -/
theorem writePart_plain (g : Generator) (p : Placement) (partNum : Int)
    (h : g.Settings.PartTabsPerSide = 0) :
    g.writePart p partNum =
      [ g.comment (Text.partBanner partNum p.Part.Label p.Part.Width p.Part.Height
          (rotatedStr p.Rotated)) ]
      ++ (List.range g.numPasses.toNat).flatMap (fun (i : Nat) =>
          [ g.comment (Text.pass ((i : Int) + 1) g.numPasses (g.passDepth ((i : Int) + 1))),
            Line.rapidXY g.profile.RapidMove (p.X - g.Settings.ToolDiameter / 2)
              (p.Y - g.Settings.ToolDiameter / 2),
            Line.plunge g.profile.FeedMove (-(g.passDepth ((i : Int) + 1)))
              g.Settings.PlungeRate,
            Line.feedXYF g.profile.FeedMove
              (p.X + p.PlacedWidth + g.Settings.ToolDiameter / 2)
              (p.Y - g.Settings.ToolDiameter / 2) g.Settings.FeedRate,
            Line.feedXY g.profile.FeedMove
              (p.X + p.PlacedWidth + g.Settings.ToolDiameter / 2)
              (p.Y + p.PlacedHeight + g.Settings.ToolDiameter / 2),
            Line.feedXY g.profile.FeedMove (p.X - g.Settings.ToolDiameter / 2)
              (p.Y + p.PlacedHeight + g.Settings.ToolDiameter / 2),
            Line.feedXY g.profile.FeedMove (p.X - g.Settings.ToolDiameter / 2)
              (p.Y - g.Settings.ToolDiameter / 2),
            Line.rapidZ g.profile.RapidMove g.Settings.SafeZ ])
      ++ [ Line.blank ] := by
  have hno : ∀ pass : Int, ¬ (pass = g.numPasses ∧ g.Settings.PartTabsPerSide > 0) := by
    intro pass hh
    rw [h] at hh
    exact absurd hh.2 (by decide)
  simp only [Generator.writePart, writePass_plain g p _ _ (hno _)]

/-- Without tabs a part has no Z feed line. -/
theorem writePart_no_feedZ (g : Generator) (p : Placement) (partNum : Int)
    (h : g.Settings.PartTabsPerSide = 0) :
    ∀ l ∈ g.writePart p partNum, l.isFeedZ = false := by
  intro l hl
  rw [writePart_plain g p partNum h] at hl
  simp only [List.mem_append, List.mem_flatMap, List.mem_cons, List.mem_singleton,
    List.not_mem_nil, or_false] at hl
  rcases hl with (hl | ⟨i, _, hl⟩) | hl
  · subst hl; rfl
  · rcases hl with hl | hl | hl | hl | hl | hl | hl | hl <;> subst hl <;> rfl
  · subst hl; rfl

/-- The header has no Z feed line. -/
theorem writeHeader_no_feedZ (g : Generator) (sheet : SheetResult) (idx : Int) :
    ∀ l ∈ g.writeHeader sheet idx, l.isFeedZ = false := by
  intro l hl
  simp only [Generator.writeHeader, List.mem_append, List.mem_cons, List.mem_map,
    List.mem_singleton, List.not_mem_nil, or_false] at hl
  rcases hl with ((hl | ⟨s, _, hl⟩) | hl) | hl
  · rcases hl with hl | hl | hl | hl | hl | hl | hl <;> subst hl <;> rfl
  · subst hl; rfl
  · split at hl
    · simp at hl; subst hl; rfl
    · simp at hl
  · rcases hl with hl | hl | hl <;> subst hl <;> rfl

/-- The footer has no Z feed line. -/
theorem writeFooter_no_feedZ (g : Generator) (fmt : ℚ → String) :
    ∀ l ∈ g.writeFooter fmt, l.isFeedZ = false := by
  intro l hl
  simp only [Generator.writeFooter, List.mem_append, List.mem_cons, List.mem_map,
    List.mem_singleton, List.not_mem_nil, or_false] at hl
  rcases hl with ((hl | hl) | ⟨s, _, hl⟩) | hl
  · subst hl; rfl
  · subst hl; rfl
  · subst hl; rfl
  · split at hl
    · simp at hl; subst hl; rfl
    · simp at hl

/-- Without tabs a sheet program has no Z feed line. -/
theorem generateSheet_no_feedZ (g : Generator) (fmt : ℚ → String) (sheet : SheetResult)
    (idx : Int) (h : g.Settings.PartTabsPerSide = 0) :
    ∀ l ∈ g.GenerateSheet fmt sheet idx, l.isFeedZ = false := by
  intro l hl
  simp only [Generator.GenerateSheet, List.mem_append, List.mem_flatMap] at hl
  rcases hl with (hl | ⟨ip, _, hl⟩) | hl
  · exact writeHeader_no_feedZ g sheet idx l hl
  · exact writePart_no_feedZ g ip.2 _ h l hl
  · exact writeFooter_no_feedZ g fmt l hl

/-- Without tabs a part does not depend on the tab size. -/
theorem writePart_tab_size_irrelevant (g : Generator) (p : Placement) (partNum : Int)
    (h : g.Settings.PartTabsPerSide = 0) (w t : ℚ) :
    Generator.writePart
      { g with Settings := { g.Settings with PartTabWidth := w, PartTabHeight := t } }
      p partNum = g.writePart p partNum := by
  rw [writePart_plain g p partNum h]
  exact writePart_plain
    { g with Settings := { g.Settings with PartTabWidth := w, PartTabHeight := t } } p partNum h

/-- Without tabs a sheet program does not depend on the tab size. -/
theorem generateSheet_tab_size_irrelevant (g : Generator) (fmt : ℚ → String)
    (sheet : SheetResult) (idx : Int) (h : g.Settings.PartTabsPerSide = 0) (w t : ℚ) :
    Generator.GenerateSheet
      { g with Settings := { g.Settings with PartTabWidth := w, PartTabHeight := t } }
      fmt sheet idx = g.GenerateSheet fmt sheet idx := by
  simp only [Generator.GenerateSheet, writePart_tab_size_irrelevant g _ _ h w t]
  rfl

/-- Length of the bottom side of the tool path. -/
theorem offset_width (g : Generator) (p : Placement) :
    p.X + p.PlacedWidth + g.Settings.ToolDiameter / 2 - (p.X - g.Settings.ToolDiameter / 2)
      = p.PlacedWidth + g.Settings.ToolDiameter := by ring

/-- Length of the right side of the tool path. -/
theorem offset_height (g : Generator) (p : Placement) :
    p.Y + p.PlacedHeight + g.Settings.ToolDiameter / 2 - (p.Y - g.Settings.ToolDiameter / 2)
      = p.PlacedHeight + g.Settings.ToolDiameter := by ring

/-- Signed length of the top side of the tool path. -/
theorem offset_width_back (g : Generator) (p : Placement) :
    p.X - g.Settings.ToolDiameter / 2 - (p.X + p.PlacedWidth + g.Settings.ToolDiameter / 2)
      = -(p.PlacedWidth + g.Settings.ToolDiameter) := by ring

/-- Signed length of the left side of the tool path. -/
theorem offset_height_back (g : Generator) (p : Placement) :
    p.Y - g.Settings.ToolDiameter / 2 - (p.Y + p.PlacedHeight + g.Settings.ToolDiameter / 2)
      = -(p.PlacedHeight + g.Settings.ToolDiameter) := by ring

/-- The tabs of the bottom side. -/
theorem tabsForSide_zero (g : Generator) (p : Placement) (hN : 0 < g.Settings.PartTabsPerSide) :
    g.tabsForSide (g.calculateTabs p) 0 =
      (List.range g.Settings.PartTabsPerSide.toNat).map (fun t =>
        ({ side := 0,
           startPos := (p.PlacedWidth + g.Settings.ToolDiameter)
               / (((g.Settings.PartTabsPerSide + 1 : Int) : ℚ)) * (((t + 1 : Nat) : ℚ)) } : Tab)) := by
  simpa using tabsForSide_calculateTabs g p hN 0 (by norm_num)

/-- The tabs of the right side. -/
theorem tabsForSide_one (g : Generator) (p : Placement) (hN : 0 < g.Settings.PartTabsPerSide) :
    g.tabsForSide (g.calculateTabs p) 1 =
      (List.range g.Settings.PartTabsPerSide.toNat).map (fun t =>
        ({ side := 1,
           startPos := (p.PlacedHeight + g.Settings.ToolDiameter)
               / (((g.Settings.PartTabsPerSide + 1 : Int) : ℚ)) * (((t + 1 : Nat) : ℚ)) } : Tab)) := by
  simpa using tabsForSide_calculateTabs g p hN 1 (by norm_num)

/-- The tabs of the top side. -/
theorem tabsForSide_two (g : Generator) (p : Placement) (hN : 0 < g.Settings.PartTabsPerSide) :
    g.tabsForSide (g.calculateTabs p) 2 =
      (List.range g.Settings.PartTabsPerSide.toNat).map (fun t =>
        ({ side := 2,
           startPos := (p.PlacedWidth + g.Settings.ToolDiameter)
               / (((g.Settings.PartTabsPerSide + 1 : Int) : ℚ)) * (((t + 1 : Nat) : ℚ)) } : Tab)) := by
  simpa using tabsForSide_calculateTabs g p hN 2 (by norm_num)

/-- The tabs of the left side. -/
theorem tabsForSide_three (g : Generator) (p : Placement) (hN : 0 < g.Settings.PartTabsPerSide) :
    g.tabsForSide (g.calculateTabs p) 3 =
      (List.range g.Settings.PartTabsPerSide.toNat).map (fun t =>
        ({ side := 3,
           startPos := (p.PlacedHeight + g.Settings.ToolDiameter)
               / (((g.Settings.PartTabsPerSide + 1 : Int) : ℚ)) * (((t + 1 : Nat) : ℚ)) } : Tab)) := by
  simpa using tabsForSide_calculateTabs g p hN 3 (by norm_num)

/-- With tabs enabled each of the four sides has `PartTabsPerSide` tabs. -/
theorem tabsForSide_shape (g : Generator) (p : Placement)
    (hN : 0 < g.Settings.PartTabsPerSide) :
    ((g.tabsForSide (g.calculateTabs p) 0).length = g.Settings.PartTabsPerSide.toNat ∧
      g.tabsForSide (g.calculateTabs p) 0 ≠ []) ∧
    ((g.tabsForSide (g.calculateTabs p) 1).length = g.Settings.PartTabsPerSide.toNat ∧
      g.tabsForSide (g.calculateTabs p) 1 ≠ []) ∧
    ((g.tabsForSide (g.calculateTabs p) 2).length = g.Settings.PartTabsPerSide.toNat ∧
      g.tabsForSide (g.calculateTabs p) 2 ≠ []) ∧
    ((g.tabsForSide (g.calculateTabs p) 3).length = g.Settings.PartTabsPerSide.toNat ∧
      g.tabsForSide (g.calculateTabs p) 3 ≠ []) := by
  have h0 := tabsForSide_length g p hN 0 (by norm_num)
  have h1 := tabsForSide_length g p hN 1 (by norm_num)
  have h2 := tabsForSide_length g p hN 2 (by norm_num)
  have h3 := tabsForSide_length g p hN 3 (by norm_num)
  have n0 := tabsForSide_ne_nil g p hN 0 (by norm_num)
  have n1 := tabsForSide_ne_nil g p hN 1 (by norm_num)
  have n2 := tabsForSide_ne_nil g p hN 2 (by norm_num)
  have n3 := tabsForSide_ne_nil g p hN 3 (by norm_num)
  simp only [Nat.cast_zero, Nat.cast_one, Nat.cast_ofNat] at h0 h1 h2 h3 n0 n1 n2 n3
  exact ⟨⟨h0, n0⟩, ⟨h1, n1⟩, ⟨h2, n2⟩, ⟨h3, n3⟩⟩

/-- The final pass with tabs enabled takes the `writePerimeterWithTabs` branch. -/
theorem writePass_final (g : Generator) (p : Placement) (tabs : List Tab)
    (hN : 0 < g.Settings.PartTabsPerSide) :
    g.writePass p tabs g.numPasses =
      [ g.comment (Text.pass g.numPasses g.numPasses (g.passDepth g.numPasses)),
        Line.rapidXY g.profile.RapidMove (p.X - g.Settings.ToolDiameter / 2)
          (p.Y - g.Settings.ToolDiameter / 2),
        Line.plunge g.profile.FeedMove (-(g.passDepth g.numPasses)) g.Settings.PlungeRate ]
      ++ g.writePerimeterWithTabs (p.X - g.Settings.ToolDiameter / 2)
          (p.Y - g.Settings.ToolDiameter / 2)
          (p.X + p.PlacedWidth + g.Settings.ToolDiameter / 2)
          (p.Y + p.PlacedHeight + g.Settings.ToolDiameter / 2) (g.passDepth g.numPasses) tabs
      ++ [ Line.rapidZ g.profile.RapidMove g.Settings.SafeZ ] := by
  simp only [Generator.writePass, gt_iff_lt, hN, and_self, if_true]

/-- The final pass with tabs enabled, in terms of its four sides. -/
theorem writePass_final_sides (g : Generator) (p : Placement)
    (hN : 0 < g.Settings.PartTabsPerSide) :
    g.writePass p (g.calculateTabs p) g.numPasses =
      [ g.comment (Text.pass g.numPasses g.numPasses (g.passDepth g.numPasses)),
        Line.rapidXY g.profile.RapidMove (p.X - g.Settings.ToolDiameter / 2)
          (p.Y - g.Settings.ToolDiameter / 2),
        Line.plunge g.profile.FeedMove (-(g.passDepth g.numPasses)) g.Settings.PlungeRate ]
      ++ (finalPassSides g p).flatten
      ++ [ Line.rapidZ g.profile.RapidMove g.Settings.SafeZ ] := by
  rw [writePass_final g p _ hN]
  simp only [Generator.writePerimeterWithTabs, finalPassSides, List.flatten, List.append_nil,
    List.append_assoc]

/-- The ranking loop keeps `RankInv`. -/
theorem bestLoop_inv (all : List ComparisonResult)
    (hw : ∀ r ∈ all, r.WastePercent ≤ 100) :
    ∀ (l pre : List ComparisonResult) (st : Nat × ℚ), all = pre ++ l → RankInv all pre st →
      RankInv all all (showComparisonResults.bestLoop l pre.length st) := by
  intro l
  induction l with
  | nil =>
    intro pre st hall hinv
    rw [List.append_nil] at hall
    rw [showComparisonResults.bestLoop, hall]
    rw [hall] at hinv
    exact hinv
  | cons r rest ih =>
    intro pre st hall hinv
    obtain ⟨bi, bs⟩ := st
    have hall2 : all = (pre ++ [r]) ++ rest := by simp [hall]
    have hlen : (pre ++ [r]).length = pre.length + 1 := by simp
    have hr : all[pre.length]? = some r := by
      rw [hall, List.getElem?_append_right (le_refl _)]; simp
    have hrw : r.WastePercent ≤ 100 := hw r (by rw [hall]; simp)
    rw [showComparisonResults.bestLoop]
    split_ifs with hc
    · rw [← hlen]
      apply ih (pre ++ [r]) _ hall2
      right
      refine ⟨r, hr, hc.1, rfl, ?_⟩
      intro r2 hr2 hz2
      rcases List.mem_append.mp hr2 with h | h
      · rcases hinv with ⟨_, hno⟩ | ⟨b, _, _, hbs, hmin⟩
        · exact absurd hz2 (hno r2 h)
        · have h1 := hmin r2 h hz2
          have h2 : bs = 100 - b.WastePercent := hbs
          have h3 := hc.2
          linarith
      · rw [List.mem_singleton] at h
        rw [h]
    · rw [← hlen]
      apply ih (pre ++ [r]) _ hall2
      rcases hinv with ⟨hst, hno⟩ | ⟨b, hb, hbz, hbs, hmin⟩
      · left
        refine ⟨hst, ?_⟩
        intro r2 hr2
        rcases List.mem_append.mp hr2 with h | h
        · exact hno r2 h
        · rw [List.mem_singleton] at h
          rw [h]
          intro hz
          have hbs : bs = -1 := by
            have := congrArg Prod.snd hst
            simpa using this
          apply hc
          refine ⟨hz, ?_⟩
          rw [hbs]
          linarith
      · right
        refine ⟨b, hb, hbz, hbs, ?_⟩
        intro r2 hr2 hz2
        rcases List.mem_append.mp hr2 with h | h
        · exact hmin r2 h hz2
        · rw [List.mem_singleton] at h
          rw [h] at hz2 ⊢
          have h2 : bs = 100 - b.WastePercent := hbs
          have h3 : ¬ (100 - r.WastePercent > bs) := fun h3 => hc ⟨hz2, h3⟩
          rw [h2] at h3
          linarith [not_lt.mp h3]

/-- Rows with unplaced parts never change the state of the ranking loop. -/
theorem bestLoop_none_placed :
    ∀ (l : List ComparisonResult) (i : Nat) (st : Nat × ℚ),
      (∀ r ∈ l, r.UnplacedCount ≠ 0) → showComparisonResults.bestLoop l i st = st := by
  intro l
  induction l with
  | nil => intro i st _; rfl
  | cons r rest ih =>
    intro i st h
    obtain ⟨bi, bs⟩ := st
    rw [showComparisonResults.bestLoop]
    have hr : ¬ (r.UnplacedCount = 0 ∧ 100 - r.WastePercent > bs) :=
      fun hc => h r (List.mem_cons_self _ _) hc.1
    rw [if_neg hr]
    exact ih _ _ (fun x hx => h x (List.mem_cons_of_mem _ hx))

/-- Tabs that do not start before the cursor give the tab profile. -/
theorem events_writeSideLoop (g : Generator) (x0 y0 nx ny cd td tw : ℚ)
    (hdir : (nx = 1 ∧ ny = 0) ∨ (nx = 0 ∧ ny = 1) ∨ (nx = -1 ∧ ny = 0) ∨ (nx = 0 ∧ ny = -1))
    (tail : List Line)
    (htail : ∀ t : Tool, t.z = -cd → ∀ e ∈ events t tail, TabProfile cd td tw e) :
    ∀ (tabs : List Tab) (cursor : ℚ) (t : Tool), t.z = -cd → Spaced tw cursor tabs →
      HeadReady tw x0 y0 nx ny cursor t tabs →
      ∀ e ∈ events t (g.writeSideLoop x0 y0 nx ny cd td tw tabs cursor ++ tail),
        TabProfile cd td tw e := by
  intro tabs
  induction tabs with
  | nil =>
    intro cursor t hz _ _ e he
    simp only [Generator.writeSideLoop, List.nil_append] at he
    exact htail t hz e he
  | cons tab rest ih =>
    intro cursor t hz hsp hhead e he
    obtain ⟨hle, hrest⟩ := hsp
    have hdisp : ∀ a b : ℚ, b - a = tw →
        ((x0 + nx * b - (x0 + nx * a) = tw ∧ y0 + ny * b - (y0 + ny * a) = 0) ∨
         (x0 + nx * b - (x0 + nx * a) = 0 ∧ y0 + ny * b - (y0 + ny * a) = tw) ∨
         (x0 + nx * b - (x0 + nx * a) = -tw ∧ y0 + ny * b - (y0 + ny * a) = 0) ∨
         (x0 + nx * b - (x0 + nx * a) = 0 ∧ y0 + ny * b - (y0 + ny * a) = -tw)) := by
      intro a b hab
      rcases hdir with ⟨h1, h2⟩ | ⟨h1, h2⟩ | ⟨h1, h2⟩ | ⟨h1, h2⟩
      · left; rw [h1, h2]; constructor <;> linarith
      · right; left; rw [h1, h2]; constructor <;> linarith
      · right; right; left; rw [h1, h2]; constructor <;> linarith
      · right; right; right; rw [h1, h2]; constructor <;> linarith
    have hnext : ∀ e ∈ events
        { x := x0 + nx * (tab.startPos + tw / 2), y := y0 + ny * (tab.startPos + tw / 2),
          z := -cd }
        (g.writeSideLoop x0 y0 nx ny cd td tw rest (tab.startPos + tw / 2) ++ tail),
        TabProfile cd td tw e := by
      apply ih (tab.startPos + tw / 2) _ rfl hrest
      cases rest with
      | nil => trivial
      | cons tab2 rest2 => exact Or.inr ⟨rfl, rfl⟩
    simp only [Generator.writeSideLoop] at he
    split_ifs at he with hgt
    · simp only [List.cons_append, List.nil_append, List.append_assoc, events,
        List.mem_cons] at he
      rcases he with he | he | he
      · rw [he]; exact hz
      · rw [he]
        exact ⟨hz, rfl, rfl, hdisp _ _ (by ring)⟩
      · exact hnext e he
    · have heq : tab.startPos - tw / 2 = cursor := le_antisymm (not_lt.mp hgt) hle
      have hpos : t.x = x0 + nx * cursor ∧ t.y = y0 + ny * cursor := by
        rcases hhead with h | h
        · exact absurd h hgt
        · exact h
      simp only [List.cons_append, List.nil_append, List.append_assoc, events,
        List.mem_cons] at he
      rcases he with he | he
      · rw [he, hpos.1, hpos.2]
        exact ⟨hz, rfl, rfl, hdisp _ _ (by rw [← heq]; ring)⟩
      · exact hnext e he

/-- Equally spaced tabs no wider than the spacing do not overlap. -/
theorem spaced_range' (tw s : ℚ) (k : Int) (hs : tw ≤ s) :
    ∀ (n a : Nat) (c : ℚ), c ≤ s * (((a + 1 : Nat) : ℚ)) - tw / 2 →
      Spaced tw c ((List.range' a n).map (fun t =>
        ({ side := k, startPos := s * (((t + 1 : Nat) : ℚ)) } : Tab))) := by
  intro n
  induction n with
  | zero => intro a c _; simp [Spaced]
  | succ n ih =>
    intro a c hc
    rw [List.range'_succ, List.map_cons]
    refine ⟨hc, ih (a + 1) _ ?_⟩
    push_cast
    linarith

/-- The tabs of a side are spaced and the first one starts after the corner. -/
theorem spaced_tabs (tw s : ℚ) (k : Int) (n : Nat) (htw : 0 < tw) (hs : tw ≤ s)
    (x0 y0 nx ny : ℚ) (t : Tool) :
    Spaced tw 0 ((List.range n).map (fun t =>
        ({ side := k, startPos := s * (((t + 1 : Nat) : ℚ)) } : Tab))) ∧
    HeadReady tw x0 y0 nx ny 0 t ((List.range n).map (fun t =>
        ({ side := k, startPos := s * (((t + 1 : Nat) : ℚ)) } : Tab))) := by
  rw [List.range_eq_range']
  constructor
  · apply spaced_range' tw s k hs
    push_cast
    linarith
  · cases n with
    | zero => simp [HeadReady]
    | succ n =>
      rw [List.range'_succ, List.map_cons]
      left
      push_cast
      linarith

/-- The final pass reaches the cut depth. -/
theorem passDepth_final (g : Generator) (hp : 0 < g.Settings.PassDepth) : g.passDepth g.numPasses = g.Settings.CutDepth := by
  have h1 : g.Settings.CutDepth / g.Settings.PassDepth ≤ (g.numPasses : ℚ) :=
    Int.le_ceil _
  have h2 : g.Settings.CutDepth ≤ (g.numPasses : ℚ) * g.Settings.PassDepth := by
    rwa [div_le_iff₀ hp] at h1
  unfold Generator.passDepth
  split_ifs with h
  · rfl
  · exact le_antisymm (not_lt.mp h) h2

/-- The direction of a side of length at least 0.001 is a unit. -/
theorem unit_direction (d : ℚ) (h : 1 / 1000 ≤ |d|) : d / |d| = 1 ∨ d / |d| = -1 := by
  have hpos : 0 < |d| := lt_of_lt_of_le (by norm_num) h
  rcases lt_or_ge d 0 with hd | hd
  · right
    rw [abs_of_neg hd, div_neg, div_self (ne_of_lt hd)]
  · left
    rw [abs_of_nonneg hd] at hpos ⊢
    exact div_self (ne_of_gt hpos)

/-- The closing move of a side is made at cut depth. -/
theorem events_tail_after_side (g : Generator) (x1 y1 cd td tw : ℚ) (tail : List Line)
    (htail : ∀ t : Tool, t.z = -cd → ∀ e ∈ events t tail, TabProfile cd td tw e) :
    ∀ t : Tool, t.z = -cd →
      ∀ e ∈ events t (Line.feedXYF g.profile.FeedMove x1 y1 g.Settings.FeedRate :: tail),
        TabProfile cd td tw e := by
  intro t hz e he
  simp only [events, List.mem_cons] at he
  rcases he with he | he
  · rw [he]; exact hz
  · exact htail { x := x1, y := y1, z := t.z } hz e he

/-- A horizontal side with spaced tabs has the tab profile. -/
theorem events_side_horiz (g : Generator) (x0 y x1 : ℚ) (b : Bool) (cd td tw : ℚ)
    (tabs : List Tab) (hne : tabs ≠ []) (hsp : Spaced tw 0 tabs)
    (hhead : ∀ (nx ny : ℚ) (t : Tool), HeadReady tw x0 y nx ny 0 t tabs)
    (tail : List Line)
    (htail : ∀ t : Tool, t.z = -cd → ∀ e ∈ events t tail, TabProfile cd td tw e) :
    ∀ t : Tool, t.z = -cd →
      ∀ e ∈ events t (g.writeSideWithTabs x0 y x1 y b cd td tw tabs ++ tail),
        TabProfile cd td tw e := by
  intro t hz e he
  rw [writeSideWithTabs_horiz g x0 y x1 b cd td tw tabs hne] at he
  split_ifs at he with hshort
  · exact htail t hz e he
  · rw [List.append_assoc, List.singleton_append] at he
    have hdir := unit_direction (x1 - x0) (not_lt.mp hshort)
    refine events_writeSideLoop g x0 y _ 0 cd td tw ?_ _
      (events_tail_after_side g x1 y cd td tw tail htail) tabs 0 t hz hsp (hhead _ _ t) e he
    rcases hdir with h | h
    · exact Or.inl ⟨h, rfl⟩
    · exact Or.inr (Or.inr (Or.inl ⟨h, rfl⟩))

/-- A vertical side with spaced tabs has the tab profile. -/
theorem events_side_vert (g : Generator) (x y0 y1 : ℚ) (b : Bool) (cd td tw : ℚ)
    (tabs : List Tab) (hne : tabs ≠ []) (hsp : Spaced tw 0 tabs)
    (hhead : ∀ (nx ny : ℚ) (t : Tool), HeadReady tw x y0 nx ny 0 t tabs)
    (tail : List Line)
    (htail : ∀ t : Tool, t.z = -cd → ∀ e ∈ events t tail, TabProfile cd td tw e) :
    ∀ t : Tool, t.z = -cd →
      ∀ e ∈ events t (g.writeSideWithTabs x y0 x y1 b cd td tw tabs ++ tail),
        TabProfile cd td tw e := by
  intro t hz e he
  rw [writeSideWithTabs_vert g x y0 y1 b cd td tw tabs hne] at he
  split_ifs at he with hshort
  · exact htail t hz e he
  · rw [List.append_assoc, List.singleton_append] at he
    have hdir := unit_direction (y1 - y0) (not_lt.mp hshort)
    refine events_writeSideLoop g x y0 0 _ cd td tw ?_ _
      (events_tail_after_side g x y1 cd td tw tail htail) tabs 0 t hz hsp (hhead _ _ t) e he
    rcases hdir with h | h
    · exact Or.inr (Or.inl ⟨rfl, h⟩)
    · exact Or.inr (Or.inr (Or.inr ⟨rfl, h⟩))

/-- A perimeter whose tabs fit has the tab profile. -/
theorem events_perimeterWithTabs (g : Generator) (p : Placement) (x0 y0 x1 y1 cd : ℚ)
    (hN : 0 < g.Settings.PartTabsPerSide) (htw : 0 < g.Settings.PartTabWidth)
    (hfitW : g.Settings.PartTabWidth * ((g.Settings.PartTabsPerSide : ℚ) + 1)
      ≤ p.PlacedWidth + g.Settings.ToolDiameter)
    (hfitH : g.Settings.PartTabWidth * ((g.Settings.PartTabsPerSide : ℚ) + 1)
      ≤ p.PlacedHeight + g.Settings.ToolDiameter)
    (tail : List Line)
    (htail : ∀ t : Tool, t.z = -cd → ∀ e ∈ events t tail,
      TabProfile cd (if cd - g.Settings.PartTabHeight < 0 then 0
        else cd - g.Settings.PartTabHeight) g.Settings.PartTabWidth e) :
    ∀ t : Tool, t.z = -cd →
      ∀ e ∈ events t (g.writePerimeterWithTabs x0 y0 x1 y1 cd (g.calculateTabs p) ++ tail),
        TabProfile cd (if cd - g.Settings.PartTabHeight < 0 then 0
          else cd - g.Settings.PartTabHeight) g.Settings.PartTabWidth e := by
  obtain ⟨⟨_, n0⟩, ⟨_, n1⟩, ⟨_, n2⟩, ⟨_, n3⟩⟩ := tabsForSide_shape g p hN
  have hpos : (0 : ℚ) < (g.Settings.PartTabsPerSide : ℚ) + 1 := by
    have : (0 : ℚ) < (g.Settings.PartTabsPerSide : ℚ) := by exact_mod_cast hN
    linarith
  have hsW : g.Settings.PartTabWidth ≤ (p.PlacedWidth + g.Settings.ToolDiameter)
      / (((g.Settings.PartTabsPerSide + 1 : Int) : ℚ)) := by
    push_cast
    rw [le_div_iff₀ hpos]
    exact hfitW
  have hsH : g.Settings.PartTabWidth ≤ (p.PlacedHeight + g.Settings.ToolDiameter)
      / (((g.Settings.PartTabsPerSide + 1 : Int) : ℚ)) := by
    push_cast
    rw [le_div_iff₀ hpos]
    exact hfitH
  simp only [Generator.writePerimeterWithTabs, List.append_assoc]
  intro t hz
  apply events_side_horiz g x0 y0 x1 true cd _ _ _ n0 _ _ _ _ t hz
  · rw [tabsForSide_zero g p hN]
    exact (spaced_tabs _ _ 0 _ htw hsW 0 0 0 0 t).1
  · intro nx ny t2
    rw [tabsForSide_zero g p hN]
    exact (spaced_tabs _ _ 0 _ htw hsW x0 y0 nx ny t2).2
  intro t hz
  apply events_side_vert g x1 y0 y1 false cd _ _ _ n1 _ _ _ _ t hz
  · rw [tabsForSide_one g p hN]
    exact (spaced_tabs _ _ 1 _ htw hsH 0 0 0 0 t).1
  · intro nx ny t2
    rw [tabsForSide_one g p hN]
    exact (spaced_tabs _ _ 1 _ htw hsH x1 y0 nx ny t2).2
  intro t hz
  apply events_side_horiz g x1 y1 x0 true cd _ _ _ n2 _ _ _ _ t hz
  · rw [tabsForSide_two g p hN]
    exact (spaced_tabs _ _ 2 _ htw hsW 0 0 0 0 t).1
  · intro nx ny t2
    rw [tabsForSide_two g p hN]
    exact (spaced_tabs _ _ 2 _ htw hsW x1 y1 nx ny t2).2
  intro t hz
  apply events_side_vert g x0 y1 y0 false cd _ _ _ n3 _ _ _ _ t hz
  · rw [tabsForSide_three g p hN]
    exact (spaced_tabs _ _ 3 _ htw hsH 0 0 0 0 t).1
  · intro nx ny t2
    rw [tabsForSide_three g p hN]
    exact (spaced_tabs _ _ 3 _ htw hsH x0 y1 nx ny t2).2
  exact htail

/-- Direction of a side that runs forward. -/
theorem div_abs_of_pos (d : ℚ) (h : 0 < d) : d / |d| = 1 := by
  rw [abs_of_pos h, div_self (ne_of_gt h)]

/-- Direction of a side that runs backward. -/
theorem neg_div_abs_of_pos (d : ℚ) (h : 0 < d) : -d / |(-d)| = -1 := by
  rw [abs_neg, abs_of_pos h, neg_div, div_self (ne_of_gt h)]

/-- The final pass with tabs enabled when both sides are at least 0.001 long. -/
theorem writePass_final_long (g : Generator) (p : Placement)
    (hN : 0 < g.Settings.PartTabsPerSide)
    (hw : 1 / 1000 ≤ p.PlacedWidth + g.Settings.ToolDiameter)
    (hh : 1 / 1000 ≤ p.PlacedHeight + g.Settings.ToolDiameter) :
    g.writePass p (g.calculateTabs p) g.numPasses =
      [ g.comment (Text.pass g.numPasses g.numPasses (g.passDepth g.numPasses)),
        Line.rapidXY g.profile.RapidMove (p.X - g.Settings.ToolDiameter / 2)
          (p.Y - g.Settings.ToolDiameter / 2),
        Line.plunge g.profile.FeedMove (-(g.passDepth g.numPasses)) g.Settings.PlungeRate ]
      ++ (g.writeSideLoop (p.X - g.Settings.ToolDiameter / 2)
            (p.Y - g.Settings.ToolDiameter / 2) 1 0 (g.passDepth g.numPasses)
            (if g.passDepth g.numPasses - g.Settings.PartTabHeight < 0 then 0
             else g.passDepth g.numPasses - g.Settings.PartTabHeight)
            g.Settings.PartTabWidth (g.tabsForSide (g.calculateTabs p) 0) 0
          ++ [Line.feedXYF g.profile.FeedMove
                (p.X + p.PlacedWidth + g.Settings.ToolDiameter / 2)
                (p.Y - g.Settings.ToolDiameter / 2) g.Settings.FeedRate])
      ++ (g.writeSideLoop (p.X + p.PlacedWidth + g.Settings.ToolDiameter / 2)
            (p.Y - g.Settings.ToolDiameter / 2) 0 1 (g.passDepth g.numPasses)
            (if g.passDepth g.numPasses - g.Settings.PartTabHeight < 0 then 0
             else g.passDepth g.numPasses - g.Settings.PartTabHeight)
            g.Settings.PartTabWidth (g.tabsForSide (g.calculateTabs p) 1) 0
          ++ [Line.feedXYF g.profile.FeedMove
                (p.X + p.PlacedWidth + g.Settings.ToolDiameter / 2)
                (p.Y + p.PlacedHeight + g.Settings.ToolDiameter / 2) g.Settings.FeedRate])
      ++ (g.writeSideLoop (p.X + p.PlacedWidth + g.Settings.ToolDiameter / 2)
            (p.Y + p.PlacedHeight + g.Settings.ToolDiameter / 2) (-1) 0
            (g.passDepth g.numPasses)
            (if g.passDepth g.numPasses - g.Settings.PartTabHeight < 0 then 0
             else g.passDepth g.numPasses - g.Settings.PartTabHeight)
            g.Settings.PartTabWidth (g.tabsForSide (g.calculateTabs p) 2) 0
          ++ [Line.feedXYF g.profile.FeedMove (p.X - g.Settings.ToolDiameter / 2)
                (p.Y + p.PlacedHeight + g.Settings.ToolDiameter / 2) g.Settings.FeedRate])
      ++ (g.writeSideLoop (p.X - g.Settings.ToolDiameter / 2)
            (p.Y + p.PlacedHeight + g.Settings.ToolDiameter / 2) 0 (-1)
            (g.passDepth g.numPasses)
            (if g.passDepth g.numPasses - g.Settings.PartTabHeight < 0 then 0
             else g.passDepth g.numPasses - g.Settings.PartTabHeight)
            g.Settings.PartTabWidth (g.tabsForSide (g.calculateTabs p) 3) 0
          ++ [Line.feedXYF g.profile.FeedMove (p.X - g.Settings.ToolDiameter / 2)
                (p.Y - g.Settings.ToolDiameter / 2) g.Settings.FeedRate])
      ++ [ Line.rapidZ g.profile.RapidMove g.Settings.SafeZ ] := by
  obtain ⟨⟨_, n0⟩, ⟨_, n1⟩, ⟨_, n2⟩, ⟨_, n3⟩⟩ := tabsForSide_shape g p hN
  have hw0 : (0 : ℚ) < p.PlacedWidth + g.Settings.ToolDiameter :=
    lt_of_lt_of_le (by norm_num) hw
  have hh0 : (0 : ℚ) < p.PlacedHeight + g.Settings.ToolDiameter :=
    lt_of_lt_of_le (by norm_num) hh
  have aw : ¬ |p.PlacedWidth + g.Settings.ToolDiameter| < 1 / 1000 := by
    rw [abs_of_pos hw0]; exact not_lt.mpr hw
  have ah : ¬ |p.PlacedHeight + g.Settings.ToolDiameter| < 1 / 1000 := by
    rw [abs_of_pos hh0]; exact not_lt.mpr hh
  have aw2 : ¬ |(-(p.PlacedWidth + g.Settings.ToolDiameter))| < 1 / 1000 := by
    rw [abs_neg]; exact aw
  have ah2 : ¬ |(-(p.PlacedHeight + g.Settings.ToolDiameter))| < 1 / 1000 := by
    rw [abs_neg]; exact ah
  rw [writePass_final g p _ hN]
  simp only [Generator.writePerimeterWithTabs]
  rw [writeSideWithTabs_horiz _ _ _ _ _ _ _ _ _ n0, writeSideWithTabs_vert _ _ _ _ _ _ _ _ _ n1,
    writeSideWithTabs_horiz _ _ _ _ _ _ _ _ _ n2, writeSideWithTabs_vert _ _ _ _ _ _ _ _ _ n3,
    offset_width, offset_height, offset_width_back, offset_height_back,
    if_neg aw, if_neg ah, if_neg aw2, if_neg ah2,
    div_abs_of_pos _ hw0, div_abs_of_pos _ hh0, neg_div_abs_of_pos _ hw0,
    neg_div_abs_of_pos _ hh0]
  simp only [List.append_assoc]

/-- Lines of the final pass of scenario S5 with two tabs per side, 10 wide and 3 high. -/
theorem tabbed_final_pass :
    tabbedGen.writePass samplePlacement (tabbedGen.calculateTabs samplePlacement) tabbedGen.numPasses =
      [Line.comment ";" (Text.pass 3 3 12) "",
      Line.rapidXY "G0" (-3) (-3),
      Line.plunge "G1" (-12) 300,
      Line.feedXYF "G1" (82 / 3) (-3) 1000,
      Line.feedZ "G1" (-9),
      Line.feedXY "G1" (112 / 3) (-3),
      Line.feedZ "G1" (-12),
      Line.feedXYF "G1" (188 / 3) (-3) 1000,
      Line.feedZ "G1" (-9),
      Line.feedXY "G1" (218 / 3) (-3),
      Line.feedZ "G1" (-12),
      Line.feedXYF "G1" 103 (-3) 1000,
      Line.feedXYF "G1" 103 (32 / 3) 1000,
      Line.feedZ "G1" (-9),
      Line.feedXY "G1" 103 (62 / 3),
      Line.feedZ "G1" (-12),
      Line.feedXYF "G1" 103 (88 / 3) 1000,
      Line.feedZ "G1" (-9),
      Line.feedXY "G1" 103 (118 / 3),
      Line.feedZ "G1" (-12),
      Line.feedXYF "G1" 103 53 1000,
      Line.feedXYF "G1" (218 / 3) 53 1000,
      Line.feedZ "G1" (-9),
      Line.feedXY "G1" (188 / 3) 53,
      Line.feedZ "G1" (-12),
      Line.feedXYF "G1" (112 / 3) 53 1000,
      Line.feedZ "G1" (-9),
      Line.feedXY "G1" (82 / 3) 53,
      Line.feedZ "G1" (-12),
      Line.feedXYF "G1" (-3) 53 1000,
      Line.feedXYF "G1" (-3) (118 / 3) 1000,
      Line.feedZ "G1" (-9),
      Line.feedXY "G1" (-3) (88 / 3),
      Line.feedZ "G1" (-12),
      Line.feedXYF "G1" (-3) (62 / 3) 1000,
      Line.feedZ "G1" (-9),
      Line.feedXY "G1" (-3) (32 / 3),
      Line.feedZ "G1" (-12),
      Line.feedXYF "G1" (-3) (-3) 1000,
      Line.rapidZ "G0" 5] := by
  have hN : 0 < tabbedGen.Settings.PartTabsPerSide := by decide
  have hp : tabbedGen.numPasses = 3 := by
    simp only [Generator.numPasses, tabbedGen, tabbedSettings, sampleSettings]
    rw [Int.ceil_eq_iff]; norm_num
  rw [writePass_final_long tabbedGen samplePlacement hN
    (by norm_num [samplePlacement, tabbedGen, tabbedSettings, sampleSettings, Placement.PlacedWidth])
    (by norm_num [samplePlacement, tabbedGen, tabbedSettings, sampleSettings, Placement.PlacedHeight]),
    passDepth_final tabbedGen (by norm_num [tabbedGen, tabbedSettings, sampleSettings]),
    tabsForSide_zero _ _ hN, tabsForSide_one _ _ hN, tabsForSide_two _ _ hN,
    tabsForSide_three _ _ hN, hp]
  have h2 : tabbedGen.Settings.PartTabsPerSide.toNat = 2 := rfl
  rw [h2]
  simp only [List.range_succ, List.range_zero, List.nil_append, List.cons_append,
    List.map_cons, List.map_nil, Generator.writeSideLoop]
  norm_num [samplePlacement, tabbedGen, tabbedSettings, sampleSettings, sampleProfile,
    Placement.PlacedWidth, Placement.PlacedHeight, Generator.comment]

/-- Lines of the final pass when the tabs are higher than the cut is deep. -/
theorem tallTab_final_pass :
    tallTabGen.writePass samplePlacement (tallTabGen.calculateTabs samplePlacement) tallTabGen.numPasses =
      [Line.comment ";" (Text.pass 3 3 12) "",
      Line.rapidXY "G0" (-3) (-3),
      Line.plunge "G1" (-12) 300,
      Line.feedXYF "G1" (82 / 3) (-3) 1000,
      Line.feedZ "G1" 0,
      Line.feedXY "G1" (112 / 3) (-3),
      Line.feedZ "G1" (-12),
      Line.feedXYF "G1" (188 / 3) (-3) 1000,
      Line.feedZ "G1" 0,
      Line.feedXY "G1" (218 / 3) (-3),
      Line.feedZ "G1" (-12),
      Line.feedXYF "G1" 103 (-3) 1000,
      Line.feedXYF "G1" 103 (32 / 3) 1000,
      Line.feedZ "G1" 0,
      Line.feedXY "G1" 103 (62 / 3),
      Line.feedZ "G1" (-12),
      Line.feedXYF "G1" 103 (88 / 3) 1000,
      Line.feedZ "G1" 0,
      Line.feedXY "G1" 103 (118 / 3),
      Line.feedZ "G1" (-12),
      Line.feedXYF "G1" 103 53 1000,
      Line.feedXYF "G1" (218 / 3) 53 1000,
      Line.feedZ "G1" 0,
      Line.feedXY "G1" (188 / 3) 53,
      Line.feedZ "G1" (-12),
      Line.feedXYF "G1" (112 / 3) 53 1000,
      Line.feedZ "G1" 0,
      Line.feedXY "G1" (82 / 3) 53,
      Line.feedZ "G1" (-12),
      Line.feedXYF "G1" (-3) 53 1000,
      Line.feedXYF "G1" (-3) (118 / 3) 1000,
      Line.feedZ "G1" 0,
      Line.feedXY "G1" (-3) (88 / 3),
      Line.feedZ "G1" (-12),
      Line.feedXYF "G1" (-3) (62 / 3) 1000,
      Line.feedZ "G1" 0,
      Line.feedXY "G1" (-3) (32 / 3),
      Line.feedZ "G1" (-12),
      Line.feedXYF "G1" (-3) (-3) 1000,
      Line.rapidZ "G0" 5] := by
  have hN : 0 < tallTabGen.Settings.PartTabsPerSide := by decide
  have hp : tallTabGen.numPasses = 3 := by
    simp only [Generator.numPasses, tallTabGen, tallTabSettings, sampleSettings]
    rw [Int.ceil_eq_iff]; norm_num
  rw [writePass_final_long tallTabGen samplePlacement hN
    (by norm_num [samplePlacement, tallTabGen, tallTabSettings, sampleSettings, Placement.PlacedWidth])
    (by norm_num [samplePlacement, tallTabGen, tallTabSettings, sampleSettings, Placement.PlacedHeight]),
    passDepth_final tallTabGen (by norm_num [tallTabGen, tallTabSettings, sampleSettings]),
    tabsForSide_zero _ _ hN, tabsForSide_one _ _ hN, tabsForSide_two _ _ hN,
    tabsForSide_three _ _ hN, hp]
  have h2 : tallTabGen.Settings.PartTabsPerSide.toNat = 2 := rfl
  rw [h2]
  simp only [List.range_succ, List.range_zero, List.nil_append, List.cons_append,
    List.map_cons, List.map_nil, Generator.writeSideLoop]
  norm_num [samplePlacement, tallTabGen, tallTabSettings, sampleSettings, sampleProfile,
    Placement.PlacedWidth, Placement.PlacedHeight, Generator.comment]

/-- Lines of the final pass when the tabs are wider than their spacing. -/
theorem wideTab_final_pass :
    wideTabGen.writePass samplePlacement (wideTabGen.calculateTabs samplePlacement) wideTabGen.numPasses =
      [Line.comment ";" (Text.pass 3 3 12) "",
      Line.rapidXY "G0" (-3) (-3),
      Line.plunge "G1" (-12) 300,
      Line.feedXYF "G1" (37 / 3) (-3) 1000,
      Line.feedZ "G1" (-9),
      Line.feedXY "G1" (157 / 3) (-3),
      Line.feedZ "G1" (-12),
      Line.feedZ "G1" (-9),
      Line.feedXY "G1" (263 / 3) (-3),
      Line.feedZ "G1" (-12),
      Line.feedXYF "G1" 103 (-3) 1000,
      Line.feedZ "G1" (-9),
      Line.feedXY "G1" 103 (107 / 3),
      Line.feedZ "G1" (-12),
      Line.feedZ "G1" (-9),
      Line.feedXY "G1" 103 (163 / 3),
      Line.feedZ "G1" (-12),
      Line.feedXYF "G1" 103 53 1000,
      Line.feedXYF "G1" (263 / 3) 53 1000,
      Line.feedZ "G1" (-9),
      Line.feedXY "G1" (143 / 3) 53,
      Line.feedZ "G1" (-12),
      Line.feedZ "G1" (-9),
      Line.feedXY "G1" (37 / 3) 53,
      Line.feedZ "G1" (-12),
      Line.feedXYF "G1" (-3) 53 1000,
      Line.feedZ "G1" (-9),
      Line.feedXY "G1" (-3) (43 / 3),
      Line.feedZ "G1" (-12),
      Line.feedZ "G1" (-9),
      Line.feedXY "G1" (-3) (-13 / 3),
      Line.feedZ "G1" (-12),
      Line.feedXYF "G1" (-3) (-3) 1000,
      Line.rapidZ "G0" 5] := by
  have hN : 0 < wideTabGen.Settings.PartTabsPerSide := by decide
  have hp : wideTabGen.numPasses = 3 := by
    simp only [Generator.numPasses, wideTabGen, wideTabSettings, sampleSettings]
    rw [Int.ceil_eq_iff]; norm_num
  rw [writePass_final_long wideTabGen samplePlacement hN
    (by norm_num [samplePlacement, wideTabGen, wideTabSettings, sampleSettings, Placement.PlacedWidth])
    (by norm_num [samplePlacement, wideTabGen, wideTabSettings, sampleSettings, Placement.PlacedHeight]),
    passDepth_final wideTabGen (by norm_num [wideTabGen, wideTabSettings, sampleSettings]),
    tabsForSide_zero _ _ hN, tabsForSide_one _ _ hN, tabsForSide_two _ _ hN,
    tabsForSide_three _ _ hN, hp]
  have h2 : wideTabGen.Settings.PartTabsPerSide.toNat = 2 := rfl
  rw [h2]
  simp only [List.range_succ, List.range_zero, List.nil_append, List.cons_append,
    List.map_cons, List.map_nil, Generator.writeSideLoop]
  norm_num [samplePlacement, wideTabGen, wideTabSettings, sampleSettings, sampleProfile,
    Placement.PlacedWidth, Placement.PlacedHeight, Generator.comment]

/-- Away from NaN, failing `x <= 0` is the same as `x > 0`. -/
theorem leZero_false_iff_isPos (x : Float64) (hx : x ≠ Float64.nan) :
    x.leZero = false ↔ x.isPos = true := by
  cases x with
  | fin q => simp [Float64.leZero, Float64.isPos]
  | posInf => simp [Float64.leZero, Float64.isPos]
  | negInf => simp [Float64.leZero, Float64.isPos]
  | nan => exact absurd rfl hx

/-- A positive value fails `x <= 0`. -/
theorem leZero_false_of_isPos (x : Float64) (hx : x.isPos = true) : x.leZero = false := by
  cases x with
  | fin q => simp [Float64.leZero, Float64.isPos] at hx ⊢; exact hx
  | posInf => rfl
  | negInf => simp [Float64.isPos] at hx
  | nan => simp [Float64.isPos] at hx

/-- An empty row leaves the result as it is. -/
theorem importRow_empty (sc : Strconv) (result : ImportResult) (lineNum : Int)
    (row : List String) (he : ImportCSV.isEmptyRow row) :
    ImportCSV.row sc result lineNum row = result := by
  simp [ImportCSV.row, he]

/-- A row with valid dimensions adds exactly one part, with these dimensions,
and no error. -/
theorem importRow_valid (sc : Strconv) (result : ImportResult) (lineNum : Int)
    (row : List String) (d : Float64 × Float64 × Int) (he : ¬ ImportCSV.isEmptyRow row)
    (hd : ImportCSV.rowDims? sc row = some d) :
    ∃ part, (ImportCSV.row sc result lineNum row).Parts = result.Parts ++ [part] ∧
      part.dims = d ∧
      (ImportCSV.row sc result lineNum row).Errors = result.Errors := by
  unfold ImportCSV.rowDims? at hd
  split_ifs at hd with hlen
  have hlen' : ¬ row.length < 4 := by omega
  cases hw : sc.ParseFloat (row.getD 1 "") with
  | none => simp only [hw] at hd; exact absurd hd (by simp)
  | some w =>
    cases hh : sc.ParseFloat (row.getD 2 "") with
    | none => simp only [hw, hh] at hd; exact absurd hd (by simp)
    | some h =>
      cases hq : sc.Atoi (row.getD 3 "") with
      | none => simp only [hw, hh, hq] at hd; exact absurd hd (by simp)
      | some q =>
        simp only [hw, hh, hq] at hd
        split_ifs at hd with hpos
        injection hd with hd
        subst hd
        have hcond : ¬ (w.leZero = true ∨ h.leZero = true ∨ q ≤ 0) := by
          have h1 := leZero_false_of_isPos w hpos.1
          have h2 := leZero_false_of_isPos h hpos.2.1
          have h3 := hpos.2.2
          rw [h1, h2]
          simp
          exact h3
        simp only [ImportCSV.row, he, hlen', hw, hh, hq, hcond, if_false]
        split_ifs <;> exact ⟨_, rfl, rfl, rfl⟩

/-- Away from NaN, a non-empty row without valid dimensions adds exactly one
error and no part. -/
theorem importRow_invalid (sc : Strconv) (result : ImportResult) (lineNum : Int)
    (row : List String) (he : ¬ ImportCSV.isEmptyRow row)
    (hw : sc.ParseFloat (row.getD 1 "") ≠ some Float64.nan)
    (hh : sc.ParseFloat (row.getD 2 "") ≠ some Float64.nan)
    (hd : ImportCSV.rowDims? sc row = none) :
    ∃ e, ImportCSV.row sc result lineNum row =
      { result with Errors := result.Errors ++ [e] } := by
  unfold ImportCSV.rowDims? at hd
  by_cases hlen : row.length < 4
  · exact ⟨_, by simp only [ImportCSV.row, he, hlen, if_true, if_false]; rfl⟩
  · have hlen4 : 4 ≤ row.length := by omega
    rw [if_pos hlen4] at hd
    cases hwp : sc.ParseFloat (row.getD 1 "") with
    | none => exact ⟨_, by simp only [ImportCSV.row, he, hlen, hwp, if_false]; rfl⟩
    | some w =>
      cases hhp : sc.ParseFloat (row.getD 2 "") with
      | none => exact ⟨_, by simp only [ImportCSV.row, he, hlen, hwp, hhp, if_false]; rfl⟩
      | some h =>
        cases hq : sc.Atoi (row.getD 3 "") with
        | none => exact ⟨_, by simp only [ImportCSV.row, he, hlen, hwp, hhp, hq, if_false]; rfl⟩
        | some q =>
          simp only [hwp, hhp, hq] at hd
          have hwn : w ≠ Float64.nan := fun hx => hw (by rw [hwp, hx])
          have hhn : h ≠ Float64.nan := fun hx => hh (by rw [hhp, hx])
          have hcond : w.leZero = true ∨ h.leZero = true ∨ q ≤ 0 := by
            by_contra hc
            push_neg at hc
            obtain ⟨c1, c2, c3⟩ := hc
            have p1 := (leZero_false_iff_isPos w hwn).mp (by simpa using c1)
            have p2 := (leZero_false_iff_isPos h hhn).mp (by simpa using c2)
            rw [if_pos ⟨p1, p2, c3⟩] at hd
            exact absurd hd (by simp)
          exact ⟨_, by simp only [ImportCSV.row, he, hlen, hwp, hhp, hq, hcond, if_true,
            if_false]; rfl⟩

/-- The row loop: away from NaN the parts are the valid dimensions of the
non-empty rows, in order, and every other non-empty row adds one error. -/
theorem importLoop_spec (sc : Strconv) :
    ∀ (rows : List (List String)) (lineNum : Int) (result : ImportResult),
      (∀ row ∈ rows, sc.ParseFloat (row.getD 1 "") ≠ some Float64.nan ∧
        sc.ParseFloat (row.getD 2 "") ≠ some Float64.nan) →
      (ImportCSV.loop sc rows lineNum result).Parts.map ImportedPart.dims =
        result.Parts.map ImportedPart.dims ++
          (rows.filter ImportCSV.isDataRow).filterMap (ImportCSV.rowDims? sc) ∧
      (ImportCSV.loop sc rows lineNum result).Errors.length =
        result.Errors.length +
          ((rows.filter ImportCSV.isDataRow).filter (ImportCSV.isBadRow sc)).length := by
  intro rows
  induction rows with
  | nil => intro lineNum result _; simp [ImportCSV.loop]
  | cons row rest ih =>
    intro lineNum result hnan
    have hrest := ih (lineNum + 1) (ImportCSV.row sc result (lineNum + 1) row)
      (fun r hr => hnan r (List.mem_cons_of_mem _ hr))
    have hrow := hnan row (List.mem_cons_self _ _)
    rw [ImportCSV.loop]
    by_cases he : ImportCSV.isEmptyRow row
    · have hdec : ImportCSV.isDataRow row = false := by simp [ImportCSV.isDataRow, he]
      simp only [List.filter_cons, hdec, Bool.false_eq_true, if_false]
      rw [importRow_empty sc result _ row he] at hrest
      rw [importRow_empty sc result _ row he]
      exact hrest
    · have hdec : ImportCSV.isDataRow row = true := by simp [ImportCSV.isDataRow, he]
      simp only [List.filter_cons, hdec, if_true]
      cases hd : ImportCSV.rowDims? sc row with
      | some d =>
        obtain ⟨part, hp, hdims, herr⟩ := importRow_valid sc result (lineNum + 1) row d he hd
        have hbad : ImportCSV.isBadRow sc row = false := by simp [ImportCSV.isBadRow, hd]
        simp only [hbad, Bool.false_eq_true, if_false, List.filterMap_cons, hd]
        rw [hp, herr] at hrest
        refine ⟨?_, hrest.2⟩
        rw [hrest.1, List.map_append, List.map_singleton, hdims, List.append_assoc]
        rfl
      | none =>
        obtain ⟨e, herr⟩ :=
          importRow_invalid sc result (lineNum + 1) row he hrow.1 hrow.2 hd
        have hbad : ImportCSV.isBadRow sc row = true := by simp [ImportCSV.isBadRow, hd]
        simp only [hbad, if_true, List.filterMap_cons, hd]
        rw [herr] at hrest ⊢
        refine ⟨hrest.1, ?_⟩
        rw [hrest.2]
        show (result.Errors ++ [e]).length + _ = _
        rw [List.length_append, List.length_singleton, List.length_cons]
        omega

/-- Valid dimensions are positive. -/
theorem rowDims?_pos (sc : Strconv) (row : List String) (w h : Float64) (q : Int)
    (hd : ImportCSV.rowDims? sc row = some (w, h, q)) :
    w.isPos = true ∧ h.isPos = true ∧ 0 < q := by
  unfold ImportCSV.rowDims? at hd
  split_ifs at hd with hlen
  cases hw : sc.ParseFloat (row.getD 1 "") with
  | none => simp only [hw] at hd; exact absurd hd (by simp)
  | some w1 =>
    cases hh : sc.ParseFloat (row.getD 2 "") with
    | none => simp only [hw, hh] at hd; exact absurd hd (by simp)
    | some h1 =>
      cases hq : sc.Atoi (row.getD 3 "") with
      | none => simp only [hw, hh, hq] at hd; exact absurd hd (by simp)
      | some q1 =>
        simp only [hw, hh, hq] at hd
        split_ifs at hd with hpos
        injection hd with hd
        injection hd with e1 e2
        injection e2 with e2 e3
        subst e1; subst e2; subst e3
        exact hpos

/-- `ImportCSV` on a non-empty record list is the row loop over the data rows,
started at line counter 1 without a header and 2 with one. -/
theorem importCSV_eq_loop (sc : Strconv) (records : List (List String))
    (hne : records ≠ []) :
    ImportCSV sc records =
      ImportCSV.loop sc (ImportCSV.dataRows sc records)
        (if ImportCSV.hasHeader sc records then 2 else 1)
        { Parts := [], Errors := [],
          Warnings := if ImportCSV.hasHeader sc records then [ImportWarning.headerSkipped]
                      else [] } := by
  have hlen : ¬ records.length = 0 := by
    rw [List.length_eq_zero]; exact hne
  unfold ImportCSV ImportCSV.dataRows
  rw [if_neg hlen]
  split_ifs with hh
  · rfl
  · rfl

/-- A row that meets the conditions of the spec adds exactly one part. -/
theorem libraryRow_ok (st : Strings) (sc : Strconv) (ids : Nat → String)
    (header : List String) (li wi hi : Nat) (result : csvLibraryResult) (rowNum : Nat)
    (row : List String) (hok : importCSVToLibraryParts.rowOk st sc li wi hi row = true) :
    ∃ w h, sc.ParseFloat (st.TrimSpace (row.getD wi "")) = some w ∧
      sc.ParseFloat (st.TrimSpace (row.getD hi "")) = some h ∧
      importCSVToLibraryParts.row st sc ids header li wi hi result rowNum row =
        { result with
            parts := result.parts ++
              [importCSVToLibraryParts.build st sc header row (ids rowNum)
                (st.TrimSpace (row.getD li "")) w h] } := by
  unfold importCSVToLibraryParts.rowOk at hok
  simp only [Bool.and_eq_true, decide_eq_true_eq] at hok
  obtain ⟨⟨⟨⟨⟨h1, h2⟩, h3⟩, h4⟩, h5⟩, h6⟩ := hok
  have hlen : ¬ (row.length ≤ li ∨ row.length ≤ wi ∨ row.length ≤ hi) := by omega
  cases hw : sc.ParseFloat (st.TrimSpace (row.getD wi "")) with
  | none => simp only [hw] at h5; exact absurd h5 (by simp)
  | some w =>
    cases hh : sc.ParseFloat (st.TrimSpace (row.getD hi "")) with
    | none => simp only [hh] at h6; exact absurd h6 (by simp)
    | some h =>
      simp only [hw] at h5
      simp only [hh] at h6
      have hw0 : ¬ (w.leZero = true) := by rw [leZero_false_of_isPos w h5]; simp
      have hh0 : ¬ (h.leZero = true) := by rw [leZero_false_of_isPos h h6]; simp
      refine ⟨w, h, rfl, rfl, ?_⟩
      simp only [importCSVToLibraryParts.row, hlen, h4, hw, hh, hw0, hh0, if_false,
        Bool.false_eq_true]

/-- Away from NaN, a row that misses a condition of the spec adds exactly one
error. -/
theorem libraryRow_bad (st : Strings) (sc : Strconv) (ids : Nat → String)
    (header : List String) (li wi hi : Nat) (result : csvLibraryResult) (rowNum : Nat)
    (row : List String) (hok : importCSVToLibraryParts.rowOk st sc li wi hi row = false)
    (hnan : importCSVToLibraryParts.noNaN st sc wi hi row) :
    ∃ e, importCSVToLibraryParts.row st sc ids header li wi hi result rowNum row =
        { result with errors := result.errors ++ [e] } := by
  unfold importCSVToLibraryParts.row
  by_cases hlen : row.length ≤ li ∨ row.length ≤ wi ∨ row.length ≤ hi
  · exact ⟨_, by simp only [hlen, if_true]; rfl⟩
  · by_cases hl : st.TrimSpace (row.getD li "") = ""
    · exact ⟨_, by simp only [hlen, hl, if_true, if_false]; rfl⟩
    · cases hw : sc.ParseFloat (st.TrimSpace (row.getD wi "")) with
      | none => exact ⟨_, by simp only [hlen, hl, if_false]; rfl⟩
      | some w =>
        by_cases hw0 : w.leZero = true
        · exact ⟨_, by simp only [hlen, hl, hw0, if_true, if_false]; rfl⟩
        · cases hh : sc.ParseFloat (st.TrimSpace (row.getD hi "")) with
          | none => exact ⟨_, by simp only [hlen, hl, hw0, if_false]; rfl⟩
          | some h =>
            by_cases hh0 : h.leZero = true
            · exact ⟨_, by simp only [hlen, hl, hw0, hh0, if_true, if_false]; rfl⟩
            · exfalso
              have hwn : w ≠ Float64.nan := fun e => hnan.1 (by rw [hw, e])
              have hhn : h ≠ Float64.nan := fun e => hnan.2 (by rw [hh, e])
              have hwp := (leZero_false_iff_isPos w hwn).1 (by simpa using hw0)
              have hhp := (leZero_false_iff_isPos h hhn).1 (by simpa using hh0)
              have : importCSVToLibraryParts.rowOk st sc li wi hi row = true := by
                unfold importCSVToLibraryParts.rowOk
                simp only [hw, hh, hwp, hhp, Bool.and_eq_true, decide_eq_true_eq, and_true]
                exact ⟨⟨⟨by omega, by omega⟩, by omega⟩, hl⟩
              rw [this] at hok
              exact absurd hok (by simp)

/-- The column loop finds no entry exactly when it started with none and no
column has the name. -/
theorem colIndexGo_eq_none (st : Strings) (name : String) :
    ∀ (header : List String) (i : Nat) (acc : Option Nat),
      colIndex.go st name header i acc = none ↔
        acc = none ∧ ∀ col ∈ header, st.TrimSpace (st.ToLower col) ≠ name := by
  intro header
  induction header with
  | nil => intro i acc; simp [colIndex.go]
  | cons col rest ih =>
    intro i acc
    rw [colIndex.go, ih]
    by_cases hc : st.TrimSpace (st.ToLower col) = name
    · simp [hc]
    · simp [hc]

/-- The name has no entry in `colIndex` exactly when no column of the header has
this name after lower-casing and trimming. -/
theorem colIndex_eq_none (st : Strings) (header : List String) (name : String) :
    colIndex st header name = none ↔
      ∀ col ∈ header, st.TrimSpace (st.ToLower col) ≠ name := by
  unfold colIndex
  rw [colIndexGo_eq_none]
  simp

/-- An entry of `colIndex` found by the column loop is the old entry or points
at a column with the name. -/
theorem colIndexGo_eq_some (st : Strings) (name : String) :
    ∀ (header : List String) (i : Nat) (acc : Option Nat) (idx : Nat),
      colIndex.go st name header i acc = some idx →
        acc = some idx ∨
        (i ≤ idx ∧ idx < i + header.length ∧
          st.TrimSpace (st.ToLower (header.getD (idx - i) "")) = name) := by
  intro header
  induction header with
  | nil => intro i acc idx h; left; simpa [colIndex.go] using h
  | cons col rest ih =>
    intro i acc idx h
    rw [colIndex.go] at h
    rcases ih (i + 1) _ idx h with h1 | ⟨h1, h2, h3⟩
    · by_cases hc : st.TrimSpace (st.ToLower col) = name
      · simp only [hc, if_true, Option.some.injEq] at h1
        subst h1
        right
        refine ⟨le_refl _, by simp, ?_⟩
        simpa using hc
      · simp only [hc, if_false] at h1
        left; exact h1
    · right
      refine ⟨by omega, by simp only [List.length_cons]; omega, ?_⟩
      have : idx - i = (idx - (i + 1)) + 1 := by omega
      rw [this, List.getD_cons_succ]
      exact h3

/-- An entry of `colIndex` points at a column of the header with the name. -/
theorem colIndex_eq_some (st : Strings) (header : List String) (name : String) (idx : Nat)
    (h : colIndex st header name = some idx) :
    idx < header.length ∧ st.TrimSpace (st.ToLower (header.getD idx "")) = name := by
  rcases colIndexGo_eq_some st name header 0 none idx h with h1 | ⟨_, h2, h3⟩
  · exact absurd h1 (by simp)
  · exact ⟨by omega, by simpa using h3⟩

/-- The row loop adds one part for every row that meets the conditions of the
spec and, away from NaN, one error for every other row. -/
theorem libraryLoop_spec (st : Strings) (sc : Strconv) (ids : Nat → String)
    (header : List String) (li wi hi : Nat) :
    ∀ (rows : List (List String)) (rowNum : Nat) (result : csvLibraryResult),
      (∀ row ∈ rows, importCSVToLibraryParts.noNaN st sc wi hi row) →
      (importCSVToLibraryParts.loop st sc ids header li wi hi rows rowNum result).parts.length =
        result.parts.length +
          (rows.filter (importCSVToLibraryParts.rowOk st sc li wi hi)).length ∧
      (importCSVToLibraryParts.loop st sc ids header li wi hi rows rowNum result).errors.length =
        result.errors.length +
          (rows.filter (fun row => !importCSVToLibraryParts.rowOk st sc li wi hi row)).length := by
  intro rows
  induction rows with
  | nil => intro rowNum result _; simp [importCSVToLibraryParts.loop]
  | cons row rest ih =>
    intro rowNum result hnan
    have hrest := ih (rowNum + 1)
      (importCSVToLibraryParts.row st sc ids header li wi hi result rowNum row)
      (fun r hr => hnan r (List.mem_cons_of_mem _ hr))
    rw [importCSVToLibraryParts.loop]
    cases hok : importCSVToLibraryParts.rowOk st sc li wi hi row with
    | true =>
      obtain ⟨w, h, _, _, hrow⟩ := libraryRow_ok st sc ids header li wi hi result rowNum row hok
      rw [hrow] at hrest ⊢
      simp only [List.filter_cons, hok, if_true, Bool.not_true, Bool.false_eq_true, if_false,
        List.length_cons]
      refine ⟨?_, hrest.2⟩
      rw [hrest.1]
      show (result.parts ++ [_]).length + _ = _
      rw [List.length_append, List.length_singleton]
      omega
    | false =>
      obtain ⟨e, hrow⟩ := libraryRow_bad st sc ids header li wi hi result rowNum row hok
        (hnan row (List.mem_cons_self _ _))
      rw [hrow] at hrest ⊢
      simp only [List.filter_cons, hok, if_true, Bool.not_false, Bool.false_eq_true, if_false,
        List.length_cons]
      refine ⟨hrest.1, ?_⟩
      rw [hrest.2]
      show (result.errors ++ [e]).length + _ = _
      rw [List.length_append, List.length_singleton]
      omega

/-- The optional cell of a row is read exactly when the header has the column
and the row reaches it. -/
theorem optCell_eq_none (st : Strings) (header row : List String) (name : String) :
    optCell st header row name = none ↔
      (∀ col ∈ header, st.TrimSpace (st.ToLower col) ≠ name) ∨
      ∃ idx, colIndex st header name = some idx ∧ row.length ≤ idx := by
  unfold optCell
  cases hc : colIndex st header name with
  | none =>
    simp only [true_iff]
    left
    exact (colIndex_eq_none st header name).1 hc
  | some idx =>
    have hne : ¬ ∀ col ∈ header, st.TrimSpace (st.ToLower col) ≠ name := by
      intro hall
      rw [(colIndex_eq_none st header name).2 hall] at hc
      exact absurd hc (by simp)
    by_cases hlt : idx < row.length
    · simp only [hlt, if_true]
      constructor
      · intro h; exact absurd h (by simp)
      · intro h
        rcases h with h | ⟨i, hi, hle⟩
        · exact absurd h hne
        · simp only [Option.some.injEq] at hi
          omega
    · simp only [hlt, if_false, true_iff]
      right
      exact ⟨idx, rfl, by omega⟩

/-- The fields of the library part built for a row. -/
theorem libraryBuild_fields (st : Strings) (sc : Strconv) (header row : List String)
    (id label : String) (w h : Float64) :
    (importCSVToLibraryParts.build st sc header row id label w h).ID = id ∧
    (importCSVToLibraryParts.build st sc header row id label w h).Label = label ∧
    (importCSVToLibraryParts.build st sc header row id label w h).Width = w ∧
    (importCSVToLibraryParts.build st sc header row id label w h).Height = h ∧
    (importCSVToLibraryParts.build st sc header row id label w h).Grain =
      (match optCell st header row "grain" with
       | some c =>
         if st.TrimSpace (st.ToLower c) = "horizontal" ∨ st.TrimSpace (st.ToLower c) = "h" then
           Grain.Horizontal
         else if st.TrimSpace (st.ToLower c) = "vertical" ∨ st.TrimSpace (st.ToLower c) = "v" then
           Grain.Vertical
         else Grain.None
       | none => Grain.None) ∧
    (importCSVToLibraryParts.build st sc header row id label w h).Category =
      ((optCell st header row "category").map st.TrimSpace).getD "" ∧
    (importCSVToLibraryParts.build st sc header row id label w h).Material =
      ((optCell st header row "material").map st.TrimSpace).getD "" ∧
    (importCSVToLibraryParts.build st sc header row id label w h).Thickness =
      ((optCell st header row "thickness").bind
        (fun c => sc.ParseFloat (st.TrimSpace c))).getD (Float64.fin 0) ∧
    (importCSVToLibraryParts.build st sc header row id label w h).Notes =
      ((optCell st header row "notes").map st.TrimSpace).getD "" ∧
    (importCSVToLibraryParts.build st sc header row id label w h).Tags =
      (match optCell st header row "tags" with
       | some c =>
         if st.TrimSpace c ≠ "" then
           List.filter (fun t => decide (t ≠ ""))
             (List.map st.TrimSpace (st.Split (st.TrimSpace c) ";"))
         else []
       | none => []) := by
  unfold importCSVToLibraryParts.build
  cases optCell st header row "category" <;> cases optCell st header row "material" <;>
    cases optCell st header row "notes" <;> cases optCell st header row "tags" <;>
    cases optCell st header row "thickness"
  all_goals try simp only [NewLibraryPart, Option.map_none', Option.map_some', Option.getD_none,
    Option.getD_some, Option.none_bind, Option.some_bind, true_and, List.nil_append]
  all_goals try (rename_i c; cases sc.ParseFloat (st.TrimSpace c))
  all_goals try simp only [NewLibraryPart, Option.map_none', Option.map_some', Option.getD_none,
    Option.getD_some, Option.none_bind, Option.some_bind, true_and, List.nil_append]
  all_goals first | done | (split_ifs <;> simp)

/-- With a data row and the three required columns, the import is the row loop
from row number 0 on the empty result. -/
theorem importCSVToLibraryParts_eq_loop (st : Strings) (sc : Strconv) (ids : Nat → String)
    (header : List String) (rows : List (List String)) (li wi hi : Nat) (hrows : rows ≠ [])
    (hl : colIndex st header "label" = some li) (hw : colIndex st header "width" = some wi)
    (hh : colIndex st header "height" = some hi) :
    importCSVToLibraryParts st sc ids (header :: rows) =
      importCSVToLibraryParts.loop st sc ids header li wi hi rows 0
        { parts := [], errors := [] } := by
  have hlen : ¬ (header :: rows).length < 2 := by
    cases rows with
    | nil => exact absurd rfl hrows
    | cons r rs => simp
  simp only [importCSVToLibraryParts, hlen, if_false, List.headD_cons, hl, hw, hh,
    List.drop_one, List.tail_cons]

/-- With a data row but without one of the three required columns, the import
gives the single error for the missing columns. -/
theorem importCSVToLibraryParts_missing (st : Strings) (sc : Strconv) (ids : Nat → String)
    (header : List String) (rows : List (List String)) (hrows : rows ≠ [])
    (hmiss : colIndex st header "label" = none ∨ colIndex st header "width" = none ∨
      colIndex st header "height" = none) :
    importCSVToLibraryParts st sc ids (header :: rows) =
      { parts := [], errors := [CsvLibraryError.missingColumns] } := by
  have hlen : ¬ (header :: rows).length < 2 := by
    cases rows with
    | nil => exact absurd rfl hrows
    | cons r rs => simp
  simp only [importCSVToLibraryParts, hlen, if_false, List.headD_cons]
  rcases hmiss with h | h | h
  · rw [h]
  · rw [h]; cases colIndex st header "label" <;> rfl
  · rw [h]
    cases colIndex st header "label" <;> cases colIndex st header "width" <;> rfl

/-- The characters of an appended string. -/
theorem data_append (a b : String) : (a ++ b).data = a.data ++ b.data := by
  cases a; cases b; rfl

/-- A line of `g.comment` begins with the prefix and ends with the suffix. -/
theorem comment_wraps (g : Generator) (sprintf : Text → String) (t : Text) :
    ∃ c, (g.comment t).commentString sprintf = some c ∧ wrapsComment g.profile c := by
  refine ⟨_, rfl, ?_, ?_⟩
  · rw [data_append, data_append, data_append, List.append_assoc, List.append_assoc]
    exact List.prefix_append _ _
  · rw [data_append]
    exact List.suffix_append _ _

/-- The footer holds the `Job complete` line, written with the prefix alone. -/
theorem jobComplete_mem_generateSheet (g : Generator) (fmt : ℚ → String) (sheet : SheetResult)
    (idx : Int) :
    Line.prefixed g.profile.CommentPrefix Text.jobComplete ∈ g.GenerateSheet fmt sheet idx := by
  unfold Generator.GenerateSheet Generator.writeFooter
  apply List.mem_append_right
  simp

/-- Every pass holds its plunge line. -/
theorem plunge_mem_writePass (g : Generator) (p : Placement) (tabs : List Tab) (pass : Int) :
    Line.plunge g.profile.FeedMove (-(g.passDepth pass)) g.Settings.PlungeRate ∈
      g.writePass p tabs pass := by
  simp [Generator.writePass]

/-- The program of the sample sheet with the `( ... )` profile holds the plunge
of the first pass. -/
theorem paren_plunge_mem (fmt : ℚ → String) :
    Line.plunge "G1" (-5) 300 ∈ parenGen.GenerateSheet fmt sampleSheet 1 := by
  have hn : parenGen.numPasses = 3 := sample_numPasses
  have hd : parenGen.passDepth 1 = 5 := by
    norm_num [Generator.passDepth, parenGen, sampleSettings]
  have hp := plunge_mem_writePass parenGen samplePlacement
    (parenGen.calculateTabs samplePlacement) 1
  rw [hd] at hp
  unfold Generator.GenerateSheet
  apply List.mem_append_left
  apply List.mem_append_right
  rw [List.mem_flatMap]
  refine ⟨(0, samplePlacement), by simp [sampleSheet, List.enum, List.enumFrom], ?_⟩
  unfold Generator.writePart
  apply List.mem_append_left
  apply List.mem_append_right
  rw [List.mem_flatMap]
  refine ⟨0, by rw [hn]; simp, ?_⟩
  exact hp

/-- Once an occurrence is found, the scan skips the rest of it. -/
theorem replaceGo_skip (old new : List Char) :
    ∀ (xs rest : List Char),
      ReplaceAll.go old new xs.length (xs ++ rest) = ReplaceAll.go old new 0 rest := by
  intro xs
  induction xs with
  | nil => intro rest; rfl
  | cons x xs ih =>
    intro rest
    rw [List.length_cons, List.cons_append, ReplaceAll.go]
    exact ih rest

/-- At an occurrence the scan writes the replacement and goes on behind it. -/
theorem replaceGo_occurrence (a : Char) (t new rest : List Char) :
    ReplaceAll.go (a :: t) new 0 (a :: t ++ rest) =
      new ++ ReplaceAll.go (a :: t) new 0 rest := by
  have hpre : a :: t <+: a :: (t ++ rest) := by
    rw [← List.cons_append]
    exact List.prefix_append _ _
  rw [List.cons_append, ReplaceAll.go, if_pos hpre, List.length_cons, Nat.add_sub_cancel,
    replaceGo_skip]

/-- A string that ends in a character foreign to the replacement and holds no
copy of the replacement: when it begins the scanned text, it begins the text
itself. -/
theorem replaceGo_prefix (old new : List Char) (z : Char) (hz : z ∉ new) :
    ∀ (s q : List Char), (∀ u, u <:+ q → u ≠ [] → z ∈ u) → ¬ new <:+: q →
      q <+: ReplaceAll.go old new 0 s → q <+: s := by
  intro s
  induction s with
  | nil => intro q _ _ h; simpa [ReplaceAll.go] using h
  | cons c cs ih =>
    intro q hq hinf h
    cases q with
    | nil => exact List.nil_prefix
    | cons d q' =>
      rw [ReplaceAll.go] at h
      split_ifs at h with hp
      · exfalso
        rcases List.prefix_or_prefix_of_prefix h (List.prefix_append new _) with h1 | h1
        · exact hz (h1.subset (hq _ (List.suffix_refl _) (by simp)))
        · exact hinf h1.isInfix
      · rw [List.cons_prefix_cons] at h
        rw [List.cons_prefix_cons]
        refine ⟨h.1, ih q' (fun u hu hne => hq u (hu.trans (List.suffix_cons d q')) hne) ?_ h.2⟩
        intro hi
        exact hinf (List.infix_cons hi)

/-- Text put in front that lacks the first character of the token brings no
occurrence of the token. -/
theorem not_infix_append_foreign (a : Char) (t : List Char) :
    ∀ (n r : List Char), a ∉ n → ¬ (a :: t) <:+: r → ¬ (a :: t) <:+: n ++ r := by
  intro n
  induction n with
  | nil => intro r _ h; simpa using h
  | cons d n' ih =>
    intro r hd hr h
    rw [List.cons_append, List.infix_cons_iff] at h
    rcases h with h | h
    · rw [List.cons_prefix_cons] at h
      exact hd (by rw [h.1]; exact List.mem_cons_self _ _)
    · exact ih r (fun hx => hd (List.mem_cons_of_mem _ hx)) hr h

/-- When the replacement lacks the first and the last character of the token
and is not a part of the token, the scanned text holds no occurrence of the
token. -/
theorem replaceGo_no_token (a z : Char) (t new : List Char)
    (ha : a ∉ new) (hz : z ∉ new) (hlast : ∀ u, u <:+ t → u ≠ [] → z ∈ u)
    (hinf : ¬ new <:+: t) :
    ∀ (s : List Char) (k : Nat), ¬ (a :: t) <:+: ReplaceAll.go (a :: t) new k s := by
  intro s
  induction s with
  | nil => intro k h; simp [ReplaceAll.go] at h
  | cons c cs ih =>
    intro k
    cases k with
    | succ k => rw [ReplaceAll.go]; exact ih k
    | zero =>
      rw [ReplaceAll.go]
      split_ifs with hp
      · exact not_infix_append_foreign a t new _ ha (ih _)
      · intro h
        rw [List.infix_cons_iff] at h
        rcases h with h | h
        · rw [List.cons_prefix_cons] at h
          have ht : t <+: cs := replaceGo_prefix (a :: t) new z hz cs t hlast hinf h.2
          exact hp (by rw [List.cons_prefix_cons]; exact ⟨h.1, ht⟩)
        · exact ih 0 h

/-- Text without an occurrence is copied. -/
theorem replaceGo_id (old new : List Char) :
    ∀ (s : List Char), ¬ old <:+: s → ReplaceAll.go old new 0 s = s := by
  intro s
  induction s with
  | nil => intro _; rfl
  | cons c cs ih =>
    intro h
    rw [List.infix_cons_iff, not_or] at h
    rw [ReplaceAll.go, if_neg h.1, ih h.2]

/-- Text without an occurrence, followed by an occurrence: the text is copied
and the occurrence replaced. The first character of the token occurs in it only
once. -/
theorem replaceGo_piece (a : Char) (t new : List Char) (ha : a ∉ t) :
    ∀ (p rest : List Char), ¬ (a :: t) <:+: p →
      ReplaceAll.go (a :: t) new 0 (p ++ (a :: t ++ rest)) =
        p ++ (new ++ ReplaceAll.go (a :: t) new 0 rest) := by
  intro p
  induction p with
  | nil => intro rest _; rw [List.nil_append, List.nil_append, replaceGo_occurrence]
  | cons c p' ih =>
    intro rest h
    rw [List.infix_cons_iff, not_or] at h
    have hp : ¬ (a :: t) <+: c :: (p' ++ (a :: t ++ rest)) := by
      intro hpre
      rw [List.cons_prefix_cons] at hpre
      rcases List.prefix_or_prefix_of_prefix hpre.2 (List.prefix_append p' _) with h1 | h1
      · exact h.1 (by rw [List.cons_prefix_cons]; exact ⟨hpre.1, h1⟩)
      · obtain ⟨u, hu⟩ := h1
        cases u with
        | nil =>
          rw [List.append_nil] at hu
          exact h.1 (by rw [List.cons_prefix_cons, hu]; exact ⟨hpre.1, List.prefix_refl _⟩)
        | cons b u' =>
          have h2 := hpre.2
          rw [← hu, List.prefix_append_right_inj, List.cons_append, List.cons_prefix_cons] at h2
          apply ha
          rw [← hu, h2.1]
          simp
    rw [List.cons_append, ReplaceAll.go, if_neg hp, ih rest h.2, List.cons_append]

/-- Every occurrence is replaced: text cut into pieces at the occurrences of the
token comes out as the pieces joined by the replacement. -/
theorem replaceGo_intercalate (a : Char) (t new : List Char) (ha : a ∉ t) :
    ∀ (pieces : List (List Char)), (∀ p ∈ pieces, ¬ (a :: t) <:+: p) →
      ReplaceAll.go (a :: t) new 0 (List.intercalate (a :: t) pieces) =
        List.intercalate new pieces := by
  intro pieces
  induction pieces with
  | nil => intro _; rfl
  | cons p ps ih =>
    intro h
    cases ps with
    | nil =>
      simp only [List.intercalate, List.intersperse_single, List.flatten_cons, List.flatten_nil,
        List.append_nil]
      exact replaceGo_id _ _ p (h p (List.mem_cons_self _ _))
    | cons p2 ps' =>
      have hrest := ih (fun q hq => h q (List.mem_cons_of_mem _ hq))
      have e1 : ∀ sep : List Char, List.intercalate sep (p :: p2 :: ps') =
          p ++ (sep ++ List.intercalate sep (p2 :: ps')) := by
        intro sep
        simp [List.intercalate]
      rw [e1, e1, replaceGo_piece a t new ha p _ (h p (List.mem_cons_self _ _)), hrest]

/-- A decimal number cannot build the token `[SafeZ]`. -/
theorem decimalText_tokenFree (s : String) (h : decimalText s) : tokenFree s := by
  have hno : ∀ c, c ∈ "[SafeZ]".data → c ∉ s.data := by
    intro c hmem hc
    have hd := h.2 c hc
    have hm : c = '[' ∨ c = 'S' ∨ c = 'a' ∨ c = 'f' ∨ c = 'e' ∨ c = 'Z' ∨ c = ']' := by
      simpa using hmem
    rcases hm with e | e | e | e | e | e | e <;> subst e <;>
      exact absurd hd (by decide)
  refine ⟨hno _ (by decide), hno _ (by decide), ?_⟩
  intro hinf
  cases hs : s.data with
  | nil => exact h.1 hs
  | cons c cs =>
    have hc : c ∈ s.data := by rw [hs]; exact List.mem_cons_self _ _
    exact hno c (hinf.subset hc) hc

/-- The characters of `ReplaceAll` for the token `[SafeZ]`. -/
theorem replaceAll_safeZ_data (s new : String) :
    (ReplaceAll s "[SafeZ]" new).data =
      ReplaceAll.go "[SafeZ]".data new.data 0 s.data := by
  have hne : ¬ ("[SafeZ]".data = []) := by decide
  unfold ReplaceAll
  rw [if_neg hne]

/-- Feed lines contain no part banner. -/
theorem banners_of_isFeed (ls : List Line) (h : ∀ l ∈ ls, l.isFeed = true) :
    ls.filterMap Line.banner? = [] := by
  rw [List.filterMap_eq_nil_iff]
  intro l hl
  have := h l hl
  cases l <;> simp_all [Line.isFeed, Line.banner?]

/-- A pass holds no part banner. -/
theorem writePass_banners (g : Generator) (p : Placement) (tabs : List Tab) (pass : Int) :
    (g.writePass p tabs pass).filterMap Line.banner? = [] := by
  by_cases h : pass = g.numPasses ∧ g.Settings.PartTabsPerSide > 0
  · simp only [Generator.writePass, if_pos h, List.filterMap_append,
      banners_of_isFeed _ (writePerimeterWithTabs_isFeed _ _ _ _ _ _ _)]
    simp [Line.banner?, Generator.comment]
  · rw [writePass_plain g p tabs pass h]
    simp [Line.banner?, Generator.comment]

/-- A part block holds exactly one banner, with its number and label. -/
theorem writePart_banners (g : Generator) (p : Placement) (partNum : Int) :
    (g.writePart p partNum).filterMap Line.banner? = [(partNum, p.Part.Label)] := by
  simp only [Generator.writePart, List.filterMap_append, filterMap_flatMap_lines,
    writePass_banners]
  simp [Line.banner?, Generator.comment]

/-- The header holds no part banner. -/
theorem writeHeader_banners (g : Generator) (sheet : SheetResult) (idx : Int) :
    (g.writeHeader sheet idx).filterMap Line.banner? = [] := by
  rw [List.filterMap_eq_nil_iff]
  intro l hl
  simp only [Generator.writeHeader, List.mem_append, List.mem_cons, List.mem_map,
    List.mem_singleton, List.not_mem_nil, or_false] at hl
  rcases hl with ((hl | ⟨s, _, hl⟩) | hl) | hl
  · rcases hl with hl | hl | hl | hl | hl | hl | hl <;> subst hl <;> rfl
  · subst hl; rfl
  · split at hl
    · simp at hl; subst hl; rfl
    · simp at hl
  · rcases hl with hl | hl | hl <;> subst hl <;> rfl

/-- The footer holds no part banner. -/
theorem writeFooter_banners (g : Generator) (fmt : ℚ → String) :
    (g.writeFooter fmt).filterMap Line.banner? = [] := by
  rw [List.filterMap_eq_nil_iff]
  intro l hl
  simp only [Generator.writeFooter, List.mem_append, List.mem_cons, List.mem_map,
    List.mem_singleton, List.not_mem_nil, or_false] at hl
  rcases hl with ((hl | hl) | ⟨s, _, hl⟩) | hl
  · subst hl; rfl
  · subst hl; rfl
  · subst hl; rfl
  · split at hl
    · simp at hl; subst hl; rfl
    · simp at hl

/-- The window loop of `containsLower` finds the needle exactly when the needle
occurs in the lower-cased haystack. -/
theorem containsLower_iff (haystack needle : String) :
    containsLower haystack needle = true ↔ needle.data <:+: (toLower haystack).data := by
  unfold containsLower
  generalize (toLower haystack).data = h
  generalize needle.data = n
  split_ifs with hlen
  · simp only [Bool.false_eq_true, false_iff]
    intro hinf
    have := hinf.length_le
    omega
  · rw [List.any_eq_true]
    constructor
    · rintro ⟨i, _, hi⟩
      have hi' : (h.drop i).take n.length = n := by simpa using hi
      refine ⟨h.take i, (h.drop i).drop n.length, ?_⟩
      rw [List.append_assoc]
      nth_rewrite 1 [← hi']
      rw [List.take_append_drop, List.take_append_drop]
    · rintro ⟨s, t, hst⟩
      refine ⟨s.length, ?_, ?_⟩
      · rw [List.mem_range, ← hst]
        simp only [List.length_append]
        omega
      · rw [← hst]
        simp

/-- The test of the search loops, in terms of occurrence without regard to
case: it looks at the label, the notes and the tags. -/
theorem searchHit_iff (query : String) (p : LibraryPart) :
    searchHit (toLower query) p = true ↔
      (foldContains p.Label query ∨ foldContains p.Notes query ∨
        ∃ t ∈ p.Tags, foldContains t query) := by
  unfold searchHit tagsContain foldContains
  simp only [Bool.or_eq_true, containsLower_iff, List.any_eq_true, or_assoc]

/-- The categories after `ensureCategory`. -/
theorem ensureCategory_categories (lib : PartsLibrary) (cat : String) :
    (lib.ensureCategory cat).Categories =
      if cat ∈ lib.Categories then lib.Categories else lib.Categories ++ [cat] := by
  unfold PartsLibrary.ensureCategory
  by_cases h : cat ∈ lib.Categories
  · have hany : lib.Categories.any (fun c => decide (c = cat)) = true := by
      rw [List.any_eq_true]; exact ⟨cat, h, by simp⟩
    rw [if_pos hany, if_pos h]
  · have hany : ¬ lib.Categories.any (fun c => decide (c = cat)) = true := by
      rw [List.any_eq_true]
      rintro ⟨c, hc, he⟩
      simp only [decide_eq_true_eq] at he
      exact h (he ▸ hc)
    rw [if_neg hany, if_neg h]

/-- The method `ensureCategory` leaves the parts alone. -/
theorem ensureCategory_parts (lib : PartsLibrary) (cat : String) :
    (lib.ensureCategory cat).Parts = lib.Parts := by
  unfold PartsLibrary.ensureCategory
  split_ifs <;> rfl

/-- A list with a part of the given ID splits at the first such part. -/
theorem exists_first_with_id (id : String) :
    ∀ l : List LibraryPart, (∃ p ∈ l, p.ID = id) →
      ∃ before p after, l = before ++ p :: after ∧ p.ID = id ∧ ∀ x ∈ before, x.ID ≠ id := by
  intro l
  induction l with
  | nil => rintro ⟨p, hp, _⟩; exact absurd hp (List.not_mem_nil _)
  | cons a l ih =>
    intro h
    by_cases ha : a.ID = id
    · exact ⟨[], a, l, rfl, ha, fun x hx => absurd hx (List.not_mem_nil _)⟩
    · obtain ⟨p, hp, hid⟩ := h
      have hpl : p ∈ l := by
        rcases List.mem_cons.mp hp with e | e
        · exact absurd (e ▸ hid) ha
        · exact e
      obtain ⟨before, q, after, hl, hq, hb⟩ := ih ⟨p, hpl, hid⟩
      refine ⟨a :: before, q, after, by rw [hl]; rfl, hq, ?_⟩
      intro x hx
      rcases List.mem_cons.mp hx with e | e
      · rw [e]; exact ha
      · exact hb x e

/-- The loop of `RemovePart` at the first part with the ID. -/
theorem removeGo_split (id : String) (p : LibraryPart) (after : List LibraryPart)
    (hp : p.ID = id) :
    ∀ before : List LibraryPart, (∀ x ∈ before, x.ID ≠ id) →
      RemovePart.go id (before ++ p :: after) = before ++ after := by
  intro before
  induction before with
  | nil => intro _; simp [RemovePart.go, hp]
  | cons a l ih =>
    intro h
    have ha : a.ID ≠ id := h a (List.mem_cons_self _ _)
    rw [List.cons_append, RemovePart.go, if_neg ha,
      ih (fun x hx => h x (List.mem_cons_of_mem _ hx))]
    rfl

/-- The loop of `RemovePart` when no part has the ID. -/
theorem removeGo_absent (id : String) :
    ∀ l : List LibraryPart, (∀ x ∈ l, x.ID ≠ id) → RemovePart.go id l = l := by
  intro l
  induction l with
  | nil => intro _; rfl
  | cons a l ih =>
    intro h
    rw [RemovePart.go, if_neg (h a (List.mem_cons_self _ _)),
      ih (fun x hx => h x (List.mem_cons_of_mem _ hx))]

/-- The loop of `RemovePart` erases the first part with the ID. -/
theorem removeGo_eq_eraseP (id : String) :
    ∀ l : List LibraryPart,
      RemovePart.go id l = l.eraseP (fun p => decide (p.ID = id)) := by
  intro l
  induction l with
  | nil => rfl
  | cons a l ih =>
    by_cases ha : a.ID = id
    · simp [RemovePart.go, ha]
    · simp [RemovePart.go, ha, ih]

/-- The parts after `RemovePart`. -/
theorem removePart_parts (lib : PartsLibrary) (id : String) :
    (lib.RemovePart id).parts = RemovePart.go id lib.parts := by
  unfold PartsLibrary.RemovePart PartsLibrary.parts
  cases lib.Parts <;> rfl

/-- The loop of `UpdatePart` at the first part with the ID. -/
theorem updateGo_split (u p : LibraryPart) (after : List LibraryPart) (hp : p.ID = u.ID) :
    ∀ before : List LibraryPart, (∀ x ∈ before, x.ID ≠ u.ID) →
      UpdatePart.go u (before ++ p :: after) = some (before ++ u :: after) := by
  intro before
  induction before with
  | nil => intro _; simp [UpdatePart.go, hp]
  | cons a l ih =>
    intro h
    have ha : a.ID ≠ u.ID := h a (List.mem_cons_self _ _)
    rw [List.cons_append, UpdatePart.go, if_neg ha,
      ih (fun x hx => h x (List.mem_cons_of_mem _ hx))]
    rfl

/-- The loop of `UpdatePart` when no part has the ID. -/
theorem updateGo_absent (u : LibraryPart) :
    ∀ l : List LibraryPart, (∀ x ∈ l, x.ID ≠ u.ID) → UpdatePart.go u l = none := by
  intro l
  induction l with
  | nil => intro _; rfl
  | cons a l ih =>
    intro h
    rw [UpdatePart.go, if_neg (h a (List.mem_cons_self _ _)),
      ih (fun x hx => h x (List.mem_cons_of_mem _ hx))]
    rfl

/-- The search of `FindByID` at the first part with the ID. -/
theorem find_split (id : String) (p : LibraryPart) (after : List LibraryPart)
    (hp : p.ID = id) :
    ∀ before : List LibraryPart, (∀ x ∈ before, x.ID ≠ id) →
      (before ++ p :: after).find? (fun x => decide (x.ID = id)) = some p := by
  intro before
  induction before with
  | nil => intro _; simp [hp]
  | cons a l ih =>
    intro h
    have ha : a.ID ≠ id := h a (List.mem_cons_self _ _)
    rw [List.cons_append, List.find?_cons_of_neg _ (by simpa using ha)]
    exact ih (fun x hx => h x (List.mem_cons_of_mem _ hx))

/-- The search of `FindByID` when no part has the ID. -/
theorem find_absent (id : String) (l : List LibraryPart) :
    l.find? (fun x => decide (x.ID = id)) = none ↔ ∀ x ∈ l, x.ID ≠ id := by
  rw [List.find?_eq_none]
  simp

/-- The plunges of a part go to the depths of the passes `1 .. numPasses`. -/
theorem writePart_plunges (g : Generator) (p : Placement) (partNum : Int) :
    (g.writePart p partNum).filterMap Line.plungeZ? =
      (List.range g.numPasses.toNat).map (fun (i : Nat) => -(g.passDepth ((i : Int) + 1))) := by
  simp only [Generator.writePart, List.filterMap_append, filterMap_flatMap_lines,
    writePass_plunges, flatMap_singleton_map]
  simp [Line.plungeZ?, Generator.comment]

/-- A pass before the last stays above the cut depth, at `pass * PassDepth`. -/
theorem passDepth_before_last (g : Generator) (hp : 0 < g.Settings.PassDepth) (i : Int)
    (hi : i < g.numPasses) :
    (i : ℚ) * g.Settings.PassDepth < g.Settings.CutDepth ∧
    g.passDepth i = (i : ℚ) * g.Settings.PassDepth := by
  have h1 : ((g.numPasses : Int) : ℚ) < g.Settings.CutDepth / g.Settings.PassDepth + 1 :=
    Int.ceil_lt_add_one _
  have h2 : (i : ℚ) + 1 ≤ (g.numPasses : ℚ) := by exact_mod_cast Int.add_one_le_of_lt hi
  have h3 : (i : ℚ) < g.Settings.CutDepth / g.Settings.PassDepth := by linarith
  have h4 : (i : ℚ) * g.Settings.PassDepth < g.Settings.CutDepth := by
    rwa [lt_div_iff₀ hp] at h3
  refine ⟨h4, ?_⟩
  unfold Generator.passDepth
  rw [if_neg (not_lt.mpr h4.le)]

/-- The method `ensureCategory` keeps the old categories, adds the new one and
adds nothing twice. -/
theorem ensureCategory_spec (lib : PartsLibrary) (cat : String) :
    (∀ c ∈ lib.Categories, c ∈ (lib.ensureCategory cat).Categories) ∧
    cat ∈ (lib.ensureCategory cat).Categories ∧
    (lib.Categories.Nodup → (lib.ensureCategory cat).Categories.Nodup) := by
  rw [ensureCategory_categories]
  by_cases h : cat ∈ lib.Categories
  · rw [if_pos h]
    exact ⟨fun c hc => hc, h, fun hn => hn⟩
  · rw [if_neg h]
    refine ⟨fun c hc => List.mem_append_left _ hc, by simp, ?_⟩
    intro hn
    rw [List.nodup_append]
    refine ⟨hn, List.nodup_singleton _, ?_⟩
    intro a ha hb
    rw [List.mem_singleton] at hb
    exact h (hb ▸ ha)

/-- The loop of `RemovePart` leaves only parts of the old list. -/
theorem removeGo_subset (id : String) :
    ∀ l : List LibraryPart, ∀ x ∈ RemovePart.go id l, x ∈ l := by
  intro l x hx
  rw [removeGo_eq_eraseP] at hx
  exact List.mem_of_mem_eraseP hx

/-- The loop of `UpdatePart` leaves parts of the old list and the new part. -/
theorem updateGo_subset (u : LibraryPart) :
    ∀ l l' : List LibraryPart, UpdatePart.go u l = some l' → ∀ x ∈ l', x = u ∨ x ∈ l := by
  intro l
  induction l with
  | nil => intro l' h; simp [UpdatePart.go] at h
  | cons a l ih =>
    intro l' h x hx
    rw [UpdatePart.go] at h
    split_ifs at h with ha
    · simp only [Option.some.injEq] at h
      subst h
      rcases List.mem_cons.mp hx with e | e
      · exact Or.inl e
      · exact Or.inr (List.mem_cons_of_mem _ e)
    · cases hgo : UpdatePart.go u l with
      | none => rw [hgo] at h; simp at h
      | some l2 =>
        rw [hgo] at h
        simp only [Option.map_some', Option.some.injEq] at h
        subst h
        rcases List.mem_cons.mp hx with e | e
        · exact Or.inr (e ▸ List.mem_cons_self _ _)
        · rcases ih l2 hgo x e with e2 | e2
          · exact Or.inl e2
          · exact Or.inr (List.mem_cons_of_mem _ e2)

/-- Every call keeps the categories list in order. -/
theorem categoriesCover_call (lib : PartsLibrary) (c : LibraryCall)
    (h : lib.categoriesCover) : (lib.call c).categoriesCover := by
  obtain ⟨hg, hn, hp⟩ := h
  cases c with
  | addPart part =>
    show (lib.AddPart part).categoriesCover
    unfold PartsLibrary.AddPart
    simp only
    generalize (if part.Category = "" then { part with Category := "General" } else part) = q
    obtain ⟨h1, h2, h3⟩ := ensureCategory_spec { lib with Parts := some (lib.parts ++ [q]) }
      q.Category
    refine ⟨h1 _ hg, h3 hn, ?_⟩
    intro x hx
    unfold PartsLibrary.parts at hx
    rw [ensureCategory_parts] at hx
    simp only [Option.getD_some] at hx
    rcases List.mem_append.mp hx with e | e
    · exact h1 _ (hp x e)
    · rw [List.mem_singleton] at e
      rw [e]
      exact h2
  | removePart id =>
    refine ⟨hg, hn, ?_⟩
    intro x hx
    have hx' : x ∈ (lib.RemovePart id).parts := hx
    rw [removePart_parts] at hx'
    exact hp x (removeGo_subset id _ x hx')
  | updatePart u =>
    show (lib.UpdatePart u).categoriesCover
    unfold PartsLibrary.UpdatePart
    cases hgo : UpdatePart.go u lib.parts with
    | none => exact ⟨hg, hn, hp⟩
    | some l' =>
      show (PartsLibrary.ensureCategory { lib with Parts := some l' }
        u.Category).categoriesCover
      obtain ⟨h1, h2, h3⟩ := ensureCategory_spec { lib with Parts := some l' } u.Category
      refine ⟨h1 _ hg, h3 hn, ?_⟩
      intro x hx
      unfold PartsLibrary.parts at hx
      rw [ensureCategory_parts] at hx
      simp only [Option.getD_some] at hx
      rcases updateGo_subset u lib.parts l' hgo x hx with e | e
      · rw [e]; exact h2
      · exact h1 _ (hp x e)
  | addCategory cat =>
    show (lib.ensureCategory cat).categoriesCover
    obtain ⟨h1, _, h3⟩ := ensureCategory_spec lib cat
    refine ⟨h1 _ hg, h3 hn, ?_⟩
    intro x hx
    unfold PartsLibrary.parts at hx
    rw [ensureCategory_parts] at hx
    exact h1 _ (hp x hx)

/-- Every sequence of calls keeps the categories list in order. -/
theorem categoriesCover_calls (cs : List LibraryCall) :
    ∀ lib : PartsLibrary, lib.categoriesCover → (lib.calls cs).categoriesCover := by
  induction cs with
  | nil => intro lib h; exact h
  | cons c cs ih =>
    intro lib h
    exact ih (lib.call c) (categoriesCover_call lib c h)

/-- The row loop started with the counter `k + 1` handles the row at index `i`
(from `k`) with the line number `i + 2`. -/
theorem importLoop_lineNumbers (sc : Strconv) :
    ∀ (rows : List (List String)) (k : Nat) (result : ImportResult),
      ImportCSV.loop sc rows ((k : Int) + 1) result =
        (rows.enumFrom k).foldl
          (fun res ir => ImportCSV.row sc res ((ir.1 : Int) + 2) ir.2) result := by
  intro rows
  induction rows with
  | nil => intro k result; rfl
  | cons row rest ih =>
    intro k result
    rw [ImportCSV.loop, List.enumFrom_cons, List.foldl_cons]
    have h1 : (k : Int) + 1 + 1 = (k : Int) + 2 := by ring
    have h2 : (k : Int) + 1 + 1 = ((k + 1 : Nat) : Int) + 1 := by push_cast; ring
    rw [← ih (k + 1), ← h2, h1]

/-! ## The claims -/

/-- C1: in a pass without tabs (any pass but a final pass with
`part_tabs_per_side > 0`) every XY point programmed by `writePart` is a corner of
the rectangle from `(px - r, py - r)` to `(px + pw + r, py + ph + r)` with
`r = tool_diameter / 2`, and each of the four corners is programmed. -/
theorem C1_offset_by_tool_radius (g : Generator) (p : Placement) (tabs : List Tab) (pass : Int)
    (h : ¬ (pass = g.numPasses ∧ g.Settings.PartTabsPerSide > 0)) :
    (∀ pt ∈ xyPoints (g.writePass p tabs pass), pt ∈ offsetCorners g p) ∧
    (∀ c ∈ offsetCorners g p, c ∈ xyPoints (g.writePass p tabs pass)) := by
  rw [writePass_plain g p tabs pass h]
  simp [xyPoints, Line.xy?, offsetCorners, Generator.comment]

/-- C1 at the first pass of scenario S5. -/
theorem C1_witness :
    ¬ ((1 : Int) = sampleGen.numPasses ∧ sampleGen.Settings.PartTabsPerSide > 0) ∧
    (∀ pt ∈ xyPoints (sampleGen.writePass samplePlacement [] 1),
        pt ∈ offsetCorners sampleGen samplePlacement) ∧
    (∀ c ∈ offsetCorners sampleGen samplePlacement,
        c ∈ xyPoints (sampleGen.writePass samplePlacement [] 1)) :=
  ⟨by simp [sample_numPasses],
   C1_offset_by_tool_radius sampleGen samplePlacement [] 1 (by simp [sample_numPasses])⟩

/-- C2: with `cut_depth > 0` and `pass_depth > 0`, `writePart` emits exactly
`ceil(cut_depth / pass_depth)` passes for a placement, and the plunge of pass `i`
(counting from 1) goes to `Z = -min(i * pass_depth, cut_depth)`. -/
theorem C2_pass_count_and_depths (g : Generator) (p : Placement) (partNum : Int)
    (hc : 0 < g.Settings.CutDepth) (hp : 0 < g.Settings.PassDepth) :
    (((g.writePart p partNum).filter Line.isPassStart).length : Int)
        = ⌈g.Settings.CutDepth / g.Settings.PassDepth⌉ ∧
    (g.writePart p partNum).filterMap Line.plungeZ?
        = (List.range ⌈g.Settings.CutDepth / g.Settings.PassDepth⌉.toNat).map
            (fun (i : Nat) => -(min (((i : ℚ) + 1) * g.Settings.PassDepth) g.Settings.CutDepth)) := by
  have hpos := numPasses_pos g hc hp
  constructor
  · have h1 : ((g.writePart p partNum).filter Line.isPassStart).length = g.numPasses.toNat := by
      simp only [Generator.writePart, List.filter_append, filter_flatMap_lines,
        List.length_append, length_flatMap_one _ _ (fun a => writePass_passStarts g p _ _)]
      simp [Line.isPassStart, Generator.comment]
    rw [h1]
    exact Int.toNat_of_nonneg hpos.le
  · simp only [Generator.writePart, List.filterMap_append, filterMap_flatMap_lines,
      writePass_plunges, flatMap_singleton_map, passDepth_eq_min]
    simp only [Line.plungeZ?, Generator.comment, List.filterMap_cons, List.filterMap_nil,
      List.nil_append, List.append_nil, Generator.numPasses]
    apply List.map_congr_left
    intro i _
    push_cast
    rfl

/-- C2 on scenario S5. -/
theorem C2_witness :
    (0 : ℚ) < sampleGen.Settings.CutDepth ∧ (0 : ℚ) < sampleGen.Settings.PassDepth ∧
    (((sampleGen.writePart samplePlacement 1).filter Line.isPassStart).length : Int)
        = ⌈sampleGen.Settings.CutDepth / sampleGen.Settings.PassDepth⌉ ∧
    (sampleGen.writePart samplePlacement 1).filterMap Line.plungeZ?
        = (List.range ⌈sampleGen.Settings.CutDepth / sampleGen.Settings.PassDepth⌉.toNat).map
            (fun (i : Nat) => -(min (((i : ℚ) + 1) * sampleGen.Settings.PassDepth)
              sampleGen.Settings.CutDepth)) :=
  ⟨by norm_num [sampleGen, sampleSettings], by norm_num [sampleGen, sampleSettings],
   C2_pass_count_and_depths sampleGen samplePlacement 1
     (by norm_num [sampleGen, sampleSettings]) (by norm_num [sampleGen, sampleSettings])⟩

/-- C3: with `part_tabs_per_side = 0` the output of `writePart` is the banner,
then for each pass `1 .. numPasses` the pass comment followed by one rapid to
`(px - r, py - r)`, one plunge to the pass depth, four XY feed moves ending at
`(px - r, py - r)` and one rapid to `Z = safe_z`, then a blank line. -/
theorem C3_pass_structure_without_tabs (g : Generator) (p : Placement) (partNum : Int)
    (h : g.Settings.PartTabsPerSide = 0) :
    g.writePart p partNum =
      [ g.comment (Text.partBanner partNum p.Part.Label p.Part.Width p.Part.Height
          (rotatedStr p.Rotated)) ]
      ++ (List.range g.numPasses.toNat).flatMap (fun (i : Nat) =>
          [ g.comment (Text.pass ((i : Int) + 1) g.numPasses (g.passDepth ((i : Int) + 1))),
            Line.rapidXY g.profile.RapidMove (p.X - g.Settings.ToolDiameter / 2)
              (p.Y - g.Settings.ToolDiameter / 2),
            Line.plunge g.profile.FeedMove (-(g.passDepth ((i : Int) + 1)))
              g.Settings.PlungeRate,
            Line.feedXYF g.profile.FeedMove
              (p.X + p.PlacedWidth + g.Settings.ToolDiameter / 2)
              (p.Y - g.Settings.ToolDiameter / 2) g.Settings.FeedRate,
            Line.feedXY g.profile.FeedMove
              (p.X + p.PlacedWidth + g.Settings.ToolDiameter / 2)
              (p.Y + p.PlacedHeight + g.Settings.ToolDiameter / 2),
            Line.feedXY g.profile.FeedMove (p.X - g.Settings.ToolDiameter / 2)
              (p.Y + p.PlacedHeight + g.Settings.ToolDiameter / 2),
            Line.feedXY g.profile.FeedMove (p.X - g.Settings.ToolDiameter / 2)
              (p.Y - g.Settings.ToolDiameter / 2),
            Line.rapidZ g.profile.RapidMove g.Settings.SafeZ ])
      ++ [ Line.blank ] :=
  writePart_plain g p partNum h

/-- C3 on scenario S5: three passes at depths 5, 10 and 12, each from (-3, -3)
and each closed by a rapid to Z = 5. -/
theorem C3_witness :
    sampleGen.Settings.PartTabsPerSide = 0 ∧
    sampleGen.writePart samplePlacement 1 =
      [ Line.comment ";" (Text.partBanner 1 "A" 100 50 "") "",
        Line.comment ";" (Text.pass 1 3 5) "",
        Line.rapidXY "G0" (-3) (-3), Line.plunge "G1" (-5) 300,
        Line.feedXYF "G1" 103 (-3) 1000, Line.feedXY "G1" 103 53,
        Line.feedXY "G1" (-3) 53, Line.feedXY "G1" (-3) (-3),
        Line.rapidZ "G0" 5,
        Line.comment ";" (Text.pass 2 3 10) "",
        Line.rapidXY "G0" (-3) (-3), Line.plunge "G1" (-10) 300,
        Line.feedXYF "G1" 103 (-3) 1000, Line.feedXY "G1" 103 53,
        Line.feedXY "G1" (-3) 53, Line.feedXY "G1" (-3) (-3),
        Line.rapidZ "G0" 5,
        Line.comment ";" (Text.pass 3 3 12) "",
        Line.rapidXY "G0" (-3) (-3), Line.plunge "G1" (-12) 300,
        Line.feedXYF "G1" 103 (-3) 1000, Line.feedXY "G1" 103 53,
        Line.feedXY "G1" (-3) 53, Line.feedXY "G1" (-3) (-3),
        Line.rapidZ "G0" 5,
        Line.blank ] :=
  ⟨rfl, (C3_pass_structure_without_tabs sampleGen samplePlacement 1 rfl).trans (by
    rw [sample_numPasses, show (3 : Int).toNat = 3 from rfl]
    norm_num [List.range_succ, List.flatMap_cons, Generator.passDepth, Generator.comment,
      sampleGen, sampleSettings, sampleProfile, samplePlacement, rotatedStr,
      Placement.PlacedWidth, Placement.PlacedHeight])⟩

/-- C4: on scenario S5 (100 x 50 part at (0, 0), tool diameter 6) a perimeter
pass programs (-3, -3), (103, -3), (103, 53), (-3, 53), (-3, -3): it starts at the
bottom-left corner of the offset rectangle, not at the top-left corner (-3, 53),
and the enclosed signed area is positive, so the path runs counter-clockwise
when Y points up. -/
theorem C4_pass_runs_counterclockwise_from_bottom_left :
    xyPoints (sampleGen.writePass samplePlacement (sampleGen.calculateTabs samplePlacement) 1)
      = [(-3, -3), (103, -3), (103, 53), (-3, 53), (-3, -3)] ∧
    (xyPoints (sampleGen.writePass samplePlacement
        (sampleGen.calculateTabs samplePlacement) 1)).head? ≠ some (-3, 53) ∧
    0 < signedArea2 (xyPoints (sampleGen.writePass samplePlacement
        (sampleGen.calculateTabs samplePlacement) 1)) := by
  have h : xyPoints (sampleGen.writePass samplePlacement
      (sampleGen.calculateTabs samplePlacement) 1)
      = [(-3, -3), (103, -3), (103, 53), (-3, 53), (-3, -3)] := by
    rw [writePass_plain _ _ _ _ (by simp [sample_numPasses])]
    simp only [xyPoints, Line.xy?, Generator.comment, List.filterMap_cons,
      List.filterMap_nil, sampleGen, sampleSettings, samplePlacement,
      Placement.PlacedWidth, Placement.PlacedHeight]
    norm_num
  rw [h]
  refine ⟨rfl, ?_, ?_⟩
  · norm_num
  · norm_num [signedArea2]

/-- C5 (as stated, refuted): with one tab per side, a tool of diameter 0.0002 and
a part of 0.0005 x 0.0005 (positive dimensions), every side of the tool path is
shorter than 0.001, `writeSideWithTabs` writes nothing for it, and the final
pass contains no tab lift at all. -/
theorem C5_counterexample_short_sides :
    tinyGen.Settings.PartTabsPerSide = 1 ∧
    0 < tinyPlacement.PlacedWidth ∧ 0 < tinyPlacement.PlacedHeight ∧
    tabLifts (tinyGen.writePass tinyPlacement (tinyGen.calculateTabs tinyPlacement)
      tinyGen.numPasses) = 0 := by
  have hN : 0 < tinyGen.Settings.PartTabsPerSide := by decide
  obtain ⟨⟨_, n0⟩, ⟨_, n1⟩, ⟨_, n2⟩, ⟨_, n3⟩⟩ := tabsForSide_shape tinyGen tinyPlacement hN
  refine ⟨rfl, by norm_num [tinyPlacement, Placement.PlacedWidth],
    by norm_num [tinyPlacement, Placement.PlacedHeight], ?_⟩
  rw [writePass_final tinyGen tinyPlacement _ hN]
  simp only [Generator.writePerimeterWithTabs]
  rw [writeSideWithTabs_horiz _ _ _ _ _ _ _ _ _ n0, writeSideWithTabs_vert _ _ _ _ _ _ _ _ _ n1,
    writeSideWithTabs_horiz _ _ _ _ _ _ _ _ _ n2, writeSideWithTabs_vert _ _ _ _ _ _ _ _ _ n3,
    offset_width, offset_height, offset_width_back, offset_height_back]
  have hw : |tinyPlacement.PlacedWidth + tinyGen.Settings.ToolDiameter| < 1 / 1000 := by
    norm_num [tinyPlacement, tinyGen, tinySettings, Placement.PlacedWidth, abs_lt]
  have hh : |tinyPlacement.PlacedHeight + tinyGen.Settings.ToolDiameter| < 1 / 1000 := by
    norm_num [tinyPlacement, tinyGen, tinySettings, Placement.PlacedHeight, abs_lt]
  simp only [abs_neg, if_pos hw, if_pos hh]
  rfl

/-- C5 (amended): a pass of `writePart` that is not the final pass, or any pass
when `part_tabs_per_side <= 0`, contains no tab lift; with
`part_tabs_per_side = 0` the whole `GenerateSheet` output contains no tab lift
and is the same for every `part_tab_width` and `part_tab_height`; with
`N = part_tabs_per_side > 0` and both sides of the tool path (placed width and
placed height plus tool diameter) at least 0.001 long, the final pass is its
three opening lines, the four sides and the retract, each side contains exactly
`N` lifts, and the pass contains `4 * N`. -/
theorem C5_tab_lifts_only_on_final_pass (g : Generator) (p : Placement) :
    (∀ pass : Int, ¬ (pass = g.numPasses ∧ g.Settings.PartTabsPerSide > 0) →
        tabLifts (g.writePass p (g.calculateTabs p) pass) = 0) ∧
    (g.Settings.PartTabsPerSide = 0 →
      ∀ (fmt : ℚ → String) (sheet : SheetResult) (idx : Int),
        tabLifts (g.GenerateSheet fmt sheet idx) = 0 ∧
        ∀ w h : ℚ, Generator.GenerateSheet
            { g with Settings := { g.Settings with PartTabWidth := w, PartTabHeight := h } }
            fmt sheet idx = g.GenerateSheet fmt sheet idx) ∧
    (g.Settings.PartTabsPerSide > 0 →
      1 / 1000 ≤ p.PlacedWidth + g.Settings.ToolDiameter →
      1 / 1000 ≤ p.PlacedHeight + g.Settings.ToolDiameter →
        g.writePass p (g.calculateTabs p) g.numPasses =
          [ g.comment (Text.pass g.numPasses g.numPasses (g.passDepth g.numPasses)),
            Line.rapidXY g.profile.RapidMove (p.X - g.Settings.ToolDiameter / 2)
              (p.Y - g.Settings.ToolDiameter / 2),
            Line.plunge g.profile.FeedMove (-(g.passDepth g.numPasses))
              g.Settings.PlungeRate ]
          ++ (finalPassSides g p).flatten
          ++ [ Line.rapidZ g.profile.RapidMove g.Settings.SafeZ ] ∧
        (finalPassSides g p).length = 4 ∧
        (∀ side ∈ finalPassSides g p, (tabLifts side : Int) = g.Settings.PartTabsPerSide) ∧
        (tabLifts (g.writePass p (g.calculateTabs p) g.numPasses) : Int)
          = 4 * g.Settings.PartTabsPerSide) := by
  refine ⟨?_, ?_, ?_⟩
  · intro pass h
    rw [writePass_plain g p _ pass h]
    rfl
  · intro h fmt sheet idx
    exact ⟨tabLifts_of_no_feedZ _ (generateSheet_no_feedZ g fmt sheet idx h),
      fun w t => generateSheet_tab_size_irrelevant g fmt sheet idx h w t⟩
  · intro hN hw hh
    obtain ⟨⟨l0, n0⟩, ⟨l1, n1⟩, ⟨l2, n2⟩, ⟨l3, n3⟩⟩ := tabsForSide_shape g p hN
    have hcast : (g.Settings.PartTabsPerSide.toNat : Int) = g.Settings.PartTabsPerSide :=
      Int.toNat_of_nonneg (le_of_lt hN)
    have hw0 : (0 : ℚ) ≤ p.PlacedWidth + g.Settings.ToolDiameter :=
      le_trans (by norm_num) hw
    have hh0 : (0 : ℚ) ≤ p.PlacedHeight + g.Settings.ToolDiameter :=
      le_trans (by norm_num) hh
    have a0 : 1 / 1000 ≤ |p.X + p.PlacedWidth + g.Settings.ToolDiameter / 2
        - (p.X - g.Settings.ToolDiameter / 2)| := by
      rw [offset_width, abs_of_nonneg hw0]; exact hw
    have a1 : 1 / 1000 ≤ |p.Y + p.PlacedHeight + g.Settings.ToolDiameter / 2
        - (p.Y - g.Settings.ToolDiameter / 2)| := by
      rw [offset_height, abs_of_nonneg hh0]; exact hh
    have a2 : 1 / 1000 ≤ |p.X - g.Settings.ToolDiameter / 2
        - (p.X + p.PlacedWidth + g.Settings.ToolDiameter / 2)| := by
      rw [offset_width_back, abs_neg, abs_of_nonneg hw0]; exact hw
    have a3 : 1 / 1000 ≤ |p.Y - g.Settings.ToolDiameter / 2
        - (p.Y + p.PlacedHeight + g.Settings.ToolDiameter / 2)| := by
      rw [offset_height_back, abs_neg, abs_of_nonneg hh0]; exact hh
    refine ⟨writePass_final_sides g p hN, rfl, ?_, ?_⟩
    · intro side hside
      simp only [finalPassSides, List.mem_cons, List.mem_singleton, List.not_mem_nil,
        or_false] at hside
      rcases hside with hs | hs | hs | hs
      · rw [hs, ← List.append_nil (Generator.writeSideWithTabs _ _ _ _ _ _ _ _ _ _),
          tabLifts_side_horiz _ _ _ _ _ _ _ _ _ n0 a0, l0]
        simpa [tabLifts] using hcast
      · rw [hs, ← List.append_nil (Generator.writeSideWithTabs _ _ _ _ _ _ _ _ _ _),
          tabLifts_side_vert _ _ _ _ _ _ _ _ _ n1 a1, l1]
        simpa [tabLifts] using hcast
      · rw [hs, ← List.append_nil (Generator.writeSideWithTabs _ _ _ _ _ _ _ _ _ _),
          tabLifts_side_horiz _ _ _ _ _ _ _ _ _ n2 a2, l2]
        simpa [tabLifts] using hcast
      · rw [hs, ← List.append_nil (Generator.writeSideWithTabs _ _ _ _ _ _ _ _ _ _),
          tabLifts_side_vert _ _ _ _ _ _ _ _ _ n3 a3, l3]
        simpa [tabLifts] using hcast
    · rw [writePass_final g p _ hN]
      simp only [Generator.writePerimeterWithTabs, List.append_assoc, List.cons_append,
        List.nil_append]
      rw [tabLifts_cons_of_not_feedZ (g.comment _) _ rfl,
        tabLifts_cons_of_not_feedZ (Line.rapidXY _ _ _) _ rfl,
        tabLifts_cons_of_not_feedZ (Line.plunge _ _ _) _ rfl,
        tabLifts_side_horiz _ _ _ _ _ _ _ _ _ n0 a0, tabLifts_side_vert _ _ _ _ _ _ _ _ _ n1 a1,
        tabLifts_side_horiz _ _ _ _ _ _ _ _ _ n2 a2, tabLifts_side_vert _ _ _ _ _ _ _ _ _ n3 a3,
        l0, l1, l2, l3]
      simp only [tabLifts]
      push_cast
      rw [hcast]
      ring

/-- C5 with two tabs per side on the part of scenario S5: the final pass
contains 8 lifts; and without tabs the first pass contains none. -/
theorem C5_witness :
    tabbedGen.Settings.PartTabsPerSide > 0 ∧
    (1 : ℚ) / 1000 ≤ samplePlacement.PlacedWidth + tabbedGen.Settings.ToolDiameter ∧
    (1 : ℚ) / 1000 ≤ samplePlacement.PlacedHeight + tabbedGen.Settings.ToolDiameter ∧
    (tabLifts (tabbedGen.writePass samplePlacement (tabbedGen.calculateTabs samplePlacement)
      tabbedGen.numPasses) : Int) = 8 ∧
    tabLifts (sampleGen.writePass samplePlacement (sampleGen.calculateTabs samplePlacement) 1)
      = 0 :=
  ⟨by decide,
   by norm_num [samplePlacement, tabbedGen, tabbedSettings, sampleSettings, Placement.PlacedWidth],
   by norm_num [samplePlacement, tabbedGen, tabbedSettings, sampleSettings, Placement.PlacedHeight],
   ((C5_tab_lifts_only_on_final_pass tabbedGen samplePlacement).2.2 (by decide)
     (by norm_num [samplePlacement, tabbedGen, tabbedSettings, sampleSettings,
       Placement.PlacedWidth])
     (by norm_num [samplePlacement, tabbedGen, tabbedSettings, sampleSettings,
       Placement.PlacedHeight])).2.2.2,
   (C5_tab_lifts_only_on_final_pass sampleGen samplePlacement).1 1
     (by simp [sample_numPasses])⟩

/-- C6 (as stated, refuted): with two tabs per side on the part of scenario S5
(cut depth 12), tabs 20 high are lifted to `Z = 0`, not to
`Z = -(12 - 20) = 8`; and tabs 40 wide overlap, so that the second tab of the
bottom side is traversed from x = 157/3 to x = 263/3, a distance of 106/3, not
of 40. In both cases the tab settings are positive. -/
theorem C6_counterexample_tall_or_wide_tabs :
    (0 < tallTabGen.Settings.PartTabsPerSide ∧ 0 < tallTabGen.Settings.PartTabWidth ∧
      0 < tallTabGen.Settings.PartTabHeight ∧
      ¬ ∀ e ∈ events { x := 0, y := 0, z := 0 }
          (tallTabGen.writePass samplePlacement (tallTabGen.calculateTabs samplePlacement)
            tallTabGen.numPasses),
        TabProfile tallTabGen.Settings.CutDepth
          (tallTabGen.Settings.CutDepth - tallTabGen.Settings.PartTabHeight)
          tallTabGen.Settings.PartTabWidth e) ∧
    (0 < wideTabGen.Settings.PartTabsPerSide ∧ 0 < wideTabGen.Settings.PartTabWidth ∧
      0 < wideTabGen.Settings.PartTabHeight ∧
      ¬ ∀ e ∈ events { x := 0, y := 0, z := 0 }
          (wideTabGen.writePass samplePlacement (wideTabGen.calculateTabs samplePlacement)
            wideTabGen.numPasses),
        TabProfile wideTabGen.Settings.CutDepth
          (wideTabGen.Settings.CutDepth - wideTabGen.Settings.PartTabHeight)
          wideTabGen.Settings.PartTabWidth e) := by
  refine ⟨⟨by decide, by norm_num [tallTabGen, tallTabSettings],
      by norm_num [tallTabGen, tallTabSettings], ?_⟩,
    ⟨by decide, by norm_num [wideTabGen, wideTabSettings],
      by norm_num [wideTabGen, wideTabSettings], ?_⟩⟩
  · intro h
    have h1 := h (Event.lift (-12) 0 (82 / 3) (-3) (112 / 3) (-3) (-12))
      (by rw [tallTab_final_pass]; simp [events, Line.exec])
    norm_num [TabProfile, tallTabGen, tallTabSettings, sampleSettings] at h1
  · intro h
    have h1 := h (Event.lift (-12) (-9) (157 / 3) (-3) (263 / 3) (-3) (-12))
      (by rw [wideTab_final_pass]; simp [events, Line.exec])
    norm_num [TabProfile, wideTabGen, wideTabSettings, sampleSettings] at h1

/-- C6 (amended): with `part_tabs_per_side > 0`, `part_tab_width > 0`,
`0 < part_tab_height <= cut_depth`, `pass_depth > 0` and tabs that fit between
their neighbours (`part_tab_width * (N + 1)` at most the length of each side of
the tool path), the lifted height `-(cut_depth - part_tab_height)` is above
`-cut_depth`, and, run from any tool position, the final pass makes every tab
lift from `Z = -cut_depth` up to `Z = -(cut_depth - part_tab_height)`, across
`part_tab_width` parallel to an axis, and back down to `Z = -cut_depth`, and
makes every other XY feed move at `Z = -cut_depth`. -/
theorem C6_tab_lift_profile (g : Generator) (p : Placement)
    (hN : 0 < g.Settings.PartTabsPerSide) (htw : 0 < g.Settings.PartTabWidth)
    (hth : 0 < g.Settings.PartTabHeight)
    (hthc : g.Settings.PartTabHeight ≤ g.Settings.CutDepth)
    (hpd : 0 < g.Settings.PassDepth)
    (hfitW : g.Settings.PartTabWidth * ((g.Settings.PartTabsPerSide : ℚ) + 1)
      ≤ p.PlacedWidth + g.Settings.ToolDiameter)
    (hfitH : g.Settings.PartTabWidth * ((g.Settings.PartTabsPerSide : ℚ) + 1)
      ≤ p.PlacedHeight + g.Settings.ToolDiameter) :
    -g.Settings.CutDepth < -(g.Settings.CutDepth - g.Settings.PartTabHeight) ∧
    ∀ t0 : Tool, ∀ e ∈ events t0 (g.writePass p (g.calculateTabs p) g.numPasses),
      TabProfile g.Settings.CutDepth (g.Settings.CutDepth - g.Settings.PartTabHeight)
        g.Settings.PartTabWidth e := by
  refine ⟨by linarith, ?_⟩
  intro t0 e he
  rw [writePass_final g p _ hN, passDepth_final g hpd] at he
  have htd : (if g.Settings.CutDepth - g.Settings.PartTabHeight < 0 then 0
      else g.Settings.CutDepth - g.Settings.PartTabHeight)
      = g.Settings.CutDepth - g.Settings.PartTabHeight :=
    if_neg (not_lt.mpr (sub_nonneg.mpr hthc))
  have hmain := events_perimeterWithTabs g p (p.X - g.Settings.ToolDiameter / 2)
    (p.Y - g.Settings.ToolDiameter / 2) (p.X + p.PlacedWidth + g.Settings.ToolDiameter / 2)
    (p.Y + p.PlacedHeight + g.Settings.ToolDiameter / 2) g.Settings.CutDepth hN htw hfitW hfitH
    [Line.rapidZ g.profile.RapidMove g.Settings.SafeZ]
    (by intro t _ e he; simp [events] at he)
  rw [htd] at hmain
  simp only [List.cons_append, List.nil_append, List.append_assoc, Generator.comment, events,
    Line.exec] at he
  exact hmain _ rfl e he

/-- C6 (amended) on the part of scenario S5 with two tabs per side, 10 wide and
3 high: the first tab of the bottom side is lifted from Z = -12 to Z = -9 at
x = 82/3, traversed to x = 112/3 and lowered again, and every event of the final
pass has the tab profile. -/
theorem C6_witness :
    0 < tabbedGen.Settings.PartTabsPerSide ∧ 0 < tabbedGen.Settings.PartTabWidth ∧
    0 < tabbedGen.Settings.PartTabHeight ∧
    tabbedGen.Settings.PartTabHeight ≤ tabbedGen.Settings.CutDepth ∧
    0 < tabbedGen.Settings.PassDepth ∧
    tabbedGen.Settings.PartTabWidth * ((tabbedGen.Settings.PartTabsPerSide : ℚ) + 1)
      ≤ samplePlacement.PlacedWidth + tabbedGen.Settings.ToolDiameter ∧
    tabbedGen.Settings.PartTabWidth * ((tabbedGen.Settings.PartTabsPerSide : ℚ) + 1)
      ≤ samplePlacement.PlacedHeight + tabbedGen.Settings.ToolDiameter ∧
    Event.lift (-12) (-9) (82 / 3) (-3) (112 / 3) (-3) (-12) ∈
      events { x := 0, y := 0, z := 5 }
        (tabbedGen.writePass samplePlacement (tabbedGen.calculateTabs samplePlacement)
          tabbedGen.numPasses) ∧
    (-tabbedGen.Settings.CutDepth
        < -(tabbedGen.Settings.CutDepth - tabbedGen.Settings.PartTabHeight) ∧
      ∀ t0 : Tool, ∀ e ∈ events t0
          (tabbedGen.writePass samplePlacement (tabbedGen.calculateTabs samplePlacement)
            tabbedGen.numPasses),
        TabProfile tabbedGen.Settings.CutDepth
          (tabbedGen.Settings.CutDepth - tabbedGen.Settings.PartTabHeight)
          tabbedGen.Settings.PartTabWidth e) :=
  ⟨by decide, by norm_num [tabbedGen, tabbedSettings],
   by norm_num [tabbedGen, tabbedSettings],
   by norm_num [tabbedGen, tabbedSettings, sampleSettings],
   by norm_num [tabbedGen, tabbedSettings, sampleSettings],
   by norm_num [tabbedGen, tabbedSettings, sampleSettings, samplePlacement,
     Placement.PlacedWidth],
   by norm_num [tabbedGen, tabbedSettings, sampleSettings, samplePlacement,
     Placement.PlacedHeight],
   by rw [tabbed_final_pass]; simp [events, Line.exec],
   C6_tab_lift_profile tabbedGen samplePlacement (by decide)
     (by norm_num [tabbedGen, tabbedSettings])
     (by norm_num [tabbedGen, tabbedSettings])
     (by norm_num [tabbedGen, tabbedSettings, sampleSettings])
     (by norm_num [tabbedGen, tabbedSettings, sampleSettings])
     (by norm_num [tabbedGen, tabbedSettings, sampleSettings, samplePlacement,
       Placement.PlacedWidth])
     (by norm_num [tabbedGen, tabbedSettings, sampleSettings, samplePlacement,
       Placement.PlacedHeight])⟩

/-- C7: with `N = part_tabs_per_side > 0`, `calculateTabs` returns exactly `4 * N`
tabs, `N` for each side 0..3, and the `t`-th tab (`t = 1..N`) of a side has
`startPos = t * L / (N + 1)`, where `L` is the placed width plus the tool diameter
on sides 0 and 2 and the placed height plus the tool diameter on sides 1 and 3,
which are the lengths `x1 - x0` and `y1 - y0` of the sides of the tool path.
`writeSideWithTabs` lifts from `startPos - tab_width / 2` to
`startPos + tab_width / 2`, so `startPos` is the centre of the tab. -/
theorem C7_tabs_equally_spaced (g : Generator) (p : Placement)
    (hN : 0 < g.Settings.PartTabsPerSide) :
    ((g.calculateTabs p).length : Int) = 4 * g.Settings.PartTabsPerSide ∧
    (∀ k : Nat, k < 4 →
      ((g.tabsForSide (g.calculateTabs p) (k : Int)).length : Int)
        = g.Settings.PartTabsPerSide ∧
      ∀ t : Nat, 1 ≤ t → (t : Int) ≤ g.Settings.PartTabsPerSide →
        (g.tabsForSide (g.calculateTabs p) (k : Int))[t - 1]? =
          some { side := (k : Int),
                 startPos := (t : ℚ)
                   * (if k = 0 ∨ k = 2 then p.PlacedWidth + g.Settings.ToolDiameter
                      else p.PlacedHeight + g.Settings.ToolDiameter)
                   / ((g.Settings.PartTabsPerSide : ℚ) + 1) }) ∧
    (p.X + p.PlacedWidth + g.Settings.ToolDiameter / 2) - (p.X - g.Settings.ToolDiameter / 2)
      = p.PlacedWidth + g.Settings.ToolDiameter ∧
    (p.Y + p.PlacedHeight + g.Settings.ToolDiameter / 2) - (p.Y - g.Settings.ToolDiameter / 2)
      = p.PlacedHeight + g.Settings.ToolDiameter := by
  have hcast : (g.Settings.PartTabsPerSide.toNat : Int) = g.Settings.PartTabsPerSide :=
    Int.toNat_of_nonneg (le_of_lt hN)
  refine ⟨?_, ?_, offset_width g p, offset_height g p⟩
  · have h4 : List.range 4 = [0, 1, 2, 3] := rfl
    simp only [Generator.calculateTabs, if_neg (not_le.mpr hN), h4, List.flatMap_cons,
      List.flatMap_nil, List.length_append, List.length_map, List.length_range,
      List.length_nil]
    push_cast
    rw [hcast]
    ring
  · intro k hk
    constructor
    · rw [tabsForSide_length g p hN k hk, hcast]
    · intro t ht1 htN
      have hlt : t - 1 < g.Settings.PartTabsPerSide.toNat := by omega
      rw [tabsForSide_calculateTabs g p hN k hk, List.getElem?_map,
        List.getElem?_range hlt]
      have ht : ((t - 1 + 1 : Nat) : ℚ) = (t : ℚ) := by
        rw [Nat.sub_add_cancel ht1]
      simp only [Option.map_some']
      rw [ht]
      congr 2
      push_cast
      ring

/-- C7 on the part of scenario S5 with two tabs per side. -/
theorem C7_witness :
    0 < tabbedGen.Settings.PartTabsPerSide ∧
    ((tabbedGen.calculateTabs samplePlacement).length : Int) = 8 ∧
    (tabbedGen.tabsForSide (tabbedGen.calculateTabs samplePlacement) 1)[1]?
      = some { side := 1, startPos := 112 / 3 } := by
  have h := C7_tabs_equally_spaced tabbedGen samplePlacement (by decide)
  refine ⟨by decide, h.1, ?_⟩
  have h1 := (h.2.1 1 (by norm_num)).2 2 (by norm_num) (by decide)
  rw [show ((1 : Nat) : Int) = 1 from rfl] at h1
  rw [show (2 - 1 : Nat) = 1 from rfl] at h1
  rw [h1]
  norm_num [samplePlacement, tabbedGen, tabbedSettings, sampleSettings,
    Placement.PlacedHeight]

/-- C8: for a non-empty list of comparison results with waste percentages in
[0, 100] in which some result has `unplaced_count = 0`, the row marked best by
`showComparisonResults` exists, has `unplaced_count = 0`, and its waste
percentage is no greater than that of every result with `unplaced_count = 0`. -/
theorem C8_best_is_least_waste_fully_placed (results : List ComparisonResult)
    (_hne : results ≠ [])
    (hw : ∀ r ∈ results, 0 ≤ r.WastePercent ∧ r.WastePercent ≤ 100)
    (hz : ∃ r ∈ results, r.UnplacedCount = 0) :
    ∃ b, results[showComparisonResults.bestIdx results]? = some b ∧
      b.UnplacedCount = 0 ∧
      ∀ r ∈ results, r.UnplacedCount = 0 → b.WastePercent ≤ r.WastePercent := by
  have hinv := bestLoop_inv results (fun r hr => (hw r hr).2) results [] (0, -1)
    (by simp) (Or.inl ⟨rfl, by simp⟩)
  rcases hinv with ⟨_, hno⟩ | ⟨b, hb, hbz, _, hmin⟩
  · obtain ⟨r, hr, hrz⟩ := hz
    exact absurd hrz (hno r hr)
  · exact ⟨b, hb, hbz, hmin⟩

/-- C8 on scenario S6: of (unplaced = 0, waste = 30) and (unplaced = 2,
waste = 10) the first is marked best. -/
theorem C8_witness :
    rankingS6 ≠ [] ∧
    showComparisonResults.bestIdx rankingS6 = 0 ∧
    ∃ b, rankingS6[showComparisonResults.bestIdx rankingS6]? = some b ∧
      b.UnplacedCount = 0 ∧
      ∀ r ∈ rankingS6, r.UnplacedCount = 0 → b.WastePercent ≤ r.WastePercent :=
  ⟨by simp [rankingS6],
   by norm_num [showComparisonResults.bestIdx, showComparisonResults.bestLoop, rankingS6],
   C8_best_is_least_waste_fully_placed rankingS6 (by simp [rankingS6])
     (by intro r hr; simp [rankingS6] at hr; rcases hr with h | h <;> subst h <;> norm_num)
     ⟨_, List.mem_cons_self _ _, rfl⟩⟩

/-- C9 (as stated, refuted): of (unplaced = 5, waste = 50) and (unplaced = 1,
waste = 10) the row marked best is the first one, although the second has
fewer unplaced parts and less waste. -/
theorem C9_counterexample_first_row_marked :
    (∀ r ∈ rankingUnplaced, r.UnplacedCount ≠ 0) ∧
    rankingUnplaced[showComparisonResults.bestIdx rankingUnplaced]?
      = some { ScenarioName := "A", SheetsUsed := 1, TotalCuts := 1, WastePercent := 50,
               UnplacedCount := 5 } ∧
    ∃ r ∈ rankingUnplaced, r.UnplacedCount < 5 ∧ r.WastePercent < 50 := by
  have hb : showComparisonResults.bestIdx rankingUnplaced = 0 := by
    simp [showComparisonResults.bestIdx, showComparisonResults.bestLoop, rankingUnplaced]
  refine ⟨?_, ?_, ?_⟩
  · intro r hr
    simp [rankingUnplaced] at hr
    rcases hr with h | h <;> subst h <;> decide
  · rw [hb]; rfl
  · refine ⟨_, List.mem_cons_of_mem _ (List.mem_cons_self _ _), ?_, ?_⟩
    · decide
    · norm_num

/-- C9 (amended): when no result has `unplaced_count = 0` the ranking loop never
updates its state, so the row marked best by `showComparisonResults` is the
first row of the list (index 0), whatever its unplaced count and waste. -/
theorem C9_first_row_when_none_fully_placed (results : List ComparisonResult)
    (hnone : ∀ r ∈ results, r.UnplacedCount ≠ 0) :
    showComparisonResults.bestIdx results = 0 ∧
    results[showComparisonResults.bestIdx results]? = results.head? := by
  have h : showComparisonResults.bestIdx results = 0 := by
    unfold showComparisonResults.bestIdx
    rw [bestLoop_none_placed results 0 (0, -1) hnone]
  refine ⟨h, ?_⟩
  rw [h]
  cases results <;> simp

/-- C9 (amended) on two results that both leave parts unplaced. -/
theorem C9_witness :
    (∀ r ∈ rankingUnplaced, r.UnplacedCount ≠ 0) ∧
    showComparisonResults.bestIdx rankingUnplaced = 0 ∧
    rankingUnplaced[showComparisonResults.bestIdx rankingUnplaced]? = rankingUnplaced.head? :=
  ⟨by intro r hr; simp [rankingUnplaced] at hr; rcases hr with h | h <;> subst h <;> decide,
   C9_first_row_when_none_fully_placed rankingUnplaced
     (by intro r hr; simp [rankingUnplaced] at hr; rcases hr with h | h <;> subst h <;> decide)⟩

/-- C10 (as stated, refuted): a project that already carries
`SharedFrom = "Alice"` and is exported by author Bob is imported with
`SharedFrom = "Alice"`, not with `SharedFrom = author`. -/
theorem C10_counterexample_shared_from_kept :
    ∃ q, ImportShared (some (ExportShared "2024-05-01T10:00:00Z" reSharedProject "Bob" "notes"))
        = Except.ok q ∧
      q.Metadata.SharedFrom = "Alice" ∧ q.Metadata.SharedFrom ≠ "Bob" := by
  refine ⟨_, rfl, ?_, ?_⟩ <;> decide

/-- C10 (amended): for every project `p`, all strings `author` and `notes` and a
non-empty time stamp, `ImportShared` applied to the file written by
`ExportShared` succeeds and returns a project equal to `p` in name, parts,
stocks, settings and result, whose metadata has `Author = author`,
`Notes = notes`, `Version = "1.0"`, non-empty `CreatedAt` and `UpdatedAt`, and
`SharedFrom = author` when `p` had an empty `SharedFrom`, while a non-empty
`SharedFrom` of `p` is kept. -/
theorem C10_export_import_round_trip (now : String) (p : Project) (author notes : String)
    (hnow : now ≠ "") :
    ∃ q, ImportShared (some (ExportShared now p author notes)) = Except.ok q ∧
      q.Name = p.Name ∧ q.Parts = p.Parts ∧ q.Stocks = p.Stocks ∧
      q.Settings = p.Settings ∧ q.Result = p.Result ∧
      q.Metadata.Author = author ∧ q.Metadata.Notes = notes ∧
      q.Metadata.Version = "1.0" ∧
      q.Metadata.CreatedAt ≠ "" ∧ q.Metadata.UpdatedAt ≠ "" ∧
      q.Metadata.SharedFrom
        = (if p.Metadata.SharedFrom = "" then author else p.Metadata.SharedFrom) := by
  by_cases hs : p.Metadata.SharedFrom = "" <;> by_cases hc : p.Metadata.CreatedAt = "" <;>
    simp [ImportShared, ExportShared, marshalShared, hs, hc, hnow]

/-- C10 (amended) on the project of the round-trip test, exported by Pascal. -/
theorem C10_witness :
    ("2024-05-01T10:00:00Z" : String) ≠ "" ∧
    ∃ q, ImportShared (some (ExportShared "2024-05-01T10:00:00Z" sampleProject "Pascal"
        "For team review")) = Except.ok q ∧
      q.Name = sampleProject.Name ∧ q.Parts = sampleProject.Parts ∧
      q.Stocks = sampleProject.Stocks ∧
      q.Settings = sampleProject.Settings ∧ q.Result = sampleProject.Result ∧
      q.Metadata.Author = "Pascal" ∧ q.Metadata.Notes = "For team review" ∧
      q.Metadata.Version = "1.0" ∧
      q.Metadata.CreatedAt ≠ "" ∧ q.Metadata.UpdatedAt ≠ "" ∧
      q.Metadata.SharedFrom
        = (if sampleProject.Metadata.SharedFrom = "" then "Pascal"
           else sampleProject.Metadata.SharedFrom) :=
  ⟨by decide,
   C10_export_import_round_trip "2024-05-01T10:00:00Z" sampleProject "Pascal"
     "For team review" (by decide)⟩

/-- C11: for every file that decodes as a plain project `p` and has no
`format_version` wrapper (decoded as a `SharedProject` it fails or yields an empty
`FormatVersion`), `ImportShared` returns what `Load` returns, the project `p`
with no error; and for every wrapped file with non-empty `format_version` it
returns the wrapped project unchanged except for `Metadata.SharedFrom`, which is
`shared_by` when the wrapped project's `SharedFrom` was empty and is kept when it
was not. -/
theorem C11_import_accepts_plain_and_wrapped :
    (∀ (d : FileData) (p : Project), d.asProject = some p →
      (∀ s, d.asShared = some s → s.FormatVersion = "") →
      ImportShared (some d) = Load (some d) ∧ Load (some d) = Except.ok p) ∧
    (∀ (d : FileData) (s : SharedProject), d.asShared = some s → s.FormatVersion ≠ "" →
      (s.Project.Metadata.SharedFrom = "" →
        ImportShared (some d) = Except.ok
          { s.Project with Metadata := { s.Project.Metadata with SharedFrom := s.SharedBy } }) ∧
      (s.Project.Metadata.SharedFrom ≠ "" →
        ImportShared (some d) = Except.ok s.Project)) := by
  constructor
  · intro d p hp hs
    cases hsh : d.asShared with
    | none => simp [ImportShared, Load, hsh, hp]
    | some s => simp [ImportShared, Load, hsh, hp, hs s hsh]
  · intro d s hs hv
    constructor
    · intro hf
      simp [ImportShared, hs, hv, hf]
    · intro hf
      simp [ImportShared, hs, hv, hf]

/-- C11 on the file that `Save` writes for the project of the round-trip test
and on the file that `ExportShared` writes for it. -/
theorem C11_witness :
    ImportShared (some (Save sampleProject)) = Except.ok sampleProject ∧
    Load (some (Save sampleProject)) = Except.ok sampleProject ∧
    ImportShared (some (marshalShared
        { FormatVersion := "1.0", SharedAt := "2024-05-01T10:00:00Z", SharedBy := "Pascal",
          Project := reSharedProject })) = Except.ok reSharedProject := by
  have h1 := C11_import_accepts_plain_and_wrapped.1 (Save sampleProject) sampleProject rfl
    (by intro s hs; simp only [Save, Option.some.injEq] at hs; rw [← hs])
  have h2 := (C11_import_accepts_plain_and_wrapped.2 (marshalShared
        { FormatVersion := "1.0", SharedAt := "2024-05-01T10:00:00Z", SharedBy := "Pascal",
          Project := reSharedProject }) _ rfl (by decide)).2 (by decide)
  exact ⟨h1.1.trans h1.2, h1.2, h2⟩

/-- C12: for every parts library with a non-empty `Categories` list, a non-nil
`Parts` slice and finite widths, heights and thicknesses, `SaveLibrary` writes a
file on which `LoadLibrary` returns no error and the library itself: the same
parts in the same order with every field, and the same categories. -/
theorem C12_library_round_trip (lib : PartsLibrary) (parts : List LibraryPart)
    (hcat : lib.Categories ≠ []) (hparts : lib.Parts = some parts)
    (hfin : ∀ p ∈ parts, p.Width.isFinite = true ∧ p.Height.isFinite = true ∧
      p.Thickness.isFinite = true) :
    ∃ file, SaveLibrary lib = Except.ok file ∧ LoadLibrary file = (lib, none) := by
  have hall : (lib.Parts.getD []).all LibraryPart.marshals = true := by
    rw [hparts, Option.getD_some, List.all_eq_true]
    intro p hp
    obtain ⟨h1, h2, h3⟩ := hfin p hp
    simp [LibraryPart.marshals, h1, h2, h3]
  refine ⟨LibraryFile.content (Except.ok lib), by simp [SaveLibrary, hall], ?_⟩
  have hlen : ¬ lib.Categories.length = 0 := by
    rw [List.length_eq_zero]; exact hcat
  simp [LoadLibrary, hlen, hparts]

/-- C12 on the library of the save-and-load test. -/
theorem C12_witness :
    sampleLibrary.Categories ≠ [] ∧
    ∃ file, SaveLibrary sampleLibrary = Except.ok file ∧
      LoadLibrary file = (sampleLibrary, none) :=
  ⟨by decide,
   C12_library_round_trip sampleLibrary _ (by decide) rfl
     (by intro p hp; simp [sampleLibrary] at hp; subst hp; exact ⟨rfl, rfl, rfl⟩)⟩

/-- C13: on a path whose file does not exist `LoadLibrary` returns no error and
`NewPartsLibrary()`, which has no parts and the categories `["General"]`; it
returns an error exactly when the file cannot be read for another reason or its
content does not decode as a library, and then the library returned is the zero
`PartsLibrary`. -/
theorem C13_load_missing_or_broken :
    LoadLibrary LibraryFile.missing = (NewPartsLibrary, none) ∧
    NewPartsLibrary.Parts = some [] ∧ NewPartsLibrary.Categories = ["General"] ∧
    (∀ file : LibraryFile,
      ((LoadLibrary file).2 ≠ none ↔
        (∃ err, file = LibraryFile.unreadable err) ∨
        (∃ err, file = LibraryFile.content (Except.error err))) ∧
      ((LoadLibrary file).2 ≠ none → (LoadLibrary file).1 = PartsLibrary.zero)) := by
  refine ⟨rfl, rfl, rfl, ?_⟩
  intro file
  cases file with
  | missing => simp [LoadLibrary]
  | unreadable err => simp [LoadLibrary]
  | content decoded =>
    cases decoded with
    | error err => simp [LoadLibrary]
    | ok lib => simp [LoadLibrary]

/-- C13 on a file that cannot be read and on a file that is not JSON. -/
theorem C13_witness :
    LoadLibrary (LibraryFile.unreadable "permission denied")
      = (PartsLibrary.zero, some "permission denied") ∧
    (LoadLibrary (LibraryFile.content (Except.error "invalid character")) ).1
      = PartsLibrary.zero := by
  have h := C13_load_missing_or_broken.2.2.2
  refine ⟨rfl, (h (LibraryFile.content (Except.error "invalid character"))).2 ?_⟩
  exact ((h (LibraryFile.content (Except.error "invalid character"))).1).2
    (Or.inr ⟨"invalid character", rfl⟩)

/-- C14: when the file decodes to a library, `LoadLibrary` returns no error, a
non-empty `Categories` list and a non-nil `Parts` list: `Categories` is
`["General"]` when the file has no (or empty) categories and is unchanged
otherwise, `Parts` is the empty list when the file has no parts and is unchanged
otherwise. -/
theorem C14_load_fills_defaults (lib : PartsLibrary) :
    (LoadLibrary (LibraryFile.content (Except.ok lib))).2 = none ∧
    (LoadLibrary (LibraryFile.content (Except.ok lib))).1.Categories ≠ [] ∧
    (LoadLibrary (LibraryFile.content (Except.ok lib))).1.Parts ≠ none ∧
    (lib.Categories = [] →
      (LoadLibrary (LibraryFile.content (Except.ok lib))).1.Categories = ["General"]) ∧
    (lib.Categories ≠ [] →
      (LoadLibrary (LibraryFile.content (Except.ok lib))).1.Categories = lib.Categories) ∧
    (lib.Parts = none →
      (LoadLibrary (LibraryFile.content (Except.ok lib))).1.Parts = some []) ∧
    (∀ parts, lib.Parts = some parts →
      (LoadLibrary (LibraryFile.content (Except.ok lib))).1.Parts = some parts) := by
  cases hp : lib.Parts with
  | none =>
    by_cases hc : lib.Categories = []
    · simp [LoadLibrary, hp, hc]
    · have hlen : ¬ lib.Categories.length = 0 := by
        rw [List.length_eq_zero]; exact hc
      simp [LoadLibrary, hp, hc, hlen]
  | some parts =>
    by_cases hc : lib.Categories = []
    · simp [LoadLibrary, hp, hc]
    · have hlen : ¬ lib.Categories.length = 0 := by
        rw [List.length_eq_zero]; exact hc
      simp [LoadLibrary, hp, hc, hlen]

/-- C14 on a library file with parts but without categories and on a file with
neither. -/
theorem C14_witness :
    (LoadLibrary (LibraryFile.content (Except.ok bareLibrary))).1
      = { Parts := sampleLibrary.Parts, Categories := ["General"] } ∧
    (LoadLibrary (LibraryFile.content (Except.ok PartsLibrary.zero))).1 = NewPartsLibrary := by
  have h := C14_load_fills_defaults bareLibrary
  have h0 := C14_load_fills_defaults PartsLibrary.zero
  constructor
  · have hc := h.2.2.2.1 rfl
    have hp := h.2.2.2.2.2.2 _ rfl
    cases hl : (LoadLibrary (LibraryFile.content (Except.ok bareLibrary))).1 with
    | mk ps cs =>
      rw [hl] at hc hp
      simp only at hc hp
      rw [hc, hp]
      rfl
  · have hc := h0.2.2.2.1 rfl
    have hp := h0.2.2.2.2.2.1 rfl
    cases hl : (LoadLibrary (LibraryFile.content (Except.ok PartsLibrary.zero))).1 with
    | mk ps cs =>
      rw [hl] at hc hp
      simp only at hc hp
      rw [hc, hp]
      rfl

/-- C15 (as stated, refuted): the row `Shelf,600,300,2.5` has four fields whose
width, height and quantity are all numeric and positive, yet it yields an error
entry and no part, because the quantity must parse as an integer. -/
theorem C15_counterexample_fractional_quantity :
    (∃ w h q, sampleStrconv.ParseFloat "600" = some w ∧ w.isPos = true ∧
      sampleStrconv.ParseFloat "300" = some h ∧ h.isPos = true ∧
      sampleStrconv.ParseFloat "2.5" = some q ∧ q.isPos = true) ∧
    ImportCSV sampleStrconv [["Shelf", "600", "300", "2.5"]] =
      { Parts := [], Errors := [ImportError.invalidQuantity 2 "2.5"], Warnings := [] } := by
  constructor
  · refine ⟨Float64.fin 600, Float64.fin 300, Float64.fin (5 / 2), rfl, ?_, rfl, ?_, rfl, ?_⟩ <;>
      norm_num [Float64.isPos]
  · simp [ImportCSV, ImportCSV.hasHeader, ImportCSV.loop, ImportCSV.row,
      ImportCSV.isEmptyRow, sampleStrconv]

/-- C15 (amended): on a non-empty record list in which no width or height parses
to NaN, `ImportCSV` handles every row. A non-empty data row yields exactly one
error entry and no part if it has fewer than four fields, or its width or
height does not parse as a float or its quantity as an integer, or one of the
three is not positive; otherwise it yields exactly one part and no error. So
the parts are the valid rows in order, there are as many errors as other
non-empty data rows, and every part has width > 0, height > 0 and
quantity >= 1. -/
theorem C15_rows_yield_part_or_error (sc : Strconv) (records : List (List String))
    (hne : records ≠ [])
    (hnan : ∀ row ∈ records, sc.ParseFloat (row.getD 1 "") ≠ some Float64.nan ∧
      sc.ParseFloat (row.getD 2 "") ≠ some Float64.nan) :
    (∀ (result : ImportResult) (lineNum : Int), ∀ row ∈ ImportCSV.dataRows sc records,
      ¬ ImportCSV.isEmptyRow row →
      (ImportCSV.rowDims? sc row = none →
        ∃ e, ImportCSV.row sc result lineNum row =
          { result with Errors := result.Errors ++ [e] }) ∧
      (∀ d, ImportCSV.rowDims? sc row = some d →
        ∃ part, (ImportCSV.row sc result lineNum row).Parts = result.Parts ++ [part] ∧
          part.dims = d ∧ (ImportCSV.row sc result lineNum row).Errors = result.Errors)) ∧
    (ImportCSV sc records).Parts.map ImportedPart.dims =
      ((ImportCSV.dataRows sc records).filter ImportCSV.isDataRow).filterMap
        (ImportCSV.rowDims? sc) ∧
    (ImportCSV sc records).Errors.length =
      (((ImportCSV.dataRows sc records).filter ImportCSV.isDataRow).filter
        (ImportCSV.isBadRow sc)).length ∧
    (∀ p ∈ (ImportCSV sc records).Parts,
      p.Width.isPos = true ∧ p.Height.isPos = true ∧ 1 ≤ p.Quantity) := by
  have hsub : ∀ row ∈ ImportCSV.dataRows sc records, row ∈ records := by
    intro row hrow
    unfold ImportCSV.dataRows at hrow
    split_ifs at hrow
    · exact List.mem_of_mem_drop hrow
    · exact hrow
  have hloop := importLoop_spec sc (ImportCSV.dataRows sc records)
    (if ImportCSV.hasHeader sc records then 2 else 1)
    { Parts := [], Errors := [],
      Warnings := if ImportCSV.hasHeader sc records then [ImportWarning.headerSkipped]
                  else [] }
    (fun row hrow => hnan row (hsub row hrow))
  rw [← importCSV_eq_loop sc records hne] at hloop
  simp only [List.map_nil, List.nil_append, List.length_nil, Nat.zero_add] at hloop
  refine ⟨?_, hloop.1, hloop.2, ?_⟩
  · intro result lineNum row hrow he
    have hn := hnan row (hsub row hrow)
    exact ⟨fun hd => importRow_invalid sc result lineNum row he hn.1 hn.2 hd,
      fun d hd => importRow_valid sc result lineNum row d he hd⟩
  · intro p hp
    have hmem : p.dims ∈ (ImportCSV sc records).Parts.map ImportedPart.dims :=
      List.mem_map_of_mem _ hp
    rw [hloop.1, List.mem_filterMap] at hmem
    obtain ⟨row, _, hd⟩ := hmem
    obtain ⟨h1, h2, h3⟩ := rowDims?_pos sc row p.Width p.Height p.Quantity hd
    exact ⟨h1, h2, h3⟩

/-- C15 (amended) on three rows: a valid one, one with a zero height and one
with a fractional quantity. -/
theorem C15_witness :
    ([["Shelf", "600", "300", "2"], ["Door", "600", "0", "2"],
      ["Top", "600", "300", "2.5"]] : List (List String)) ≠ [] ∧
    (ImportCSV sampleStrconv
      [["Shelf", "600", "300", "2"], ["Door", "600", "0", "2"],
        ["Top", "600", "300", "2.5"]]).Parts.map ImportedPart.dims
        = [(Float64.fin 600, Float64.fin 300, 2)] ∧
    (ImportCSV sampleStrconv
      [["Shelf", "600", "300", "2"], ["Door", "600", "0", "2"],
        ["Top", "600", "300", "2.5"]]).Errors.length = 2 := by
  have h := C15_rows_yield_part_or_error sampleStrconv
    [["Shelf", "600", "300", "2"], ["Door", "600", "0", "2"], ["Top", "600", "300", "2.5"]]
    (by simp)
    (by
      intro row hrow
      simp only [List.mem_cons, List.mem_singleton, List.not_mem_nil, or_false] at hrow
      rcases hrow with h | h | h <;> subst h <;> simp [sampleStrconv])
  refine ⟨by simp, ?_, ?_⟩
  · rw [h.2.1]
    simp [ImportCSV.dataRows, ImportCSV.hasHeader, ImportCSV.isDataRow, ImportCSV.isEmptyRow,
      ImportCSV.rowDims?, sampleStrconv, Float64.isPos]
  · rw [h.2.2.1]
    simp [ImportCSV.dataRows, ImportCSV.hasHeader, ImportCSV.isDataRow, ImportCSV.isEmptyRow,
      ImportCSV.isBadRow, ImportCSV.rowDims?, sampleStrconv, Float64.isPos]

/-- C16 (as stated, refuted): in the file whose only row is `label,width` the
second column of the first row is non-numeric, yet the row is not skipped as a
header: there is no warning, and the row is imported as data and yields the
error `Not enough columns`. -/
theorem C16_counterexample_short_header :
    sampleStrconv.ParseFloat "width" = none ∧
    ImportCSV sampleStrconv [["label", "width"]] =
      { Parts := [], Errors := [ImportError.notEnoughColumns 2], Warnings := [] } := by
  constructor
  · rfl
  · simp [ImportCSV, ImportCSV.hasHeader, ImportCSV.loop, ImportCSV.row,
      ImportCSV.isEmptyRow, sampleStrconv]

/-- C16 (amended): `ImportCSV` treats the first row as a header exactly when it
has at least three fields and its second field does not parse as a float. Then
the first row is skipped: it yields no part and no error but the one warning
`Detected header row, skipping`, and the import goes on with the second row.
Otherwise, when the second field is numeric or the row has fewer than three
fields, the first row is imported as data. -/
theorem C16_header_detection (sc : Strconv) (first : List String)
    (rest : List (List String)) :
    (first.length ≥ 3 ∧ sc.ParseFloat (first.getD 1 "") = none →
      ImportCSV sc (first :: rest) =
        ImportCSV.loop sc rest 2
          { Parts := [], Errors := [], Warnings := [ImportWarning.headerSkipped] }) ∧
    (¬ (first.length ≥ 3 ∧ sc.ParseFloat (first.getD 1 "") = none) →
      ImportCSV sc (first :: rest) =
        ImportCSV.loop sc rest 2
          (ImportCSV.row sc { Parts := [], Errors := [], Warnings := [] } 2 first)) ∧
    (first.length ≥ 3 ∧ sc.ParseFloat (first.getD 1 "") = none →
      ImportCSV sc [first] =
        { Parts := [], Errors := [], Warnings := [ImportWarning.headerSkipped] }) := by
  have hhead : ImportCSV.hasHeader sc (first :: rest)
      ↔ (first.length ≥ 3 ∧ sc.ParseFloat (first.getD 1 "") = none) := by
    simp [ImportCSV.hasHeader]
  have hhead1 : ImportCSV.hasHeader sc [first]
      ↔ (first.length ≥ 3 ∧ sc.ParseFloat (first.getD 1 "") = none) := by
    simp [ImportCSV.hasHeader]
  refine ⟨?_, ?_, ?_⟩
  · intro h
    unfold ImportCSV
    rw [if_neg (by simp), if_pos (hhead.mpr h)]
    rfl
  · intro h
    unfold ImportCSV
    rw [if_neg (by simp), if_neg (fun hh => h (hhead.mp hh))]
    rfl
  · intro h
    unfold ImportCSV
    rw [if_neg (by simp), if_pos (hhead1.mpr h)]
    rfl

/-- C16 (amended) on a file with the header `label,width,height,quantity` and one
data row. -/
theorem C16_witness :
    ImportCSV sampleStrconv
        [["label", "width", "height", "quantity"], ["Shelf", "600", "300", "2"]] =
      ImportCSV.loop sampleStrconv [["Shelf", "600", "300", "2"]] 2
        { Parts := [], Errors := [], Warnings := [ImportWarning.headerSkipped] } ∧
    ImportCSV sampleStrconv [["label", "width", "height", "quantity"]] =
      { Parts := [], Errors := [], Warnings := [ImportWarning.headerSkipped] } :=
  ⟨(C16_header_detection sampleStrconv _ _).1 ⟨by decide, rfl⟩,
   (C16_header_detection sampleStrconv _ []).2.2 ⟨by decide, rfl⟩⟩

/-- C17: for a data row of at least five fields that passes every check (width
and height parse and are not `<= 0`, the quantity parses and is positive), with
fifth field `g`, `ImportCSV` adds exactly one part and no error; the part has
grain Horizontal iff `g` is one of `Horizontal`, `H`, `h`, grain Vertical iff `g`
is one of `Vertical`, `V`, `v`, and grain None otherwise; and exactly one warning
is added iff `g` is none of these six values nor one of the empty string,
`None`, `N`, `n`, and no warning otherwise. -/
theorem C17_grain_column (sc : Strconv) (result : ImportResult) (lineNum : Int)
    (row : List String) (w h : Float64) (q : Int)
    (hlen : 5 ≤ row.length)
    (hw : sc.ParseFloat (row.getD 1 "") = some w)
    (hh : sc.ParseFloat (row.getD 2 "") = some h)
    (hq : sc.Atoi (row.getD 3 "") = some q)
    (hwpos : w.leZero = false) (hhpos : h.leZero = false) (hqpos : 0 < q) :
    ∃ part,
      (ImportCSV.row sc result lineNum row).Parts = result.Parts ++ [part] ∧
      (ImportCSV.row sc result lineNum row).Errors = result.Errors ∧
      part.Width = w ∧ part.Height = h ∧ part.Quantity = q ∧
      (part.Grain = Grain.Horizontal ↔ row.getD 4 "" ∈ ["Horizontal", "H", "h"]) ∧
      (part.Grain = Grain.Vertical ↔ row.getD 4 "" ∈ ["Vertical", "V", "v"]) ∧
      (part.Grain = Grain.None ↔
        row.getD 4 "" ∉ ["Horizontal", "H", "h", "Vertical", "V", "v"]) ∧
      (row.getD 4 "" ∉ ["Horizontal", "H", "h", "Vertical", "V", "v", "", "None", "N", "n"] →
        (ImportCSV.row sc result lineNum row).Warnings =
          result.Warnings ++ [ImportWarning.unknownGrain lineNum (row.getD 4 "")]) ∧
      (row.getD 4 "" ∈ ["Horizontal", "H", "h", "Vertical", "V", "v", "", "None", "N", "n"] →
        (ImportCSV.row sc result lineNum row).Warnings = result.Warnings) := by
  have he : ¬ ImportCSV.isEmptyRow row := by
    unfold ImportCSV.isEmptyRow; omega
  have hlen4 : ¬ row.length < 4 := by omega
  have hcond : ¬ (w.leZero = true ∨ h.leZero = true ∨ q ≤ 0) := by
    rw [hwpos, hhpos]; simp; exact hqpos
  have hlen5 : row.length ≥ 5 := hlen
  simp only [ImportCSV.row, he, hlen4, hw, hh, hq, hcond, hlen5, if_true, if_false]
  generalize row.getD 4 "" = g
  by_cases h1 : g = "Horizontal" ∨ g = "H" ∨ g = "h"
  · rw [if_pos h1]
    refine ⟨_, rfl, rfl, rfl, rfl, rfl, ?_⟩
    rcases h1 with h1 | h1 | h1 <;> subst h1 <;> simp [NewPart]
  · rw [if_neg h1]
    by_cases h2 : g = "Vertical" ∨ g = "V" ∨ g = "v"
    · rw [if_pos h2]
      refine ⟨_, rfl, rfl, rfl, rfl, rfl, ?_⟩
      rcases h2 with h2 | h2 | h2 <;> subst h2 <;> simp [NewPart]
    · rw [if_neg h2]
      push_neg at h1 h2
      by_cases h3 : g = "" ∨ g = "None" ∨ g = "N" ∨ g = "n"
      · rw [if_pos h3]
        refine ⟨_, rfl, rfl, rfl, rfl, rfl, ?_⟩
        rcases h3 with h3 | h3 | h3 | h3 <;> subst h3 <;> simp [NewPart]
      · rw [if_neg h3]
        push_neg at h3
        refine ⟨_, rfl, rfl, rfl, rfl, rfl, ?_⟩
        simp [NewPart, h1.1, h1.2.1, h1.2.2, h2.1, h2.2.1, h2.2.2, h3.1, h3.2.1, h3.2.2.1,
          h3.2.2.2]

/-- C17 on the rows `Shelf,600,300,2,H` and `Shelf,600,300,2,2.5`: the first is
imported with grain Horizontal and no warning, the second with grain None and
a warning. -/
theorem C17_witness :
    ImportCSV.row sampleStrconv { Parts := [], Errors := [], Warnings := [] } 2
        ["Shelf", "600", "300", "2", "H"] =
      { Parts := [{ Label := "Shelf", Width := Float64.fin 600, Height := Float64.fin 300,
                    Quantity := 2, Grain := Grain.Horizontal }],
        Errors := [], Warnings := [] } ∧
    (∃ part, (ImportCSV.row sampleStrconv { Parts := [], Errors := [], Warnings := [] } 2
        ["Shelf", "600", "300", "2", "2.5"]).Parts = [part] ∧ part.Grain = Grain.None) ∧
    (ImportCSV.row sampleStrconv { Parts := [], Errors := [], Warnings := [] } 2
        ["Shelf", "600", "300", "2", "2.5"]).Warnings
      = [ImportWarning.unknownGrain 2 "2.5"] := by
  obtain ⟨part, hp, _, _, _, _, _, _, hnone, hwarn, _⟩ :=
    C17_grain_column sampleStrconv { Parts := [], Errors := [], Warnings := [] } 2
      ["Shelf", "600", "300", "2", "2.5"] (Float64.fin 600) (Float64.fin 300) 2
      (by decide) rfl rfl rfl (by norm_num [Float64.leZero]) (by norm_num [Float64.leZero])
      (by decide)
  refine ⟨?_, ⟨part, by simpa using hp, hnone.mpr (by decide)⟩, by simpa using hwarn (by decide)⟩
  simp [ImportCSV.row, ImportCSV.isEmptyRow, sampleStrconv, Float64.leZero, NewPart]

/-- C18 (as stated, refuted): the header row `label,width,height` has all three
required columns and the table has no data row, yet the result holds an error
entry: a table of fewer than two rows is turned down before the header is
read. -/
theorem C18_counterexample_header_only :
    colIndex sampleStrings ["label", "width", "height"] "label" = some 0 ∧
    colIndex sampleStrings ["label", "width", "height"] "width" = some 1 ∧
    colIndex sampleStrings ["label", "width", "height"] "height" = some 2 ∧
    importCSVToLibraryParts sampleStrings sampleStrconv (fun _ => "id")
      [["label", "width", "height"]] =
      { parts := [], errors := [CsvLibraryError.tooShort] } := by
  refine ⟨?_, ?_, ?_, ?_⟩ <;>
    simp [colIndex, colIndex.go, sampleStrings, importCSVToLibraryParts]

/-- C18 (amended): for a table with a header row and at least one data row. If
the header lacks one of the columns label, width, height (names compared after
lower-casing and trimming), the result has no parts and exactly one error.
Otherwise every data row adds exactly one library part when it reaches the three
required columns, its trimmed label is not empty and its trimmed width and
height parse as numbers > 0, and exactly one error when it does not (for rows
whose width and height do not read as NaN); so the parts are as many as the
rows that meet the conditions and the errors as many as the others. The part
takes grain, category, material, thickness, notes and tags from the optional
cells, which are read exactly when the header has the column and the row
reaches it; its tags are the non-empty trimmed pieces of the trimmed tags cell
split on `;`. -/
theorem C18_library_rows_yield_part_or_error (st : Strings) (sc : Strconv)
    (ids : Nat → String) (header : List String) (rows : List (List String))
    (hrows : rows ≠ []) :
    ((∃ name ∈ ["label", "width", "height"],
        ∀ col ∈ header, st.TrimSpace (st.ToLower col) ≠ name) →
      importCSVToLibraryParts st sc ids (header :: rows) =
        { parts := [], errors := [CsvLibraryError.missingColumns] }) ∧
    (∀ li wi hi, colIndex st header "label" = some li →
      colIndex st header "width" = some wi → colIndex st header "height" = some hi →
      (∀ (result : csvLibraryResult) (rowNum : Nat) (row : List String),
        (importCSVToLibraryParts.rowOk st sc li wi hi row = true →
          ∃ w h, sc.ParseFloat (st.TrimSpace (row.getD wi "")) = some w ∧
            sc.ParseFloat (st.TrimSpace (row.getD hi "")) = some h ∧
            importCSVToLibraryParts.row st sc ids header li wi hi result rowNum row =
              { result with
                  parts := result.parts ++
                    [importCSVToLibraryParts.build st sc header row (ids rowNum)
                      (st.TrimSpace (row.getD li "")) w h] }) ∧
        (importCSVToLibraryParts.rowOk st sc li wi hi row = false →
          importCSVToLibraryParts.noNaN st sc wi hi row →
          ∃ e, importCSVToLibraryParts.row st sc ids header li wi hi result rowNum row =
            { result with errors := result.errors ++ [e] })) ∧
      ((∀ row ∈ rows, importCSVToLibraryParts.noNaN st sc wi hi row) →
        (importCSVToLibraryParts st sc ids (header :: rows)).parts.length =
          (rows.filter (importCSVToLibraryParts.rowOk st sc li wi hi)).length ∧
        (importCSVToLibraryParts st sc ids (header :: rows)).errors.length =
          (rows.filter
            (fun row => !importCSVToLibraryParts.rowOk st sc li wi hi row)).length)) ∧
    (∀ (row : List String) (name : String),
      optCell st header row name = none ↔
        (∀ col ∈ header, st.TrimSpace (st.ToLower col) ≠ name) ∨
        ∃ idx, colIndex st header name = some idx ∧ row.length ≤ idx) ∧
    (∀ (row : List String) (id label : String) (w h : Float64),
      (importCSVToLibraryParts.build st sc header row id label w h).Label = label ∧
      (importCSVToLibraryParts.build st sc header row id label w h).Width = w ∧
      (importCSVToLibraryParts.build st sc header row id label w h).Height = h ∧
      (importCSVToLibraryParts.build st sc header row id label w h).Grain =
        (match optCell st header row "grain" with
         | some c =>
           if st.TrimSpace (st.ToLower c) = "horizontal" ∨ st.TrimSpace (st.ToLower c) = "h" then
             Grain.Horizontal
           else if st.TrimSpace (st.ToLower c) = "vertical" ∨
               st.TrimSpace (st.ToLower c) = "v" then
             Grain.Vertical
           else Grain.None
         | none => Grain.None) ∧
      (importCSVToLibraryParts.build st sc header row id label w h).Category =
        ((optCell st header row "category").map st.TrimSpace).getD "" ∧
      (importCSVToLibraryParts.build st sc header row id label w h).Material =
        ((optCell st header row "material").map st.TrimSpace).getD "" ∧
      (importCSVToLibraryParts.build st sc header row id label w h).Thickness =
        ((optCell st header row "thickness").bind
          (fun c => sc.ParseFloat (st.TrimSpace c))).getD (Float64.fin 0) ∧
      (importCSVToLibraryParts.build st sc header row id label w h).Notes =
        ((optCell st header row "notes").map st.TrimSpace).getD "" ∧
      (importCSVToLibraryParts.build st sc header row id label w h).Tags =
        (match optCell st header row "tags" with
         | some c =>
           if st.TrimSpace c ≠ "" then
             List.filter (fun t => decide (t ≠ ""))
               (List.map st.TrimSpace (st.Split (st.TrimSpace c) ";"))
           else []
         | none => [])) := by
  refine ⟨?_, ?_, optCell_eq_none st header, ?_⟩
  · rintro ⟨name, hname, hcol⟩
    have hnone := (colIndex_eq_none st header name).2 hcol
    apply importCSVToLibraryParts_missing st sc ids header rows hrows
    simp only [List.mem_cons, List.mem_singleton, List.not_mem_nil, or_false] at hname
    rcases hname with h | h | h <;> subst h
    · exact Or.inl hnone
    · exact Or.inr (Or.inl hnone)
    · exact Or.inr (Or.inr hnone)
  · intro li wi hi hl hw hh
    refine ⟨fun result rowNum row =>
      ⟨libraryRow_ok st sc ids header li wi hi result rowNum row,
       libraryRow_bad st sc ids header li wi hi result rowNum row⟩, ?_⟩
    intro hnan
    rw [importCSVToLibraryParts_eq_loop st sc ids header rows li wi hi hrows hl hw hh]
    have hloop := libraryLoop_spec st sc ids header li wi hi rows 0
      { parts := [], errors := [] } hnan
    simpa using hloop
  · intro row id label w h
    have hf := libraryBuild_fields st sc header row id label w h
    exact ⟨hf.2.1, hf.2.2.1, hf.2.2.2.1, hf.2.2.2.2.1, hf.2.2.2.2.2.1, hf.2.2.2.2.2.2.1,
      hf.2.2.2.2.2.2.2.1, hf.2.2.2.2.2.2.2.2.1, hf.2.2.2.2.2.2.2.2.2⟩

/-- C18 (amended) on a table with a tags column and two data rows, the second
with an empty label: one part with the tags `a` and `b`, and one error. -/
theorem C18_witness :
    ([["Shelf", "600", "300", "a;b"], ["", "600", "300", ""]] : List (List String)) ≠ [] ∧
    (importCSVToLibraryParts sampleStrings sampleStrconv (fun _ => "id")
      [["label", "width", "height", "tags"], ["Shelf", "600", "300", "a;b"],
        ["", "600", "300", ""]]).parts.length = 1 ∧
    (importCSVToLibraryParts sampleStrings sampleStrconv (fun _ => "id")
      [["label", "width", "height", "tags"], ["Shelf", "600", "300", "a;b"],
        ["", "600", "300", ""]]).errors.length = 1 ∧
    (importCSVToLibraryParts.build sampleStrings sampleStrconv
      ["label", "width", "height", "tags"] ["Shelf", "600", "300", "a;b"] "id" "Shelf"
      (Float64.fin 600) (Float64.fin 300)).Tags = ["a", "b"] := by
  have h := C18_library_rows_yield_part_or_error sampleStrings sampleStrconv (fun _ => "id")
    ["label", "width", "height", "tags"]
    [["Shelf", "600", "300", "a;b"], ["", "600", "300", ""]] (by simp)
  have hc := (h.2.1 0 1 2 (by simp [colIndex, colIndex.go, sampleStrings])
    (by simp [colIndex, colIndex.go, sampleStrings])
    (by simp [colIndex, colIndex.go, sampleStrings])).2
    (by
      intro row hrow
      simp only [List.mem_cons, List.mem_singleton, List.not_mem_nil, or_false] at hrow
      rcases hrow with h | h <;> subst h <;>
        simp [importCSVToLibraryParts.noNaN, sampleStrconv, sampleStrings])
  refine ⟨by simp, ?_, ?_, ?_⟩
  · rw [hc.1]
    simp [importCSVToLibraryParts.rowOk, sampleStrconv, sampleStrings, Float64.isPos]
  · rw [hc.2]
    simp [importCSVToLibraryParts.rowOk, sampleStrconv, sampleStrings, Float64.isPos]
  · rw [(h.2.2.2 _ _ _ _ _).2.2.2.2.2.2.2.2]
    simp [optCell, colIndex, colIndex.go, sampleStrings]

/-- C19 (refuted, a defect of the code): with the comment syntax `( ... )` the
program of a sheet holds comments that are not in the syntax of the profile.
The `Job complete` line, which every sheet program holds, is written with the
prefix alone and comes out as `( === Job complete ===`, without the closing
suffix; the annotation of a plunge is the fixed text `; Plunge`, which neither
begins with the prefix nor ends with the suffix; and every comment of the
header block is the prefix followed by its text, the suffix never being
written. Only the lines of `g.comment`, the part banners and the pass comments,
begin with the prefix and end with the suffix. -/
theorem C19_comments_outside_profile_syntax (fmt : ℚ → String) (sprintf : Text → String) :
    (∀ (g : Generator) (sheet : SheetResult) (idx : Int),
      Line.prefixed g.profile.CommentPrefix Text.jobComplete ∈
        g.GenerateSheet fmt sheet idx) ∧
    (Line.prefixed parenGen.profile.CommentPrefix Text.jobComplete).commentString sprintf =
      some "( === Job complete ===" ∧
    ¬ wrapsComment parenGen.profile "( === Job complete ===" ∧
    Line.plunge "G1" (-5) 300 ∈ parenGen.GenerateSheet fmt sampleSheet 1 ∧
    (Line.plunge "G1" (-5) 300).commentString sprintf = some "; Plunge" ∧
    ¬ wrapsComment parenGen.profile "; Plunge" ∧
    (∀ (g : Generator) (sheet : SheetResult) (idx : Int),
      ∀ line ∈ g.writeHeader sheet idx, ∀ c, line.commentString sprintf = some c →
        ∃ t, c = g.profile.CommentPrefix ++ Text.render sprintf t) ∧
    (∀ (g : Generator) (t : Text),
      ∃ c, (g.comment t).commentString sprintf = some c ∧ wrapsComment g.profile c) := by
  refine ⟨fun g sheet idx => jobComplete_mem_generateSheet g fmt sheet idx, rfl, by decide,
    paren_plunge_mem fmt, rfl, by decide, ?_, fun g t => comment_wraps g sprintf t⟩
  intro g sheet idx line hline c hc
  unfold Generator.writeHeader at hline
  simp only [List.mem_append, List.mem_cons, List.mem_singleton, List.not_mem_nil, or_false,
    List.mem_map] at hline
  rcases hline with (((h | h | h | h | h | h | h) | ⟨s, _, h⟩) | h) | h
  · subst h; exact ⟨_, by simpa [Line.commentString] using hc.symm⟩
  · subst h; exact ⟨_, by simpa [Line.commentString] using hc.symm⟩
  · subst h; exact ⟨_, by simpa [Line.commentString] using hc.symm⟩
  · subst h; exact ⟨_, by simpa [Line.commentString] using hc.symm⟩
  · subst h; exact ⟨_, by simpa [Line.commentString] using hc.symm⟩
  · subst h; exact ⟨_, by simpa [Line.commentString] using hc.symm⟩
  · subst h; simp [Line.commentString] at hc
  · subst h; simp [Line.commentString] at hc
  · split_ifs at h with hs
    · simp only [List.mem_singleton] at h
      subst h; simp [Line.commentString] at hc
    · simp at h
  · rcases h with h | h | h <;> subst h <;> simp [Line.commentString] at hc

/-- C20: `writeFooter` writes, after the blank line and the `Job complete`
comment, the end codes of the profile in their order, each with the token
`[SafeZ]` replaced by the formatted safe-Z value, and then the spindle stop when
it is not empty. Every occurrence of the token is replaced: an end code cut into
pieces at the occurrences of the token comes out as the pieces joined by the
formatted value. No emitted end code holds the token, as the formatted value
holds no bracket and is not a part of the token, which is so for every decimal
number. -/
theorem C20_footer_end_codes (g : Generator) (fmt : ℚ → String)
    (hfmt : tokenFree (fmt g.Settings.SafeZ)) :
    g.writeFooter fmt =
      [ Line.blank, Line.prefixed g.profile.CommentPrefix Text.jobComplete ]
      ++ g.profile.EndCode.map
          (fun code => Line.code (ReplaceAll code "[SafeZ]" (fmt g.Settings.SafeZ)))
      ++ (if g.profile.SpindleStop ≠ "" then [Line.code g.profile.SpindleStop] else []) ∧
    (∀ pieces : List (List Char), (∀ p ∈ pieces, ¬ "[SafeZ]".data <:+: p) →
      (ReplaceAll (String.mk (List.intercalate "[SafeZ]".data pieces)) "[SafeZ]"
        (fmt g.Settings.SafeZ)).data =
        List.intercalate (fmt g.Settings.SafeZ).data pieces) ∧
    (∀ code ∈ g.profile.EndCode,
      ¬ "[SafeZ]".data <:+: (ReplaceAll code "[SafeZ]" (fmt g.Settings.SafeZ)).data) ∧
    (∀ s : String, decimalText s → tokenFree s) := by
  have htok : "[SafeZ]".data = '[' :: ['S', 'a', 'f', 'e', 'Z', ']'] := rfl
  refine ⟨rfl, ?_, ?_, decimalText_tokenFree⟩
  · intro pieces hp
    rw [replaceAll_safeZ_data, htok]
    rw [htok] at hp
    exact replaceGo_intercalate _ _ _ (by decide) pieces hp
  · intro code _
    rw [replaceAll_safeZ_data]
    obtain ⟨h2, h3, h4⟩ := hfmt
    rw [htok] at h4 ⊢
    have hlast : ∀ u, u <:+ ['S', 'a', 'f', 'e', 'Z', ']'] → u ≠ [] → ']' ∈ u := by
      intro u hu
      rw [← List.mem_tails] at hu
      revert u
      decide
    exact replaceGo_no_token '[' ']' _ _ h2 h3 hlast
      (fun hi => h4 (List.infix_cons hi)) _ 0

/-- C20 on the profile of scenario S5, whose end codes are `G0 Z[SafeZ]` and
`M30` and whose spindle stop is `M5`, with the safe-Z value 5 written as
`5.000`. -/
theorem C20_witness :
    tokenFree (sampleFormat sampleGen.Settings.SafeZ) ∧
    sampleGen.writeFooter sampleFormat =
      [ Line.blank, Line.prefixed ";" Text.jobComplete, Line.code "G0 Z5.000",
        Line.code "M30", Line.code "M5" ] ∧
    ¬ "[SafeZ]".data <:+: "G0 Z5.000".data := by
  have hv : sampleFormat sampleGen.Settings.SafeZ = "5.000" := by
    simp [sampleFormat, sampleGen, sampleSettings]
  have hfree : tokenFree (sampleFormat sampleGen.Settings.SafeZ) := by
    rw [hv]; decide
  have h := C20_footer_end_codes sampleGen sampleFormat hfree
  have h1 : ReplaceAll "G0 Z[SafeZ]" "[SafeZ]" "5.000" = "G0 Z5.000" := by decide
  have h2 : ReplaceAll "M30" "[SafeZ]" "5.000" = "M30" := by decide
  refine ⟨hfree, ?_, ?_⟩
  · rw [h.1, hv]
    simp [sampleGen, sampleProfile, h1, h2]
  · have h3 := h.2.2.1 "G0 Z[SafeZ]" (by simp [sampleGen, sampleProfile])
    rw [hv, h1] at h3
    exact h3

/-- C21: `GenerateAll` returns one program per sheet of the result, in sheet
order, the program at position `i` (from 0) being `GenerateSheet` of that sheet
with the sheet index `i + 1`. Each program is the header, then the part blocks,
then the footer; the block at position `j` (from 0) is `writePart` of the
placement at that position with the part number `j + 1`, so the part banners of
the program carry the numbers `1 .. n` and the labels of the placements in
order. -/
theorem C21_programs_and_blocks_in_order (g : Generator) (fmt : ℚ → String)
    (result : OptimizeResult) :
    (g.GenerateAll fmt result).length = result.Sheets.length ∧
    (∀ (i : Nat) (sheet : SheetResult), result.Sheets[i]? = some sheet →
      (g.GenerateAll fmt result)[i]? = some (g.GenerateSheet fmt sheet ((i : Int) + 1))) ∧
    (∀ (sheet : SheetResult) (idx : Int),
      ∃ blocks : List (List Line),
        g.GenerateSheet fmt sheet idx =
          g.writeHeader sheet idx ++ blocks.flatten ++ g.writeFooter fmt ∧
        blocks.length = sheet.Placements.length ∧
        (∀ (j : Nat) (p : Placement), sheet.Placements[j]? = some p →
          blocks[j]? = some (g.writePart p ((j : Int) + 1))) ∧
        (g.GenerateSheet fmt sheet idx).filterMap Line.banner? =
          sheet.Placements.enum.map (fun jp => ((jp.1 : Int) + 1, jp.2.Part.Label))) := by
  refine ⟨by simp [Generator.GenerateAll], ?_, ?_⟩
  · intro i sheet hi
    simp [Generator.GenerateAll, List.getElem?_enum, hi]
  · intro sheet idx
    refine ⟨sheet.Placements.enum.map (fun ip => g.writePart ip.2 ((ip.1 : Int) + 1)),
      ?_, by simp, ?_, ?_⟩
    · simp only [Generator.GenerateSheet, List.flatMap, List.flatten]
    · intro j p hj
      simp [List.getElem?_enum, hj]
    · simp only [Generator.GenerateSheet, List.filterMap_append, filterMap_flatMap_lines,
        writePart_banners, writeHeader_banners, writeFooter_banners, List.nil_append,
        List.append_nil, flatMap_singleton_map]

/-- C21 on a result with the one sheet that holds the part of scenario S5: one
program, that of the sheet with index 1, whose only banner is `Part 1` with the
label `A`. -/
theorem C21_witness :
    (sampleGen.GenerateAll sampleFormat { Sheets := [sampleSheet] })[0]? =
      some (sampleGen.GenerateSheet sampleFormat sampleSheet 1) ∧
    (sampleGen.GenerateSheet sampleFormat sampleSheet 1).filterMap Line.banner? =
      [(1, "A")] := by
  have h := C21_programs_and_blocks_in_order sampleGen sampleFormat { Sheets := [sampleSheet] }
  constructor
  · simpa using h.2.1 0 sampleSheet rfl
  · obtain ⟨blocks, _, _, _, hb⟩ := h.2.2 sampleSheet 1
    rw [hb]
    simp [sampleSheet, samplePlacement, List.enum, List.enumFrom]

/-- C22 (refuted, a defect of the code): `Search` also looks into the notes of a
part, against its own documentation (`label or tags`). In the library that
holds one part with label `Shelf`, notes `oak` and no tags, `Search("oak")`
returns the part although neither its label nor a tag contains the query. For
every library and non-empty query the result is, in library order, the parts
whose label, notes or one of whose tags contains the query without regard to
ASCII letter case; queries that differ only in ASCII case give the same result,
and the empty query gives all parts. -/
theorem C22_search_also_matches_notes :
    notedLibrary.Search "oak" = [notedPart] ∧
    ¬ foldContains notedPart.Label "oak" ∧ notedPart.Tags = [] ∧
    (∀ (lib : PartsLibrary) (q : String), q ≠ "" →
      lib.Search q = lib.parts.filter (fun p =>
        decide (foldContains p.Label q ∨ foldContains p.Notes q ∨
          ∃ t ∈ p.Tags, foldContains t q))) ∧
    (∀ (lib : PartsLibrary) (q q' : String), q ≠ "" → q' ≠ "" → toLower q = toLower q' →
      lib.Search q = lib.Search q') ∧
    (∀ lib : PartsLibrary, lib.Search "" = lib.parts) := by
  refine ⟨by decide, by decide, rfl, ?_, ?_, ?_⟩
  · intro lib q hq
    unfold PartsLibrary.Search
    rw [if_neg hq]
    apply List.filter_congr
    intro p _
    rw [Bool.eq_iff_iff, searchHit_iff, decide_eq_true_iff]
  · intro lib q q' hq hq' h
    unfold PartsLibrary.Search
    rw [if_neg hq, if_neg hq', h]
  · intro lib
    rfl

/-- C23: `SearchAndFilter(q, c)` combines the two filters. It holds exactly the
parts that are in both `Search(q)` and `FilterByCategory(c)`, in library order:
it is the parts list filtered by both tests, it is `Search(q)` run on the parts
that `FilterByCategory(c)` returns, and it is `FilterByCategory(c)` run on the
parts that `Search(q)` returns. `FilterByCategory(c)` returns all parts when `c`
is empty or `All`, and otherwise exactly the parts whose category is `c`. -/
theorem C23_search_and_filter_combines (lib : PartsLibrary) (q c : String) :
    (∀ p, p ∈ lib.SearchAndFilter q c ↔ p ∈ lib.Search q ∧ p ∈ lib.FilterByCategory c) ∧
    lib.SearchAndFilter q c =
      lib.parts.filter (fun p =>
        (decide (c = "" ∨ c = "All") || decide (p.Category = c)) &&
        (decide (q = "") || searchHit (toLower q) p)) ∧
    lib.SearchAndFilter q c =
      PartsLibrary.Search { lib with Parts := some (lib.FilterByCategory c) } q ∧
    lib.SearchAndFilter q c =
      PartsLibrary.FilterByCategory { lib with Parts := some (lib.Search q) } c ∧
    (c = "" ∨ c = "All" → lib.FilterByCategory c = lib.parts) ∧
    (¬ (c = "" ∨ c = "All") →
      lib.FilterByCategory c = lib.parts.filter (fun p => decide (p.Category = c))) := by
  refine ⟨?_, ?_, ?_, ?_, ?_, ?_⟩
  · intro p
    unfold PartsLibrary.SearchAndFilter PartsLibrary.Search PartsLibrary.FilterByCategory
    by_cases hq : q = "" <;> by_cases hc : c = "" ∨ c = "All" <;>
      simp only [hq, hc, if_true, if_false, List.mem_filter] <;> tauto
  · unfold PartsLibrary.SearchAndFilter PartsLibrary.FilterByCategory
    by_cases hq : q = "" <;> by_cases hc : c = "" ∨ c = "All" <;>
      simp [hq, hc, List.filter_filter, Bool.and_comm]
  · unfold PartsLibrary.SearchAndFilter PartsLibrary.Search PartsLibrary.parts
    rfl
  · unfold PartsLibrary.SearchAndFilter PartsLibrary.Search PartsLibrary.FilterByCategory
      PartsLibrary.parts
    by_cases hq : q = "" <;> by_cases hc : c = "" ∨ c = "All" <;>
      simp [hq, hc, List.filter_filter, Bool.and_comm]
  · intro hc
    unfold PartsLibrary.FilterByCategory
    rw [if_pos hc]
  · intro hc
    unfold PartsLibrary.FilterByCategory
    rw [if_neg hc]

/-- C23 on the library with the one part `notedPart` of category `General`. -/
theorem C23_witness :
    notedLibrary.SearchAndFilter "oak" "General" = [notedPart] ∧
    notedLibrary.SearchAndFilter "oak" "Kitchen" = [] ∧
    notedLibrary.FilterByCategory "All" = [notedPart] := by
  have h1 := C23_search_and_filter_combines notedLibrary "oak" "General"
  have h2 := C23_search_and_filter_combines notedLibrary "oak" "Kitchen"
  have h3 := C23_search_and_filter_combines notedLibrary "x" "All"
  refine ⟨?_, ?_, ?_⟩
  · rw [h1.2.1]; decide
  · rw [h2.2.1]; decide
  · rw [h3.2.2.2.2.1 (Or.inr rfl)]; rfl

/-- C24: after `AddPart(p)` the parts list is the old list followed by `p'`,
where `p'` is `p` with the category `General` when the category of `p` is empty
and `p` itself otherwise; the categories list is the old list when it holds the
category of `p'`, and the old list followed by that category when it does
not. -/
theorem C24_add_part (lib : PartsLibrary) (p : LibraryPart) :
    (lib.AddPart p).parts =
      lib.parts ++ [if p.Category = "" then { p with Category := "General" } else p] ∧
    (lib.AddPart p).Categories =
      (if (if p.Category = "" then { p with Category := "General" } else p).Category ∈
          lib.Categories then lib.Categories
       else lib.Categories ++
        [(if p.Category = "" then { p with Category := "General" } else p).Category]) := by
  constructor
  · unfold PartsLibrary.AddPart PartsLibrary.parts
    simp only [ensureCategory_parts, Option.getD_some]
  · unfold PartsLibrary.AddPart
    simp only [ensureCategory_categories]

/-- C24 on the fresh library and a part without a category, and on a part of a
new category. -/
theorem C24_witness :
    (NewPartsLibrary.AddPart { notedPart with Category := "" }).parts = [notedPart] ∧
    (NewPartsLibrary.AddPart { notedPart with Category := "" }).Categories = ["General"] ∧
    (NewPartsLibrary.AddPart { notedPart with Category := "Kitchen" }).Categories =
      ["General", "Kitchen"] := by
  have h1 := C24_add_part NewPartsLibrary { notedPart with Category := "" }
  have h2 := C24_add_part NewPartsLibrary { notedPart with Category := "Kitchen" }
  refine ⟨?_, ?_, ?_⟩
  · rw [h1.1]; decide
  · rw [h1.2]; decide
  · rw [h2.2]; decide

/-- C25: `RemovePart(id)` removes the first part with the ID and nothing else.
The remaining parts are the parts before it followed by the parts after it, in
their order; when no part has the ID the library is unchanged; the categories
list is never changed; and when no two parts share an ID, `FindByID(id)`
returns nil afterwards. -/
theorem C25_remove_part (lib : PartsLibrary) (id : String) :
    (lib.RemovePart id).Categories = lib.Categories ∧
    (lib.RemovePart id).parts = lib.parts.eraseP (fun p => decide (p.ID = id)) ∧
    (∀ (before after : List LibraryPart) (p : LibraryPart),
      lib.parts = before ++ p :: after → p.ID = id → (∀ x ∈ before, x.ID ≠ id) →
      (lib.RemovePart id).parts = before ++ after) ∧
    ((∀ x ∈ lib.parts, x.ID ≠ id) → lib.RemovePart id = lib) ∧
    ((lib.parts.map (fun p => p.ID)).Nodup → (lib.RemovePart id).FindByID id = none) := by
  refine ⟨rfl, ?_, ?_, ?_, ?_⟩
  · rw [removePart_parts, removeGo_eq_eraseP]
  · intro before after p hl hp hb
    rw [removePart_parts, hl, removeGo_split id p after hp before hb]
  · intro h
    unfold PartsLibrary.RemovePart
    cases hP : lib.Parts with
    | none => cases lib; simp_all
    | some l =>
      have hl : lib.parts = l := by unfold PartsLibrary.parts; rw [hP]; rfl
      rw [hl] at h
      simp only [Option.map_some', removeGo_absent id l h]
      cases lib
      simp_all
  · intro hnd
    unfold PartsLibrary.FindByID
    rw [find_absent, removePart_parts]
    by_cases hex : ∃ p ∈ lib.parts, p.ID = id
    · obtain ⟨before, p, after, hl, hp, hb⟩ := exists_first_with_id id lib.parts hex
      rw [hl, removeGo_split id p after hp before hb]
      rw [hl] at hnd
      simp only [List.map_append, List.map_cons] at hnd
      have hnd' := List.nodup_append.mp hnd
      have hpa : p.ID ∉ after.map (fun p => p.ID) := (List.nodup_cons.mp hnd'.2.1).1
      intro x hx
      rcases List.mem_append.mp hx with hx | hx
      · exact hb x hx
      · intro hxid
        apply hpa
        rw [hp, ← hxid]
        exact List.mem_map_of_mem _ hx
    · push_neg at hex
      rw [removeGo_absent id _ hex]
      exact hex

/-- C25 on the library with the parts `p1` and `p2`: removing `p1` leaves `p2`
and the categories, and `p1` is not found afterwards. -/
theorem C25_witness :
    (twoPartLibrary.RemovePart "p1").parts = [doorPart] ∧
    (twoPartLibrary.RemovePart "p1").Categories = ["General", "Kitchen"] ∧
    (twoPartLibrary.RemovePart "p1").FindByID "p1" = none ∧
    twoPartLibrary.RemovePart "p3" = twoPartLibrary := by
  have h := C25_remove_part twoPartLibrary "p1"
  have h3 := C25_remove_part twoPartLibrary "p3"
  refine ⟨h.2.2.1 [] [doorPart] notedPart rfl rfl (by simp), h.1, h.2.2.2.2 (by decide),
    h3.2.2.2.1 (by decide)⟩

/-- C26: when some part has the ID of `u`, `UpdatePart(u)` puts `u` in the place
of the first such part and leaves the parts at the other positions as they are,
so the number of parts is unchanged and `FindByID(u.ID)` returns `u`
afterwards; when no part has the ID of `u`, the library is unchanged, parts and
categories. `FindByID(id)` returns nil exactly when no part has the ID, and
otherwise the first part with that ID. -/
theorem C26_update_part (lib : PartsLibrary) (u : LibraryPart) :
    (∀ (before after : List LibraryPart) (p : LibraryPart),
      lib.parts = before ++ p :: after → p.ID = u.ID → (∀ x ∈ before, x.ID ≠ u.ID) →
      (lib.UpdatePart u).parts = before ++ u :: after) ∧
    ((∃ p ∈ lib.parts, p.ID = u.ID) →
      (lib.UpdatePart u).FindByID u.ID = some u ∧
      (lib.UpdatePart u).parts.length = lib.parts.length) ∧
    ((∀ x ∈ lib.parts, x.ID ≠ u.ID) → lib.UpdatePart u = lib) ∧
    (∀ id : String, lib.FindByID id = none ↔ ∀ x ∈ lib.parts, x.ID ≠ id) ∧
    (∀ (id : String) (before after : List LibraryPart) (p : LibraryPart),
      lib.parts = before ++ p :: after → p.ID = id → (∀ x ∈ before, x.ID ≠ id) →
      lib.FindByID id = some p) := by
  have hsplit : ∀ (before after : List LibraryPart) (p : LibraryPart),
      lib.parts = before ++ p :: after → p.ID = u.ID → (∀ x ∈ before, x.ID ≠ u.ID) →
      (lib.UpdatePart u).parts = before ++ u :: after := by
    intro before after p hl hp hb
    unfold PartsLibrary.UpdatePart
    rw [hl, updateGo_split u p after hp before hb]
    simp only [PartsLibrary.parts, ensureCategory_parts, Option.getD_some]
  refine ⟨hsplit, ?_, ?_, ?_, ?_⟩
  · intro hex
    obtain ⟨before, p, after, hl, hp, hb⟩ := exists_first_with_id u.ID lib.parts hex
    have hparts := hsplit before after p hl hp hb
    constructor
    · unfold PartsLibrary.FindByID
      rw [hparts]
      exact find_split u.ID u after rfl before hb
    · rw [hparts, hl]
      simp
  · intro h
    unfold PartsLibrary.UpdatePart
    rw [updateGo_absent u lib.parts h]
  · intro id
    unfold PartsLibrary.FindByID
    exact find_absent id lib.parts
  · intro id before after p hl hp hb
    unfold PartsLibrary.FindByID
    rw [hl]
    exact find_split id p after hp before hb

/-- C26 on the library with the parts `p1` and `p2`: updating `p2` with a new
label leaves `p1` in place, and an update with the unknown ID `p3` changes
nothing. -/
theorem C26_witness :
    (twoPartLibrary.UpdatePart { doorPart with Label := "Front door" }).parts =
      [notedPart, { doorPart with Label := "Front door" }] ∧
    (twoPartLibrary.UpdatePart { doorPart with Label := "Front door" }).FindByID "p2" =
      some { doorPart with Label := "Front door" } ∧
    twoPartLibrary.UpdatePart { doorPart with ID := "p3" } = twoPartLibrary := by
  have h := C26_update_part twoPartLibrary { doorPart with Label := "Front door" }
  have h3 := C26_update_part twoPartLibrary { doorPart with ID := "p3" }
  refine ⟨h.1 [notedPart] [] doorPart rfl rfl (by decide), (h.2.1 (by decide)).1,
    h3.2.2.1 (by decide)⟩

/-- C27: with `cut_depth > 0` and `pass_depth > 0`, `writePart` emits at least
one pass; its plunges go to the depths of the passes `1 .. numPasses`; these
depths are strictly increasing; every pass before the last is strictly
shallower than `cut_depth`; and the last pass cuts to exactly `cut_depth`. -/
theorem C27_pass_depths_increase_to_cut_depth (g : Generator) (p : Placement)
    (partNum : Int) (hc : 0 < g.Settings.CutDepth) (hp : 0 < g.Settings.PassDepth) :
    0 < g.numPasses ∧
    (g.writePart p partNum).filterMap Line.plungeZ? =
      (List.range g.numPasses.toNat).map
        (fun (i : Nat) => -(g.passDepth ((i : Int) + 1))) ∧
    (∀ i j : Int, 1 ≤ i → i < j → j ≤ g.numPasses → g.passDepth i < g.passDepth j) ∧
    (∀ i : Int, 1 ≤ i → i < g.numPasses → g.passDepth i < g.Settings.CutDepth) ∧
    g.passDepth g.numPasses = g.Settings.CutDepth := by
  refine ⟨numPasses_pos g hc hp, writePart_plunges g p partNum, ?_, ?_,
    passDepth_final g hp⟩
  · intro i j _ hij hj
    obtain ⟨hi1, hi2⟩ := passDepth_before_last g hp i (lt_of_lt_of_le hij hj)
    rw [hi2, passDepth_eq_min, lt_min_iff]
    refine ⟨?_, hi1⟩
    have : (i : ℚ) < (j : ℚ) := by exact_mod_cast hij
    exact mul_lt_mul_of_pos_right this hp
  · intro i _ hi
    obtain ⟨hi1, hi2⟩ := passDepth_before_last g hp i hi
    rw [hi2]
    exact hi1

/-- C27 on scenario S5: the three passes plunge to 5, 10 and 12. -/
theorem C27_witness :
    (0 : ℚ) < sampleGen.Settings.CutDepth ∧ (0 : ℚ) < sampleGen.Settings.PassDepth ∧
    (sampleGen.writePart samplePlacement 1).filterMap Line.plungeZ? = [-5, -10, -12] ∧
    sampleGen.passDepth 1 < sampleGen.passDepth 2 ∧
    sampleGen.passDepth 2 < sampleGen.passDepth 3 ∧
    sampleGen.passDepth 3 = 12 := by
  have hc : (0 : ℚ) < sampleGen.Settings.CutDepth := by norm_num [sampleGen, sampleSettings]
  have hp : (0 : ℚ) < sampleGen.Settings.PassDepth := by norm_num [sampleGen, sampleSettings]
  have h := C27_pass_depths_increase_to_cut_depth sampleGen samplePlacement 1 hc hp
  refine ⟨hc, hp, ?_, ?_, ?_, ?_⟩
  · rw [h.2.1, sample_numPasses]
    norm_num [List.range, List.range.loop, Generator.passDepth, sampleGen, sampleSettings]
  · exact h.2.2.1 1 2 (by norm_num) (by norm_num) (by rw [sample_numPasses]; norm_num)
  · exact h.2.2.1 2 3 (by norm_num) (by norm_num) (by rw [sample_numPasses])
  · have h3 := h.2.2.2.2
    rw [sample_numPasses] at h3
    rw [h3]
    norm_num [sampleGen, sampleSettings]

/-- C28 (refuted, a defect of the code): with two tabs per side that are 40
wide, on the 100 x 50 part of scenario S5 cut with a tool of diameter 6, the
final pass leaves the offset rectangle `[-3, 103] x [-3, 53]`. On the right
side, which runs from `(103, -3)` up to `(103, 53)`, the second tab ends at
`y = 163/3`, beyond the end corner, and the tool then comes back down to the
corner; on the left side, which runs down to `(-3, -3)`, the second tab ends at
`y = -13/3`, below the end corner. The side loop only keeps a tab from starting
behind the cursor; nothing keeps a tab end within the side. -/
theorem C28_wide_tab_overshoots_corner :
    0 < samplePlacement.Part.Width ∧ 0 < samplePlacement.Part.Height ∧
    0 < wideTabGen.Settings.PartTabsPerSide ∧ 0 < wideTabGen.Settings.PartTabWidth ∧
    samplePlacement.Y + samplePlacement.PlacedHeight + wideTabGen.Settings.ToolDiameter / 2
      = 53 ∧
    samplePlacement.Y - wideTabGen.Settings.ToolDiameter / 2 = -3 ∧
    xyPoints (wideTabGen.writePass samplePlacement (wideTabGen.calculateTabs samplePlacement)
        wideTabGen.numPasses) =
      [(-3, -3), (37 / 3, -3), (157 / 3, -3), (263 / 3, -3), (103, -3),
       (103, 107 / 3), (103, 163 / 3), (103, 53),
       (263 / 3, 53), (143 / 3, 53), (37 / 3, 53), (-3, 53),
       (-3, 43 / 3), (-3, -13 / 3), (-3, -3)] ∧
    (53 : ℚ) < 163 / 3 ∧ (-13 / 3 : ℚ) < -3 := by
  refine ⟨by norm_num [samplePlacement], by norm_num [samplePlacement], by decide,
    by norm_num [wideTabGen, wideTabSettings], ?_, ?_, ?_, by norm_num, by norm_num⟩
  · norm_num [samplePlacement, Placement.PlacedHeight, wideTabGen, wideTabSettings,
      sampleSettings]
  · norm_num [samplePlacement, wideTabGen, wideTabSettings, sampleSettings]
  · rw [wideTab_final_pass]
    simp [xyPoints, Line.xy?]

/-- C29: in every library reached from `NewPartsLibrary()` by a sequence of
`AddPart`, `RemovePart`, `UpdatePart` and `AddCategory` calls, the categories
list holds `General`, has no entry twice and holds the category of every part
of the library. -/
theorem C29_categories_invariant (cs : List LibraryCall) :
    "General" ∈ (NewPartsLibrary.calls cs).Categories ∧
    (NewPartsLibrary.calls cs).Categories.Nodup ∧
    ∀ p ∈ (NewPartsLibrary.calls cs).parts,
      p.Category ∈ (NewPartsLibrary.calls cs).Categories :=
  categoriesCover_calls cs NewPartsLibrary
    ⟨by decide, by decide, fun p hp => absurd hp (by simp [PartsLibrary.parts, NewPartsLibrary])⟩

/-- C29 on a sequence of calls that adds a part without a category, moves it to
the category `Kitchen`, adds the category `Kitchen` again and removes the part:
the categories are `General` and `Kitchen`, each once. -/
theorem C29_witness :
    (NewPartsLibrary.calls
      [LibraryCall.addPart { notedPart with Category := "" },
       LibraryCall.updatePart { notedPart with Category := "Kitchen" },
       LibraryCall.addCategory "Kitchen",
       LibraryCall.removePart "p1"]).Categories = ["General", "Kitchen"] ∧
    (NewPartsLibrary.calls
      [LibraryCall.addPart { notedPart with Category := "" },
       LibraryCall.updatePart { notedPart with Category := "Kitchen" },
       LibraryCall.addCategory "Kitchen",
       LibraryCall.removePart "p1"]).Categories.Nodup :=
  ⟨by decide, (C29_categories_invariant _).2.1⟩

/-- C30 (refuted, a defect of the code): the line number in a message is one
more than the position of the row. The file whose only row is `Shelf,600` gets
the error `Line 2: Not enough columns`, and after a header row the row
`Shelf,600,0,2` at position 2 gets `Line 3: Width, height, and quantity must be
positive`. For every record list, with or without a header, the
row at position `i + 1` (index `i` from 0) is handled with the line number
`i + 2`: the counter starts at `startRow + 1` and is raised once more at the
top of the loop body before the row is looked at. -/
theorem C30_line_numbers_one_too_high :
    ImportCSV sampleStrconv [["Shelf", "600"]] =
      { Parts := [], Errors := [ImportError.notEnoughColumns 2], Warnings := [] } ∧
    ImportCSV sampleStrconv
        [["label", "width", "height", "quantity"], ["Shelf", "600", "0", "2"]] =
      { Parts := [], Errors := [ImportError.notPositive 3],
        Warnings := [ImportWarning.headerSkipped] } ∧
    (∀ (sc : Strconv) (records : List (List String)), records ≠ [] →
      ImportCSV sc records =
        ((records.enumFrom 0).drop (if ImportCSV.hasHeader sc records then 1 else 0)).foldl
          (fun res ir => ImportCSV.row sc res ((ir.1 : Int) + 2) ir.2)
          { Parts := [], Errors := [],
            Warnings := if ImportCSV.hasHeader sc records then [ImportWarning.headerSkipped]
                        else [] }) := by
  refine ⟨?_, ?_, ?_⟩
  · simp [ImportCSV, ImportCSV.hasHeader, ImportCSV.loop, ImportCSV.row,
      ImportCSV.isEmptyRow, sampleStrconv]
  · simp [ImportCSV, ImportCSV.hasHeader, ImportCSV.loop, ImportCSV.row,
      ImportCSV.isEmptyRow, sampleStrconv, Float64.leZero]
  · intro sc records hne
    cases records with
    | nil => exact absurd rfl hne
    | cons first rest =>
      unfold ImportCSV
      rw [if_neg (by simp)]
      by_cases hh : ImportCSV.hasHeader sc (first :: rest)
      · simp only [hh, if_true, List.drop_one, List.tail_cons, List.enumFrom_cons,
          List.drop_succ_cons, List.drop_zero]
        exact importLoop_lineNumbers sc rest 1 _
      · simp only [hh, if_false, List.drop_zero]
        exact importLoop_lineNumbers sc (first :: rest) 0 _

end SlabCut
